import Mathlib

/-!
# ITK-SNAP slice renderer: a shallow embedding of `GenericSliceRenderer.cxx`

The development embeds the compositing code of `GUI/Renderer/GenericSliceRenderer.cxx`
(`paintGL`, `DrawImageLayers`, `GetLayerForNthTile`, `DrawMainTexture`,
`DrawTextureForLayer`, `DrawSegmentationTexture`, `DrawThumbnail`,
`DrawTiledOverlays`, `DrawGlobalOverlays`) as state-passing Lean functions over an
explicit OpenGL context, and proves properties of the tiling, of the draw order and
of the view transform.

Conventions of the embedding.

* `int` and `unsigned int` are 32 bits wide, and their values are integers: an
  `unsigned int` is an integer from `0` to `2^32 - 1`.  `unsigned` arithmetic is
  taken modulo `2^32`; conversions to `int` go through `toInt32`.  Signed overflow is
  undefined in C++; the embedding wraps it, and every theorem that depends on such
  a value assumes that it is in range.
* `double` and `float` quantities are exact rationals.
* A pointer to an `ImageWrapperBase` is the wrapper value itself; its field `id`
  is the address, so two wrappers are the same object when their `id` agree.
* A C++ exception, and the dereference of a null texture pointer, end the running
  call with a `RenderError`; the state reached so far is kept.
-/

set_option autoImplicit false

/-! ## Machine integers -/

/-- Conversion of an integer value to `int` (two's complement, 32 bits). -/
def toInt32 (z : Int) : Int :=
  if z % 4294967296 < 2147483648 then z % 4294967296 else z % 4294967296 - 4294967296

/-- Conversion of an integer value to `unsigned int` (32 bits). -/
def toUInt32 (z : Int) : Int :=
  z % 4294967296

/-! ## Layers -/

/-- The roles a layer can have (`LayerRole` of `SNAPCommon.h`). -/
inductive LayerRole where
  | MAIN_ROLE
  | OVERLAY_ROLE
  | SNAP_ROLE
  | LABEL_ROLE
  deriving DecidableEq, Repr

/-- The part of an image layer that the renderer reads: `IsSticky()`,
`IsDrawable()`, `IsInitialized()`, `GetAlpha()`.  The field `id` stands for the
address of the wrapper. -/
structure ImageWrapperBase where
  id : Nat
  sticky : Bool
  drawable : Bool
  initialized : Bool
  alpha : ℚ
  deriving DecidableEq

/-- One position of a `LayerIterator`: `GetRole()` and `GetLayer()`. -/
structure LayerEntry where
  role : LayerRole
  layer : ImageWrapperBase
  deriving DecidableEq

/-- The part of `GenericImageData` that the renderer reads.  `layers` is the
sequence that `LayerIterator it(id)` runs through, in its order. -/
structure GenericImageData where
  layers : List LayerEntry
  main : ImageWrapperBase
  mainLoaded : Bool
  segmentation : ImageWrapperBase
  segmentationLoaded : Bool

/-- Modelled from the spec: the class `LayerIterator` is not part of the rendered
sources; an iterator built with a role filter runs through the layers of that role,
in the order of the unfiltered traversal (spec 4.2, "Supports filtering by role"). -/
def LayerIterator (id : GenericImageData) (role : Option LayerRole) : List LayerEntry :=
  match role with
  | none => id.layers
  | some r => id.layers.filter (fun e => decide (e.role = r))

/-! ## Geometry -/

/-- A colour, or any other triple of `double` (`Vector3d`). -/
structure Vector3d where
  r : ℚ
  g : ℚ
  b : ℚ
  deriving DecidableEq

/-- `Vector3d(1.0)`: the vector filled with ones. -/
def Vector3d.fill (v : ℚ) : Vector3d := ⟨v, v, v⟩

/-- A point of the plane. -/
structure Point where
  x : ℚ
  y : ℚ
  deriving DecidableEq

/-- The planar part of an OpenGL matrix built from translations and scalings in
the plane: the point `(x, y)` is sent to `(a x + b y + tx, c x + d y + ty)`. -/
structure Affine where
  a : ℚ
  b : ℚ
  c : ℚ
  d : ℚ
  tx : ℚ
  ty : ℚ
  deriving DecidableEq

namespace Affine

/-- The identity matrix. -/
def identity : Affine := ⟨1, 0, 0, 1, 0, 0⟩

/-- The matrix product `M N`: `N` acts on a point first, then `M`. -/
def mul (M N : Affine) : Affine :=
  { a := M.a * N.a + M.b * N.c
    b := M.a * N.b + M.b * N.d
    c := M.c * N.a + M.d * N.c
    d := M.c * N.b + M.d * N.d
    tx := M.a * N.tx + M.b * N.ty + M.tx
    ty := M.c * N.tx + M.d * N.ty + M.ty }

/-- The translation by `(x, y)`. -/
def translate (x y : ℚ) : Affine := ⟨1, 0, 0, 1, x, y⟩

/-- The scaling by `(x, y)`. -/
def scale (x y : ℚ) : Affine := ⟨x, 0, 0, y, 0, 0⟩

/-- The planar part of the matrix of `gluOrtho2D(left, right, bottom, top)`. -/
def ortho2D (left right bottom top : ℚ) : Affine :=
  ⟨2 / (right - left), 0, 0, 2 / (top - bottom),
    -((right + left) / (right - left)), -((top + bottom) / (top - bottom))⟩

/-- The image of a point. -/
def apply (M : Affine) (p : Point) : Point :=
  ⟨M.a * p.x + M.b * p.y + M.tx, M.c * p.x + M.d * p.y + M.ty⟩

end Affine

/-! ## The OpenGL context -/

/-- The two matrix stacks that the renderer uses. -/
inductive MatrixMode where
  | GL_MODELVIEW
  | GL_PROJECTION
  deriving DecidableEq

/-- The arguments of `glViewport`. -/
structure Viewport where
  x : Int
  y : Int
  width : Int
  height : Int
  deriving DecidableEq

/-- What a drawing call puts on the screen.  A texture is named by the `id` of the
layer it is associated with. -/
inductive Primitive where
  | Clear (color : Vector3d)
  | Texture (layer : Nat) (background : Vector3d)
  | TextureTransparent (layer : Nat) (alpha : ℚ)
  | LineLoop (color : Vector3d) (vertices : List Point)
  | Delegate (id : Nat)
  deriving DecidableEq

/-- A drawing call together with the viewport and the model-view matrix that were
current when it was issued. -/
structure GLEvent where
  prim : Primitive
  viewport : Viewport
  modelview : Affine
  deriving DecidableEq

/-- The OpenGL state that the renderer touches, and the list of what has been
drawn so far (`frame`, oldest first). -/
structure GLContext where
  matrixMode : MatrixMode
  modelview : Affine
  modelviewStack : List Affine
  projection : Affine
  projectionStack : List Affine
  viewport : Viewport
  clearColor : Vector3d
  color : Vector3d
  vertices : Option (List Point)
  frame : List GLEvent

/-! ## The model and the renderer -/

/-- `GlobalDisplaySettings::GetGreyInterpolationMode()`. -/
inductive InterpolationMode where
  | NEAREST
  | LINEAR
  deriving DecidableEq

/-- The part of an `OpenGLAppearanceElement` that the renderer reads. -/
structure OpenGLAppearanceElement where
  visible : Bool
  normalColor : Vector3d
  activeColor : Vector3d

/-- An `OpenGLSliceTexture`: the image it shows (`SetImage`) and its interpolation
(`SetInterpolation`). -/
structure Texture where
  image : Nat
  interpolation : InterpolationMode
  deriving DecidableEq

/-- An overlay delegate (`SliceRendererDelegate`).  Its `paintGL` is foreign to the
renderer: it either paints, which is recorded under its `id`, or throws. -/
structure RendererDelegate where
  id : Nat
  throws : Bool

/-- What the renderer reads from `GenericSliceModel` and, through `GetParentUI()`,
from the display layout, the appearance settings, the display settings and the
global state.  `layout`, `size` and `viewportSize` have components of type
`unsigned int`.
`thumbnailPosition` and `thumbnailZoom` are the values that
`ComputeThumbnailProperties()` leaves in the model.  `id` is `GetId()`, the number
of the slice view, and `displaySlice k i` is the address of the image that
`GetDisplaySlice(i)` returns for the layer at the address `k`. -/
structure GenericSliceModel where
  id : Nat
  displaySlice : Nat → Nat → Nat
  imageData : GenericImageData
  layout : Int × Int
  size : Int × Int
  viewportSize : Int × Int
  sliceInitialized : Bool
  viewZoom : ℚ
  viewPosition : ℚ × ℚ
  sliceSpacing : ℚ × ℚ
  sliceSize : Int × Int
  thumbnailOn : Bool
  thumbnailPosition : Int × Int
  thumbnailZoom : ℚ
  background2D : OpenGLAppearanceElement
  zoomThumbnail : OpenGLAppearanceElement
  overallVisibility : Bool
  greyInterpolationMode : InterpolationMode
  segmentationAlpha : ℚ

/-- The renderer object together with the OpenGL context it draws into.
`m_Texture` is the layer association: the texture of the layer with a given `id`,
if there is one. -/
structure GenericSliceRenderer where
  m_Model : GenericSliceModel
  m_ThumbnailDrawing : Bool
  m_Texture : Nat → Option Texture
  m_TiledOverlays : List RendererDelegate
  m_GlobalOverlays : List RendererDelegate
  gl : GLContext

/-- The ways a call can end abnormally. -/
inductive RenderError where
  | NullTexture
  | DelegateException (id : Nat)
  deriving DecidableEq

/-- A member function of the renderer: from the state before the call to its
outcome and the state after it.  An error ends the call; the state is kept. -/
def Render (α : Type) : Type :=
  GenericSliceRenderer → Except RenderError α × GenericSliceRenderer

namespace Render

/-- Run a call from a state. -/
def run {α : Type} (m : Render α) (s : GenericSliceRenderer) :
    Except RenderError α × GenericSliceRenderer := m s

/-- A call that returns at once. -/
def ret {α : Type} (a : α) : Render α := fun s => (Except.ok a, s)

/-- What follows a call that has ended: the rest runs only if the call ended
normally. -/
def andThen {α β : Type} (r : Except RenderError α × GenericSliceRenderer)
    (f : α → Render β) : Except RenderError β × GenericSliceRenderer :=
  match r with
  | (Except.ok a, s1) => f a s1
  | (Except.error e, s1) => (Except.error e, s1)

/-- Sequencing of two calls. -/
def seq {α β : Type} (m : Render α) (f : α → Render β) : Render β := fun s =>
  andThen (m s) f

instance : Monad Render where
  pure := ret
  bind := seq

/-- The current state. -/
def read : Render GenericSliceRenderer := fun s => (Except.ok s, s)

/-- A change of the renderer state. -/
def update (f : GenericSliceRenderer → GenericSliceRenderer) : Render Unit :=
  fun s => (Except.ok (), f s)

/-- A change of the OpenGL context. -/
def updateGL (f : GLContext → GLContext) : Render Unit :=
  update (fun s => { s with gl := f s.gl })

/-- Abnormal end of the call. -/
def fail {α : Type} (e : RenderError) : Render α := fun s => (Except.error e, s)

/-- Put a primitive on the screen, under the current viewport and model-view
matrix. -/
def emit (p : Primitive) : Render Unit :=
  updateGL (fun g => { g with frame := g.frame ++ [⟨p, g.viewport, g.modelview⟩] })

/-- The state in which a call ends. -/
def exec {α : Type} (m : Render α) (s : GenericSliceRenderer) : GenericSliceRenderer :=
  (m.run s).2

/-- A loop over a sequence: the body runs on each element in turn, and the loop
ends at the first body that ends abnormally. -/
def forEach {α : Type} : List α → (α → Render Unit) → Render Unit
  | [], _ => pure ()
  | a :: rest, body => do
    body a
    forEach rest body

/-- The loop `for(int i = 0; i < n; i++)`. -/
def forRange (n : Int) (body : Int → Render Unit) : Render Unit :=
  forEach ((List.range n.toNat).map Int.ofNat) body

end Render

/-! ## OpenGL calls -/

/-- Multiply the current matrix of the current matrix mode on the right. -/
def glMultMatrix (M : Affine) : Render Unit :=
  Render.updateGL (fun g =>
    match g.matrixMode with
    | MatrixMode.GL_MODELVIEW => { g with modelview := g.modelview.mul M }
    | MatrixMode.GL_PROJECTION => { g with projection := g.projection.mul M })

def glViewport (x y width height : Int) : Render Unit :=
  Render.updateGL (fun g => { g with viewport := ⟨x, y, width, height⟩ })

def glMatrixMode (mode : MatrixMode) : Render Unit :=
  Render.updateGL (fun g => { g with matrixMode := mode })

def glLoadIdentity : Render Unit :=
  Render.updateGL (fun g =>
    match g.matrixMode with
    | MatrixMode.GL_MODELVIEW => { g with modelview := Affine.identity }
    | MatrixMode.GL_PROJECTION => { g with projection := Affine.identity })

def gluOrtho2D (left right bottom top : ℚ) : Render Unit :=
  glMultMatrix (Affine.ortho2D left right bottom top)

def glPushMatrix : Render Unit :=
  Render.updateGL (fun g =>
    match g.matrixMode with
    | MatrixMode.GL_MODELVIEW => { g with modelviewStack := g.modelview :: g.modelviewStack }
    | MatrixMode.GL_PROJECTION =>
      { g with projectionStack := g.projection :: g.projectionStack })

/-- Popping an empty stack leaves the matrix as it is (OpenGL then only records
`GL_STACK_UNDERFLOW`). -/
def glPopMatrix : Render Unit :=
  Render.updateGL (fun g =>
    match g.matrixMode with
    | MatrixMode.GL_MODELVIEW =>
      match g.modelviewStack with
      | [] => g
      | M :: rest => { g with modelview := M, modelviewStack := rest }
    | MatrixMode.GL_PROJECTION =>
      match g.projectionStack with
      | [] => g
      | M :: rest => { g with projection := M, projectionStack := rest })

/-- The call `glTranslated(x, y, 0.0)`. -/
def glTranslated (x y : ℚ) : Render Unit := glMultMatrix (Affine.translate x y)

/-- The call `glScalef(x, y, 1.0)`. -/
def glScalef (x y : ℚ) : Render Unit := glMultMatrix (Affine.scale x y)

/-- The call `glScaled(x, y, 1.0)`. -/
def glScaled (x y : ℚ) : Render Unit := glMultMatrix (Affine.scale x y)

def glClearColor (c : Vector3d) : Render Unit :=
  Render.updateGL (fun g => { g with clearColor := c })

def glClear : Render Unit := do
  let self ← Render.read
  Render.emit (Primitive.Clear self.gl.clearColor)

def glColor3dv (c : Vector3d) : Render Unit :=
  Render.updateGL (fun g => { g with color := c })

/-- The call `glBegin(GL_LINE_LOOP)`. -/
def glBegin : Render Unit :=
  Render.updateGL (fun g => { g with vertices := some [] })

def glVertex2d (x y : ℚ) : Render Unit :=
  Render.updateGL (fun g => { g with vertices := g.vertices.map (fun vs => vs ++ [⟨x, y⟩]) })

def glEnd : Render Unit := do
  let self ← Render.read
  match self.gl.vertices with
  | some vs =>
    Render.emit (Primitive.LineLoop self.gl.color vs)
    Render.updateGL (fun g => { g with vertices := none })
  | none => pure ()

/-- The attribute stack, the lighting switch and the flush have no part in what
is proved here: `glPushAttrib`, `glPopAttrib`, `glDisable(GL_LIGHTING)` and
`glFlush` leave the context as it is. -/
def glPushAttrib : Render Unit := pure ()

def glPopAttrib : Render Unit := pure ()

def glDisable : Render Unit := pure ()

def glFlush : Render Unit := pure ()

/-! ## The renderer -/

namespace GenericSliceRenderer

/-- The loop of `GetLayerForNthTile`: `togo` layers that are main or not sticky
are still to be skipped. -/
def GetLayerForNthTile.loop : List LayerEntry → Int → Option ImageWrapperBase
  | [], _ => none
  | it :: rest, togo =>
    if it.role = LayerRole.MAIN_ROLE ∨ it.layer.sticky = false then
      if togo = 0 then
        (if it.layer.drawable then some it.layer else none)
      else GetLayerForNthTile.loop rest (toInt32 (togo - 1))
    else GetLayerForNthTile.loop rest togo

/-- `GenericSliceRenderer::GetLayerForNthTile(int row, int col)`; the result
`none` is the null pointer. -/
def GetLayerForNthTile (self : GenericSliceRenderer) (row col : Int) :
    Option ImageWrapperBase :=
  let layout := self.m_Model.layout
  let ncols := toInt32 layout.2
  let togo := toInt32 (row * ncols + col)
  GetLayerForNthTile.loop (LayerIterator self.m_Model.imageData none) togo

/-- `Texture::SetInterpolation` on the texture of a layer. -/
def SetInterpolation (layer : Nat) (interp : InterpolationMode) : Render Unit :=
  Render.update (fun s =>
    { s with m_Texture := fun k =>
        if k = layer then (s.m_Texture k).map (fun t => { t with interpolation := interp })
        else s.m_Texture k })

/-- `GenericSliceRenderer::DrawTextureForLayer`. -/
def DrawTextureForLayer (layer : ImageWrapperBase) (use_transparency : Bool) :
    Render Unit := do
  let self ← Render.read
  let interp := self.m_Model.greyInterpolationMode
  match self.m_Texture layer.id with
  | some _ =>
    SetInterpolation layer.id interp
    if use_transparency then
      Render.emit (Primitive.TextureTransparent layer.id layer.alpha)
    else
      let clrBackground :=
        if self.m_ThumbnailDrawing then self.m_Model.zoomThumbnail.normalColor
        else Vector3d.fill 1
      Render.emit (Primitive.Texture layer.id clrBackground)
  | none => pure ()

/-- `GenericSliceRenderer::DrawSegmentationTexture`.  The texture pointer is used
without a test: with no texture for the segmentation the call ends in
`NullTexture`. -/
def DrawSegmentationTexture : Render Unit := do
  let self ← Render.read
  let id := self.m_Model.imageData
  if id.segmentationLoaded then
    match self.m_Texture id.segmentation.id with
    | some _ =>
      let alpha := self.m_Model.segmentationAlpha
      Render.emit (Primitive.TextureTransparent id.segmentation.id alpha)
    | none => Render.fail RenderError.NullTexture
  else pure ()

/-- `GenericSliceRenderer::DrawImageLayers`. -/
def DrawImageLayers (nrows ncols irow icol : Int) : Render Bool := do
  let self ← Render.read
  let id := self.m_Model.imageData
  if self.m_ThumbnailDrawing then
    DrawTextureForLayer id.main false
    pure true
  else if nrows = 1 ∧ ncols = 1 then
    Render.forEach (LayerIterator id none) (fun it =>
      let layer := it.layer
      if it.role = LayerRole.MAIN_ROLE then
        DrawTextureForLayer layer false
      else if it.role ≠ LayerRole.LABEL_ROLE ∧ layer.drawable = true ∧ layer.alpha > 0 then
        DrawTextureForLayer it.layer true
      else pure ())
    pure true
  else
    match GetLayerForNthTile self irow icol with
    | none => pure false
    | some layer =>
      DrawTextureForLayer layer false
      Render.forEach (LayerIterator id none) (fun itov =>
        if itov.role ≠ LayerRole.MAIN_ROLE
            ∧ itov.layer.sticky = true
            ∧ itov.layer.drawable = true
            ∧ itov.layer.alpha > 0 then
          DrawTextureForLayer itov.layer true
        else pure ())
      pure true

/-- `GenericSliceRenderer::DrawMainTexture`. -/
def DrawMainTexture : Render Unit := do
  let self ← Render.read
  let id := self.m_Model.imageData
  if id.mainLoaded then
    DrawTextureForLayer id.main false
  else pure ()
  let self ← Render.read
  if !self.m_ThumbnailDrawing then
    Render.forEach (LayerIterator id (some LayerRole.OVERLAY_ROLE)) (fun it =>
      DrawTextureForLayer it.layer true)
  else pure ()

/-- The call `(*it)->paintGL()` on an overlay delegate. -/
def RendererDelegate.paintGL (d : RendererDelegate) : Render Unit :=
  if d.throws then Render.fail (RenderError.DelegateException d.id)
  else Render.emit (Primitive.Delegate d.id)

/-- `GenericSliceRenderer::DrawTiledOverlays`. -/
def DrawTiledOverlays : Render Unit := do
  let self ← Render.read
  Render.forEach self.m_TiledOverlays (fun it => RendererDelegate.paintGL it)

/-- `GenericSliceRenderer::DrawGlobalOverlays`. -/
def DrawGlobalOverlays : Render Unit := do
  let self ← Render.read
  Render.forEach self.m_GlobalOverlays (fun it => RendererDelegate.paintGL it)

/-- `GenericSliceRenderer::GenericSliceRenderer()`: the constructor sets the
thumbnail flag and nothing else; `self` holds the other members. -/
def constructor (self : GenericSliceRenderer) : GenericSliceRenderer :=
  { self with m_ThumbnailDrawing := false }

/-- `GenericSliceRenderer::CreateTexture`; the result `none` is the null pointer. -/
def CreateTexture (self : GenericSliceRenderer) (iw : ImageWrapperBase) : Option Texture :=
  if iw.initialized then
    let image := self.m_Model.displaySlice iw.id self.m_Model.id
    let imode := self.m_Model.greyInterpolationMode
    some { image := image, interpolation := imode }
  else none

/-- `GenericSliceRenderer::DrawThumbnail`.  `ComputeThumbnailProperties()` is a
call into the model; its results are read from `thumbnailPosition` and
`thumbnailZoom`.  `ApplyLineSettings()` sets line attributes only. -/
def DrawThumbnail : Render Unit := do
  let self ← Render.read
  let elt := self.m_Model.zoomThumbnail
  if !elt.visible then pure ()
  else
    let tPos := self.m_Model.thumbnailPosition
    let tZoom := self.m_Model.thumbnailZoom
    Render.update (fun s => { s with m_ThumbnailDrawing := true })
    glPushMatrix
    glLoadIdentity
    glTranslated (tPos.1 : ℚ) (tPos.2 : ℚ)
    glScaled tZoom tZoom
    glPushMatrix
    glScalef self.m_Model.sliceSpacing.1 self.m_Model.sliceSpacing.2
    DrawMainTexture
    DrawTiledOverlays
    let w : ℚ := (self.m_Model.sliceSize.1 : ℚ)
    let h : ℚ := (self.m_Model.sliceSize.2 : ℚ)
    glColor3dv elt.normalColor
    glBegin
    glVertex2d 0 0
    glVertex2d 0 h
    glVertex2d w h
    glVertex2d w 0
    glEnd
    glPopMatrix
    glTranslated self.m_Model.viewPosition.1 self.m_Model.viewPosition.2
    let w : ℚ := (self.m_Model.size.1 : ℚ) * (1 / 2) / self.m_Model.viewZoom
    let h : ℚ := (self.m_Model.size.2 : ℚ) * (1 / 2) / self.m_Model.viewZoom
    glColor3dv elt.activeColor
    glBegin
    glVertex2d (-w) (-h)
    glVertex2d (-w) h
    glVertex2d w h
    glVertex2d w (-h)
    glEnd
    glPopMatrix
    Render.update (fun s => { s with m_ThumbnailDrawing := false })

/-- The first part of the body of the loop over the cells in `paintGL`: the
viewport, the projection and the model-view matrix of the cell `(irow, icol)`.
In `icol * cell_w` and `(nrows - 1 - irow) * cell_h` the `int` factor is converted
to `unsigned int`, the product is taken modulo `2^32` and passed as a `GLint`. -/
def paintGL.setupCell (nrows : Int) (cell_w cell_h : Int) (irow icol : Int) :
    Render Unit := do
  let self ← Render.read
  glViewport (toInt32 (toUInt32 (toUInt32 icol * cell_w)))
    (toInt32 (toUInt32 (toUInt32 (toInt32 (nrows - 1 - irow)) * cell_h)))
    (toInt32 cell_w) (toInt32 cell_h)
  glMatrixMode MatrixMode.GL_PROJECTION
  glLoadIdentity
  gluOrtho2D 0 (cell_w : ℚ) 0 (cell_h : ℚ)
  glMatrixMode MatrixMode.GL_MODELVIEW
  glLoadIdentity
  glPushMatrix
  glTranslated ((1 / 2) * (cell_w : ℚ)) ((1 / 2) * (cell_h : ℚ))
  glScalef self.m_Model.viewZoom self.m_Model.viewZoom
  glTranslated (-self.m_Model.viewPosition.1) (-self.m_Model.viewPosition.2)
  glScalef self.m_Model.sliceSpacing.1 self.m_Model.sliceSpacing.2

/-- The second part of the body of the loop over the cells in `paintGL`: the
layers, the segmentation and the tiled overlays of the cell, and `glPopMatrix`. -/
def paintGL.drawCell (nrows ncols irow icol : Int) : Render Unit := do
  let self ← Render.read
  if (← DrawImageLayers nrows ncols irow icol) then
    DrawSegmentationTexture
    if self.m_Model.overallVisibility then
      DrawTiledOverlays
    else pure ()
  else pure ()
  glPopMatrix

/-- The body of the loop over the cells in `paintGL`. -/
def paintGL.cell (nrows ncols : Int) (cell_w cell_h : Int) (irow icol : Int) :
    Render Unit := do
  paintGL.setupCell nrows cell_w cell_h irow icol
  paintGL.drawCell nrows ncols irow icol

/-- `GenericSliceRenderer::paintGL`. -/
def paintGL : Render Unit := do
  let self ← Render.read
  let layout := self.m_Model.layout
  let nrows := toInt32 layout.1
  let ncols := toInt32 layout.2
  let cell_w := self.m_Model.size.1
  let cell_h := self.m_Model.size.2
  let clrBack := self.m_Model.background2D.normalColor
  glPushAttrib
  glDisable
  glClearColor clrBack
  glClear
  if self.m_Model.sliceInitialized then
    Render.forRange nrows (fun irow =>
      Render.forRange ncols (fun icol =>
        paintGL.cell nrows ncols cell_w cell_h irow icol))
    let vp := self.m_Model.viewportSize
    glViewport 0 0 (toInt32 vp.1) (toInt32 vp.2)
    glMatrixMode MatrixMode.GL_PROJECTION
    glPushMatrix
    glLoadIdentity
    gluOrtho2D 0 (vp.1 : ℚ) 0 (vp.2 : ℚ)
    glMatrixMode MatrixMode.GL_MODELVIEW
    glPushMatrix
    glLoadIdentity
    if self.m_Model.thumbnailOn then
      DrawThumbnail
    else pure ()
    DrawGlobalOverlays
    glMatrixMode MatrixMode.GL_PROJECTION
    glPopMatrix
    glMatrixMode MatrixMode.GL_MODELVIEW
    glPopMatrix
  else pure ()
  glPopAttrib
  glFlush

end GenericSliceRenderer

/-- The factory of the layer association `m_Texture`. -/
structure OpenGLTextureAssociationFactory where
  m_Renderer : GenericSliceRenderer

/-- `OpenGLTextureAssociationFactory::New`. -/
def OpenGLTextureAssociationFactory.New (self : OpenGLTextureAssociationFactory)
    (layer : ImageWrapperBase) : Option Texture :=
  GenericSliceRenderer.CreateTexture self.m_Renderer layer

/-! ## Observations on states -/

/-- The primitives on the screen, oldest first. -/
def drawn (s : GenericSliceRenderer) : List Primitive :=
  s.gl.frame.map GLEvent.prim

/-- The layer whose texture a primitive puts on the screen, if it is a texture. -/
def Primitive.textureLayer : Primitive → Option Nat
  | Primitive.Texture k _ => some k
  | Primitive.TextureTransparent k _ => some k
  | _ => none

/-- Whether the layer association holds a texture for a layer. -/
def hasTexture (s : GenericSliceRenderer) (layer : ImageWrapperBase) : Bool :=
  (s.m_Texture layer.id).isSome

/-- The thumbnail flag is not set. -/
def FlagOff (s : GenericSliceRenderer) : Prop :=
  s.m_ThumbnailDrawing = false

/-- Nothing in the state makes a paint fail: no overlay delegate throws, and a
loaded segmentation has a texture. -/
def NoFailure (s : GenericSliceRenderer) : Prop :=
  (∀ d ∈ s.m_TiledOverlays, d.throws = false)
    ∧ (∀ d ∈ s.m_GlobalOverlays, d.throws = false)
    ∧ (s.m_Model.imageData.segmentationLoaded = true →
        hasTexture s s.m_Model.imageData.segmentation = true)

/-- `Render.Triple P m Q`: when the call `m` starts in a state with `P` and ends
normally, it ends in a state with `Q`. -/
def Render.Triple {α : Type} (P : GenericSliceRenderer → Prop) (m : Render α)
    (Q : GenericSliceRenderer → Prop) : Prop :=
  ∀ s, P s → ∀ a, (m.run s).1 = Except.ok a → Q (m.run s).2

/-- `Render.Total P m Q`: when the call `m` starts in a state with `P`, it ends
normally, in a state with `Q`. -/
def Render.Total {α : Type} (P : GenericSliceRenderer → Prop) (m : Render α)
    (Q : GenericSliceRenderer → Prop) : Prop :=
  ∀ s, P s → (∃ a, (m.run s).1 = Except.ok a) ∧ Q (m.run s).2

/-- The layers that take a tile in a tiled display, in the order of the iterator:
those of main role and those that are not sticky. -/
def tileSlots (layers : List LayerEntry) : List LayerEntry :=
  layers.filter (fun it => decide (it.role = LayerRole.MAIN_ROLE) || !it.layer.sticky)

/-- The layer shown by the tile slot number `n`, if that slot exists and its
layer is drawable. -/
def slotLayer (layers : List LayerEntry) (n : Nat) : Option ImageWrapperBase :=
  match (tileSlots layers)[n]? with
  | some it => if it.layer.drawable then some it.layer else none
  | none => none

/-- The state `s1` comes from `s` by drawing the primitives `ps`, all under the
viewport and the model-view matrix of `s`; textures may have got another
interpolation, and nothing else has changed. -/
structure Draws (s s1 : GenericSliceRenderer) (ps : List Primitive) : Prop where
  model : s1.m_Model = s.m_Model
  flag : s1.m_ThumbnailDrawing = s.m_ThumbnailDrawing
  texture : ∀ k, (s1.m_Texture k).isSome = (s.m_Texture k).isSome
  tiled : s1.m_TiledOverlays = s.m_TiledOverlays
  global : s1.m_GlobalOverlays = s.m_GlobalOverlays
  gl : s1.gl = { s.gl with
    frame := s.gl.frame ++ ps.map (fun p => ⟨p, s.gl.viewport, s.gl.modelview⟩) }

/-- The state `s1` comes from `s` by drawing under the viewport and the model-view
matrix of `s`, and its viewport is still that of `s`. -/
def SameTile (s s1 : GenericSliceRenderer) : Prop :=
  (∃ ps : List Primitive, s1.gl.frame
      = s.gl.frame ++ ps.map (fun p => ⟨p, s.gl.viewport, s.gl.modelview⟩))
    ∧ s1.gl.viewport = s.gl.viewport

/-- The matrix under which `DrawThumbnail` draws: the translation to the position
of the thumbnail, then the zoom of the thumbnail. -/
def thumbnailTransform (m : GenericSliceModel) : Affine :=
  (Affine.translate (m.thumbnailPosition.1 : ℚ) (m.thumbnailPosition.2 : ℚ)).mul
    (Affine.scale m.thumbnailZoom m.thumbnailZoom)

/-- What `DrawThumbnail` puts on the screen under the matrix of the image in the
thumbnail: the main texture against the thumbnail colour, the tiled overlay
delegates and the border of the image. -/
def thumbnailPrims (s : GenericSliceRenderer) : List Primitive :=
  (if s.m_Model.imageData.mainLoaded && hasTexture s s.m_Model.imageData.main then
      [Primitive.Texture s.m_Model.imageData.main.id s.m_Model.zoomThumbnail.normalColor]
    else [])
  ++ s.m_TiledOverlays.map (fun d => Primitive.Delegate d.id)
  ++ [Primitive.LineLoop s.m_Model.zoomThumbnail.normalColor
        [⟨0, 0⟩, ⟨0, (s.m_Model.sliceSize.2 : ℚ)⟩,
         ⟨(s.m_Model.sliceSize.1 : ℚ), (s.m_Model.sliceSize.2 : ℚ)⟩,
         ⟨(s.m_Model.sliceSize.1 : ℚ), 0⟩]]

/-- The box of the current view that `DrawThumbnail` draws last. -/
def viewBox (m : GenericSliceModel) : Primitive :=
  Primitive.LineLoop m.zoomThumbnail.activeColor
    [⟨-((m.size.1 : ℚ) * (1 / 2) / m.viewZoom), -((m.size.2 : ℚ) * (1 / 2) / m.viewZoom)⟩,
     ⟨-((m.size.1 : ℚ) * (1 / 2) / m.viewZoom), (m.size.2 : ℚ) * (1 / 2) / m.viewZoom⟩,
     ⟨(m.size.1 : ℚ) * (1 / 2) / m.viewZoom, (m.size.2 : ℚ) * (1 / 2) / m.viewZoom⟩,
     ⟨(m.size.1 : ℚ) * (1 / 2) / m.viewZoom, -((m.size.2 : ℚ) * (1 / 2) / m.viewZoom)⟩]

/-- The model-view matrix that `paintGL` builds for a cell of `cell_w` by `cell_h`
pixels: translate to the centre of the cell, scale by the zoom, translate by the
opposite of the view position, scale by the spacing. -/
def viewTransform (m : GenericSliceModel) (cell_w cell_h : Int) : Affine :=
  (((Affine.translate ((1 / 2) * (cell_w : ℚ)) ((1 / 2) * (cell_h : ℚ))).mul
      (Affine.scale m.viewZoom m.viewZoom)).mul
    (Affine.translate (-m.viewPosition.1) (-m.viewPosition.2))).mul
  (Affine.scale m.sliceSpacing.1 m.sliceSpacing.2)

/-- The viewport call of the cell `(irow, icol)` in `paintGL`, as written there. -/
def cellViewport (nrows : Int) (cell_w cell_h : Int) (irow icol : Int) : Viewport :=
  ⟨toInt32 (toUInt32 (toUInt32 icol * cell_w)),
   toInt32 (toUInt32 (toUInt32 (toInt32 (nrows - 1 - irow)) * cell_h)),
   toInt32 cell_w, toInt32 cell_h⟩

/-- What `DrawTextureForLayer` puts on the screen from the state `s`. -/
def texturePrims (s : GenericSliceRenderer) (layer : ImageWrapperBase)
    (use_transparency : Bool) : List Primitive :=
  if hasTexture s layer then
    [if use_transparency then Primitive.TextureTransparent layer.id layer.alpha
     else Primitive.Texture layer.id
       (if s.m_ThumbnailDrawing then s.m_Model.zoomThumbnail.normalColor
        else Vector3d.fill 1)]
  else []

/-- What the single-tile loop of `DrawImageLayers` puts on the screen for one
position of the iterator. -/
def singleTilePrims (s : GenericSliceRenderer) (it : LayerEntry) : List Primitive :=
  if it.role = LayerRole.MAIN_ROLE then texturePrims s it.layer false
  else if it.role ≠ LayerRole.LABEL_ROLE ∧ it.layer.drawable = true ∧ it.layer.alpha > 0 then
    texturePrims s it.layer true
  else []

/-- What the loop over the sticky layers in `DrawImageLayers` puts on the screen
for one position of the iterator. -/
def stickyPrims (s : GenericSliceRenderer) (itov : LayerEntry) : List Primitive :=
  if itov.role ≠ LayerRole.MAIN_ROLE ∧ itov.layer.sticky = true
      ∧ itov.layer.drawable = true ∧ itov.layer.alpha > 0 then
    texturePrims s itov.layer true
  else []

/-- What `DrawSegmentationTexture` puts on the screen when it ends normally. -/
def segmentationPrims (s : GenericSliceRenderer) : List Primitive :=
  if s.m_Model.imageData.segmentationLoaded then
    [Primitive.TextureTransparent s.m_Model.imageData.segmentation.id
      s.m_Model.segmentationAlpha]
  else []

/-- The tiles `(irow, icol)` of a grid, in the order of the two loops of `paintGL`. -/
def tiles (nrows ncols : Int) : List (Int × Int) :=
  ((List.range nrows.toNat).map Int.ofNat).flatMap (fun irow =>
    ((List.range ncols.toNat).map Int.ofNat).map (fun icol => (irow, icol)))

/-- What `DrawImageLayers` puts on the screen for a tile, and `none` where it returns
`false`. -/
def imageLayerPrims (s : GenericSliceRenderer) (nrows ncols irow icol : Int) :
    Option (List Primitive) :=
  if s.m_ThumbnailDrawing then some (texturePrims s s.m_Model.imageData.main false)
  else if nrows = 1 ∧ ncols = 1 then
    some (s.m_Model.imageData.layers.flatMap (singleTilePrims s))
  else
    match GenericSliceRenderer.GetLayerForNthTile s irow icol with
    | none => none
    | some layer =>
      some (texturePrims s layer false ++ s.m_Model.imageData.layers.flatMap (stickyPrims s))

/-- What the body of the loop over the cells in `paintGL` puts on the screen for a
tile when it ends normally: the image layers, the segmentation and the tiled overlay
delegates, or nothing where `DrawImageLayers` returns `false`. -/
def cellPrims (s : GenericSliceRenderer) (nrows ncols irow icol : Int) : List Primitive :=
  match imageLayerPrims s nrows ncols irow icol with
  | none => []
  | some ps =>
    ps ++ segmentationPrims s
      ++ (if s.m_Model.overallVisibility then
            s.m_TiledOverlays.map (fun d => Primitive.Delegate d.id)
          else [])

/-- The state `t` shows the scene of `s`: the same model, flag, overlay delegates and
layers with a texture; the OpenGL context may differ. -/
structure SameScene (s t : GenericSliceRenderer) : Prop where
  model : t.m_Model = s.m_Model
  flag : t.m_ThumbnailDrawing = s.m_ThumbnailDrawing
  texture : ∀ k, (t.m_Texture k).isSome = (s.m_Texture k).isSome
  tiled : t.m_TiledOverlays = s.m_TiledOverlays
  global : t.m_GlobalOverlays = s.m_GlobalOverlays

/-- What `paintGL` puts on the screen after the tiles, under the viewport of the whole
window and when nothing fails: the thumbnail, if it is switched on and visible, and
the global overlay delegates. -/
def windowEvents (s : GenericSliceRenderer) : List GLEvent :=
  let vp : Viewport :=
    ⟨0, 0, toInt32 s.m_Model.viewportSize.1, toInt32 s.m_Model.viewportSize.2⟩
  (if s.m_Model.thumbnailOn = true ∧ s.m_Model.zoomThumbnail.visible = true then
      (thumbnailPrims s).map (fun p => ⟨p, vp, (thumbnailTransform s.m_Model).mul
          (Affine.scale s.m_Model.sliceSpacing.1 s.m_Model.sliceSpacing.2)⟩)
        ++ [⟨viewBox s.m_Model, vp, (thumbnailTransform s.m_Model).mul
          (Affine.translate s.m_Model.viewPosition.1 s.m_Model.viewPosition.2)⟩]
    else [])
  ++ s.m_GlobalOverlays.map (fun d => ⟨Primitive.Delegate d.id, vp, Affine.identity⟩)

/-- The renderer with another zoom factor of the view. -/
def withViewZoom (self : GenericSliceRenderer) (zoom : ℚ) : GenericSliceRenderer :=
  { self with m_Model := { self.m_Model with viewZoom := zoom } }

/-- The renderer with another sequence of layers. -/
def withLayers (self : GenericSliceRenderer) (layers : List LayerEntry) :
    GenericSliceRenderer :=
  { self with m_Model := { self.m_Model with
      imageData := { self.m_Model.imageData with layers := layers } } }

/-! ## Concrete states -/

namespace Examples

/-- A fresh OpenGL context: identity matrices, empty stacks, nothing drawn. -/
def gl0 : GLContext :=
  { matrixMode := MatrixMode.GL_MODELVIEW
    modelview := Affine.identity
    modelviewStack := []
    projection := Affine.identity
    projectionStack := []
    viewport := ⟨0, 0, 0, 0⟩
    clearColor := ⟨0, 0, 0⟩
    color := ⟨0, 0, 0⟩
    vertices := none
    frame := [] }

/-- A main image: not sticky, drawable, opaque. -/
def mainLayer : ImageWrapperBase := ⟨1, false, true, true, 1⟩

/-- A main image that is sticky. -/
def stickyMain : ImageWrapperBase := ⟨1, true, true, true, 1⟩

/-- An overlay that is not sticky. -/
def overlayA : ImageWrapperBase := ⟨2, false, true, true, 1⟩

/-- A second overlay that is not sticky. -/
def overlayB : ImageWrapperBase := ⟨3, false, true, true, 1⟩

/-- A sticky overlay, half transparent. -/
def stickyOverlay : ImageWrapperBase := ⟨4, true, true, true, 1 / 2⟩

/-- A drawable overlay of opacity zero. -/
def clearOverlay : ImageWrapperBase := ⟨5, true, true, true, 0⟩

/-- A segmentation image that is not sticky. -/
def looseLabel : ImageWrapperBase := ⟨6, false, true, true, 1⟩

/-- A segmentation image that is sticky. -/
def stickyLabel : ImageWrapperBase := ⟨7, true, true, true, 1⟩

/-- Every layer has a texture that shows the image of the same number. -/
def allTextures : Nat → Option Texture :=
  fun k => some ⟨k, InterpolationMode.NEAREST⟩

/-- A model with the given layers and tiling, a `200 x 100` cell, zoom `2`, no
segmentation loaded and the thumbnail visible. -/
def model (layers : List LayerEntry) (layout : Int × Int) : GenericSliceModel :=
  { id := 0
    displaySlice := fun k _ => k
    imageData :=
      { layers := layers
        main := mainLayer
        mainLoaded := true
        segmentation := stickyLabel
        segmentationLoaded := false }
    layout := layout
    size := (200, 100)
    viewportSize := (200 * layout.2, 100 * layout.1)
    sliceInitialized := true
    viewZoom := 2
    viewPosition := (30, 20)
    sliceSpacing := (1, 1)
    sliceSize := (64, 48)
    thumbnailOn := true
    thumbnailPosition := (10, 10)
    thumbnailZoom := 1 / 2
    background2D := ⟨true, ⟨0, 0, 0⟩, ⟨0, 0, 0⟩⟩
    zoomThumbnail := ⟨true, ⟨1, 1, 0⟩, ⟨1, 0, 0⟩⟩
    overallVisibility := true
    greyInterpolationMode := InterpolationMode.NEAREST
    segmentationAlpha := 3 / 10 }

/-- A renderer outside of the thumbnail pass, with a texture for every layer, no
overlay delegates and a fresh context. -/
def renderer (layers : List LayerEntry) (layout : Int × Int) : GenericSliceRenderer :=
  { m_Model := model layers layout
    m_ThumbnailDrawing := false
    m_Texture := allTextures
    m_TiledOverlays := []
    m_GlobalOverlays := []
    gl := gl0 }

/-- Two tiles side by side, a main image and an overlay that is not sticky. -/
def sideBySide : GenericSliceRenderer :=
  renderer [⟨LayerRole.MAIN_ROLE, mainLayer⟩, ⟨LayerRole.OVERLAY_ROLE, overlayA⟩] (1, 2)

/-- A single sticky main image in two tiles. -/
def stickyMainOnly : GenericSliceRenderer :=
  renderer [⟨LayerRole.MAIN_ROLE, stickyMain⟩] (1, 2)

/-- Two tiles, a main image and a segmentation that is not sticky. -/
def withLooseLabel : GenericSliceRenderer :=
  renderer [⟨LayerRole.MAIN_ROLE, mainLayer⟩, ⟨LayerRole.LABEL_ROLE, looseLabel⟩] (1, 2)

/-- Two tiles, a main image, a sticky segmentation and an overlay. -/
def withStickyLabel : GenericSliceRenderer :=
  renderer [⟨LayerRole.MAIN_ROLE, mainLayer⟩, ⟨LayerRole.LABEL_ROLE, stickyLabel⟩,
    ⟨LayerRole.OVERLAY_ROLE, overlayA⟩] (1, 2)

/-- Two tiles and three layers that are not sticky. -/
def threeInTwo : GenericSliceRenderer :=
  renderer [⟨LayerRole.MAIN_ROLE, mainLayer⟩, ⟨LayerRole.OVERLAY_ROLE, overlayA⟩,
    ⟨LayerRole.OVERLAY_ROLE, overlayB⟩] (1, 2)

/-- A single tile with a main image and a drawable overlay of opacity zero. -/
def withClearOverlay : GenericSliceRenderer :=
  renderer [⟨LayerRole.MAIN_ROLE, mainLayer⟩, ⟨LayerRole.OVERLAY_ROLE, clearOverlay⟩] (1, 1)

/-- A single tile with a main image, a sticky overlay and a loaded segmentation. -/
def singleTile : GenericSliceRenderer :=
  let r := renderer [⟨LayerRole.MAIN_ROLE, mainLayer⟩,
    ⟨LayerRole.OVERLAY_ROLE, stickyOverlay⟩, ⟨LayerRole.LABEL_ROLE, stickyLabel⟩] (1, 1)
  { r with m_Model := { r.m_Model with
      imageData := { r.m_Model.imageData with segmentationLoaded := true } } }

/-- Two tiles, a main image and a sticky overlay: the second tile has no layer. -/
def mainAndSticky : GenericSliceRenderer :=
  renderer [⟨LayerRole.MAIN_ROLE, mainLayer⟩, ⟨LayerRole.OVERLAY_ROLE, stickyOverlay⟩] (1, 2)

/-- Four tiles in two rows, a main image and three overlays that are not sticky. -/
def twoByTwo : GenericSliceRenderer :=
  renderer [⟨LayerRole.MAIN_ROLE, mainLayer⟩, ⟨LayerRole.OVERLAY_ROLE, overlayA⟩,
    ⟨LayerRole.OVERLAY_ROLE, overlayB⟩, ⟨LayerRole.OVERLAY_ROLE, stickyOverlay⟩] (2, 2)

/-- The renderer with the segmentation loaded. -/
def loadSegmentation (r : GenericSliceRenderer) : GenericSliceRenderer :=
  { r with m_Model := { r.m_Model with
      imageData := { r.m_Model.imageData with segmentationLoaded := true } } }

/-- A single tile with a main image and a loaded segmentation whose texture is
missing from the layer association. -/
def missingSegmentationTexture : GenericSliceRenderer :=
  { loadSegmentation (renderer [⟨LayerRole.MAIN_ROLE, mainLayer⟩,
      ⟨LayerRole.LABEL_ROLE, stickyLabel⟩] (1, 1)) with
    m_Texture := fun k => if k = stickyLabel.id then none else allTextures k }

/-- A layer that is not initialized. -/
def emptyLayer : ImageWrapperBase := ⟨8, false, false, false, 1⟩

/-- A single tile with the overlays switched off in the tiles and a tiled overlay
delegate that throws. -/
def throwingOverlay : GenericSliceRenderer :=
  let r := renderer [⟨LayerRole.MAIN_ROLE, mainLayer⟩] (1, 1)
  { r with
    m_Model := { r.m_Model with overallVisibility := false }
    m_TiledOverlays := [⟨1, true⟩] }

/-- The renderer in the middle of the thumbnail pass. -/
def inThumbnail (r : GenericSliceRenderer) : GenericSliceRenderer :=
  { r with m_ThumbnailDrawing := true }

/-- Two tiles, a main image, an overlay that is not sticky and a sticky overlay. -/
def tiledWithSticky : GenericSliceRenderer :=
  renderer [⟨LayerRole.MAIN_ROLE, mainLayer⟩, ⟨LayerRole.OVERLAY_ROLE, overlayA⟩,
    ⟨LayerRole.OVERLAY_ROLE, stickyOverlay⟩] (1, 2)

/-- The renderer with the thumbnail switched off. -/
def thumbnailOff (r : GenericSliceRenderer) : GenericSliceRenderer :=
  { r with m_Model := { r.m_Model with thumbnailOn := false } }

/-- Three tiles side by side, each `1200000000` pixels wide, in a window
`3600000000` pixels wide, three layers that are not sticky, the thumbnail switched
off.  The sizes are values of `unsigned int`. -/
def wideTiles : GenericSliceRenderer :=
  let r := renderer [⟨LayerRole.MAIN_ROLE, mainLayer⟩, ⟨LayerRole.OVERLAY_ROLE, overlayA⟩,
    ⟨LayerRole.OVERLAY_ROLE, overlayB⟩] (1, 3)
  { r with m_Model := { r.m_Model with
      size := (1200000000, 100)
      viewportSize := (3600000000, 100)
      thumbnailOn := false } }

/-- Four tiles in two rows and three layers that are not sticky, the thumbnail
switched off: the tile `(1, 1)` has no layer. -/
def threeInFour : GenericSliceRenderer :=
  thumbnailOff (renderer [⟨LayerRole.MAIN_ROLE, mainLayer⟩,
    ⟨LayerRole.OVERLAY_ROLE, overlayA⟩, ⟨LayerRole.OVERLAY_ROLE, overlayB⟩] (2, 2))

/-- Two tiles, a main image, a sticky segmentation layer of opacity `1` and an
overlay; the segmentation is loaded, the global segmentation opacity is `3 / 10` and
the thumbnail is switched off. -/
def stickyLabelTiles : GenericSliceRenderer :=
  thumbnailOff (loadSegmentation withStickyLabel)

/-- The layers of `stickyLabelTiles` in a single tile. -/
def stickyLabelSingle : GenericSliceRenderer :=
  thumbnailOff (loadSegmentation (renderer [⟨LayerRole.MAIN_ROLE, mainLayer⟩,
    ⟨LayerRole.LABEL_ROLE, stickyLabel⟩, ⟨LayerRole.OVERLAY_ROLE, overlayA⟩] (1, 1)))

end Examples

/-! ## The image information model -/

/-- A `std::string`: its sequence of characters. -/
abbrev CxxString : Type := List Char

/-- The function `case_insensitive_predicate`; `std::tolower` in the C locale. -/
def case_insensitive_predicate (a b : Char) : Bool :=
  a.toLower == b.toLower

/-- Whether the range `b` matches the beginning of the range `a` under `pred`,
element by element. -/
def matchesAt (pred : Char → Char → Bool) : List Char → List Char → Bool
  | _, [] => true
  | [], _ :: _ => false
  | x :: xs, y :: ys => pred x y && matchesAt pred xs ys

/-- The call `std::search(a.begin(), a.end(), b.begin(), b.end(), pred)`: the position
of the first place in `a` where `b` matches, and `a.length`, the position of
`a.end()`, if there is none. -/
def search (pred : Char → Char → Bool) : List Char → List Char → Nat
  | [], _ => 0
  | x :: xs, b => if matchesAt pred (x :: xs) b then 0 else search pred xs b + 1

/-- The function `case_insensitive_find`: `it != a.end()`. -/
def case_insensitive_find (a b : CxxString) : Bool :=
  let it := search case_insensitive_predicate a b
  it != a.length

/-- The object `MetaDataAccess mda(GetLayer()->GetImageBase())` as
`UpdateMetadataIndex` reads it: the keys in the order of `GetKeysAsArray()`, and the
two maps on keys. -/
structure MetaDataAccess where
  GetKeysAsArray : List CxxString
  MapKeyToDICOM : CxxString → CxxString
  GetValueAsString : CxxString → CxxString

/-- The part of `ImageInfoModel` that `UpdateMetadataIndex` and `GetMetadataRows` read
and write.  `layer` is `GetLayer()`, with `none` for the null pointer, given by the
metadata of its image; `m_MetadataFilterModel` is the value of the filter model. -/
structure ImageInfoModel where
  layer : Option MetaDataAccess
  m_MetadataFilterModel : CxxString
  m_MetadataKeys : List CxxString

namespace ImageInfoModel

/-- The loop of `UpdateMetadataIndex` over the keys from the position `i` on. -/
def UpdateMetadataIndex.loop (mda : MetaDataAccess) (filter : CxxString) :
    List CxxString → List CxxString → List CxxString
  | [], m_MetadataKeys => m_MetadataKeys
  | key :: rest, m_MetadataKeys =>
    let dcm := mda.MapKeyToDICOM key
    let value := mda.GetValueAsString key
    if filter.length = 0 || case_insensitive_find dcm filter
        || case_insensitive_find value filter then
      UpdateMetadataIndex.loop mda filter rest (m_MetadataKeys ++ [key])
    else UpdateMetadataIndex.loop mda filter rest m_MetadataKeys

/-- `ImageInfoModel::UpdateMetadataIndex`. -/
def UpdateMetadataIndex (self : ImageInfoModel) : ImageInfoModel :=
  let self := { self with m_MetadataKeys := [] }
  match self.layer with
  | some mda =>
    let keys := mda.GetKeysAsArray
    let filter := self.m_MetadataFilterModel
    { self with
      m_MetadataKeys := UpdateMetadataIndex.loop mda filter keys self.m_MetadataKeys }
  | none => self

/-- `ImageInfoModel::GetMetadataRows`: the `size_t` is converted to `int`. -/
def GetMetadataRows (self : ImageInfoModel) : Int :=
  toInt32 (self.m_MetadataKeys.length : Int)

end ImageInfoModel

/-- The string `b` occurs in the string `a` when the case of the letters is left out
of account. -/
def occursIn (b a : CxxString) : Prop :=
  b.map Char.toLower <:+: a.map Char.toLower

instance (b a : CxxString) : Decidable (occursIn b a) :=
  inferInstanceAs (Decidable (b.map Char.toLower <:+: a.map Char.toLower))

namespace Examples

/-- The metadata of an image with three keys. -/
def metadata : MetaDataAccess :=
  { GetKeysAsArray := ["0010|0010".toList, "0008|0060".toList, "origin".toList]
    MapKeyToDICOM := fun key =>
      if key = "0010|0010".toList then "Patient Name".toList
      else if key = "0008|0060".toList then "Modality".toList
      else key
    GetValueAsString := fun key =>
      if key = "0010|0010".toList then "DOE".toList
      else if key = "0008|0060".toList then "MR".toList
      else "0 0 0".toList }

/-- An information model of that image with a filter, and a key list left over from
another image. -/
def infoModel (filter : CxxString) : ImageInfoModel :=
  { layer := some metadata
    m_MetadataFilterModel := filter
    m_MetadataKeys := ["old".toList] }

end Examples

/-! ## The image IO wizard model -/

/-- An `IRISException`: the message format and the arguments given to its
constructor. -/
structure IRISException where
  message : CxxString
  args : List CxxString
  deriving DecidableEq

/-- What a call throws: an `IRISException`, another exception derived from
`std::exception` with its `what()`, or an object of neither type. -/
inductive CxxException where
  | IRIS (excIRIS : IRISException)
  | Std (what : CxxString)
  | Other (tag : Nat)
  deriving DecidableEq

/-- A call on a state `S` that may throw: the value or the exception, and the state
in which the call ends. -/
def Call (S α : Type) : Type :=
  S → Except CxxException α × S

namespace Call

/-- Run a call on a state. -/
def run {S α : Type} (m : Call S α) (s : S) : Except CxxException α × S := m s

/-- Continue after a call: the continuation runs when the call has returned. -/
def andThen {S α β : Type} (r : Except CxxException α × S) (f : α → Call S β) :
    Except CxxException β × S :=
  match r with
  | (Except.ok a, s1) => f a s1
  | (Except.error e, s1) => (Except.error e, s1)

/-- Sequencing of calls. -/
def seq {S α β : Type} (m : Call S α) (f : α → Call S β) : Call S β :=
  fun s => andThen (m s) f

instance {S : Type} : Monad (Call S) where
  pure a := fun s => (Except.ok a, s)
  bind m f := seq m f

/-- The statement `throw e`. -/
def throwException {S α : Type} (e : CxxException) : Call S α :=
  fun s => (Except.error e, s)

/-- The statement `try body catch handler`: the handler runs on the exception that
leaves the body, in the state in which the body was left. -/
def tryCatch {S α : Type} (body : Call S α) (handler : CxxException → Call S α) :
    Call S α :=
  fun s =>
    match body s with
    | (Except.error e, s1) => handler e s1
    | (Except.ok a, s1) => (Except.ok a, s1)

end Call

/-- A `Registry`, by its entries; the wizard model passes registries on. -/
structure Registry where
  entries : List (CxxString × CxxString)
  deriving DecidableEq

/-- The registry of the declaration `Registry reg;`. -/
def Registry.empty : Registry := ⟨[]⟩

/-- The enumeration `ImageIOWizardModel::Mode`. -/
inductive Mode where
  | LOAD
  | SAVE
  deriving DecidableEq

/-- A `GuidedNativeImageIO::FileFormat`, by its integer value. -/
abbrev FileFormat : Type := Nat

/-- The fields of a `GuidedNativeImageIO::FileFormatDescriptor` that are read. -/
structure FileFormatDescriptor where
  name : CxxString
  pattern : CxxString
  can_write : Bool

/-- The calls of `LoadImage` into the objects behind its pointers. -/
inductive Step where
  | ReadNativeImageHeader
  | ValidateHeader
  | UnloadCurrentImage
  | ReadNativeImageData
  | ValidateImage
  | UpdateApplicationWithImage
  | AssociateRegistryWithFile
  deriving DecidableEq

/-- What the wizard model calls outside of its own file, over a state `σ` of the objects
behind `m_Parent`, `m_GuidedIO` and `m_LoadDelegate` and of the file system.  The
static members of `GuidedNativeImageIO`, the lookups in the system interface and the
operations of `Registry` return values; the calls of `LoadImage` into the image IO
object and the delegate end in a state, with an exception or without one, and give
back the arguments they take by reference. -/
structure Services (σ : Type) where
  FORMAT_COUNT : FileFormat
  GetFileFormatDescriptor : FileFormat → FileFormatDescriptor
  GetFileFormat : Registry → FileFormat → FileFormat
  GuessFormatForFileName : CxxString → Bool → FileFormat
  FileExists : CxxString → Bool → σ → Bool
  FindRegistryAssociatedWithFile : CxxString → Registry → σ → Registry
  FolderUpdate : CxxString → Registry → Registry → Registry
  GetFileNameOfNativeImage : σ → CxxString
  ReadNativeImageHeader : CxxString → Registry → σ → Option CxxException × (Registry × σ)
  ValidateHeader : List CxxString → σ → Option CxxException × (List CxxString × σ)
  UnloadCurrentImage : σ → Option CxxException × σ
  ReadNativeImageData : σ → Option CxxException × σ
  ValidateImage : List CxxString → σ → Option CxxException × (List CxxString × σ)
  UpdateApplicationWithImage : σ → Option CxxException × σ
  AssociateRegistryWithFile : CxxString → Registry → σ → Option CxxException × σ

/-- The members of `ImageIOWizardModel` that are read and written, the state `heap` of
the objects behind its pointers, and the sequence `calls` of the calls made into
them. -/
structure ImageIOWizardModel (σ : Type) where
  m_Mode : Mode
  m_Registry : Registry
  m_Warnings : List CxxString
  heap : σ
  calls : List Step

/-- The constant `std::string::npos`, the largest `size_t`. -/
def npos : Nat := 18446744073709551615

/-- The search of `find`: the list is the string from the position `i` on. -/
def CxxString.findFrom : List Char → Char → Nat → Nat
  | [], _, _ => npos
  | x :: xs, c, i => if x = c then i else CxxString.findFrom xs c (i + 1)

/-- The call `s.find(c, pos)`: the first position from `pos` on that holds `c`, and
`npos` if there is none. -/
def CxxString.find (s : CxxString) (c : Char) (pos : Nat) : Nat :=
  CxxString.findFrom (s.drop pos) c pos

/-- The call `s.substr(pos, n)` for `pos` up to the size of `s`: the characters from
`pos` on, `n` of them or as many as there are. -/
def CxxString.substr (s : CxxString) (pos n : Nat) : CxxString :=
  (s.drop pos).take (min n (s.length - pos))

/-- What `printf` writes for a format and string arguments: the format with each `%s`
replaced by the next argument and `%%` by a percent sign.  It is `none`, for undefined
behaviour, when the format has another conversion or more `%s` than arguments.
Strings are taken without the character `NUL`, so that `c_str()` is the string. -/
def format : List Char → List CxxString → Option CxxString
  | [], _ => some []
  | c :: rest, args =>
    if c = '%' then
      match rest, args with
      | [], _ => none
      | d :: rest2, args =>
        if d = 's' then
          match args with
          | [] => none
          | a :: args2 => (format rest2 args2).map (fun r => a ++ r)
        else if d = '%' then (format rest2 args).map (fun r => '%' :: r)
        else none
    else (format rest args).map (fun r => c :: r)

/-- The call `sprintf(buffer, format, args...)` into `char buffer[1024]`, with the
string read back from the buffer: writing the `1024` characters of the buffer and
any further one, the terminating `NUL` included, is undefined behaviour. -/
def sprintf (fmt : CxxString) (args : List CxxString) : Option CxxString :=
  match format fmt args with
  | some r => if r.length < 1024 then some r else none
  | none => none

/-- How a run of `GetFilter` can fail to give a string. -/
inductive GetFilterError where
  | OutOfFuel
  | UndefinedBehaviour
  deriving DecidableEq

namespace ImageIOWizardModel

variable {σ : Type}

/-- A call into an object behind a pointer: it is put on record, and it returns or
throws. -/
def call (step : Step)
    (f : ImageIOWizardModel σ → Option CxxException × ImageIOWizardModel σ) :
    Call (ImageIOWizardModel σ) Unit :=
  fun self =>
    let self := { self with calls := self.calls ++ [step] }
    match f self with
    | (some e, self1) => (Except.error e, self1)
    | (none, self1) => (Except.ok (), self1)

/-- `ImageIOWizardModel::CanHandleFileFormat`. -/
def CanHandleFileFormat (env : Services σ) (self : ImageIOWizardModel σ) (fmt : FileFormat) :
    Bool :=
  let fd := env.GetFileFormatDescriptor fmt
  (self.m_Mode == Mode.LOAD) || (self.m_Mode == Mode.SAVE && fd.can_write)

/-- `ImageIOWizardModel::GuessFileFormat`; the second component of the result is the
reference parameter `fileExists` at the return. -/
def GuessFileFormat (env : Services σ) (self : ImageIOWizardModel σ) (fname : CxxString)
    (fileExists : Bool) : FileFormat × Bool :=
  let fileExists :=
    if self.m_Mode = Mode.LOAD then env.FileExists fname true self.heap else fileExists
  if self.m_Mode = Mode.LOAD ∧ (!fileExists) = true then
    (env.FORMAT_COUNT, fileExists)
  else
    let reg := env.FindRegistryAssociatedWithFile fname Registry.empty self.heap
    let fmt := env.GetFileFormat reg env.FORMAT_COUNT
    if fmt ≠ env.FORMAT_COUNT then (fmt, fileExists)
    else (env.GuessFormatForFileName fname (self.m_Mode == Mode.LOAD), fileExists)

/-- The two handlers of `LoadImage`: an `IRISException` is thrown again, another
exception derived from `std::exception` is wrapped, and an object of neither type is
not caught. -/
def LoadImage.handler (e : CxxException) : Call (ImageIOWizardModel σ) Unit :=
  match e with
  | CxxException.IRIS excIRIS => Call.throwException (CxxException.IRIS excIRIS)
  | CxxException.Std what =>
    Call.throwException (CxxException.IRIS
      ⟨"Error: exception occured during image IO. Exception: %s".toList, [what]⟩)
  | CxxException.Other tag => Call.throwException (CxxException.Other tag)

/-- The exception that leaves `LoadImage` when the exception `e` leaves its `try`
block. -/
def LoadImage.rethrown (e : CxxException) : CxxException :=
  match e with
  | CxxException.IRIS excIRIS => CxxException.IRIS excIRIS
  | CxxException.Std what =>
    CxxException.IRIS
      ⟨"Error: exception occured during image IO. Exception: %s".toList, [what]⟩
  | CxxException.Other tag => CxxException.Other tag

/-- The body of the `try` block of `LoadImage`. -/
def LoadImage.body (env : Services σ) (filename : CxxString) :
    Call (ImageIOWizardModel σ) Unit := do
  (fun self => (Except.ok (), { self with m_Warnings := [] }))
  call Step.ReadNativeImageHeader (fun self =>
    let r := env.ReadNativeImageHeader filename self.m_Registry self.heap
    (r.1, { self with m_Registry := r.2.1, heap := r.2.2 }))
  call Step.ValidateHeader (fun self =>
    let r := env.ValidateHeader self.m_Warnings self.heap
    (r.1, { self with m_Warnings := r.2.1, heap := r.2.2 }))
  call Step.UnloadCurrentImage (fun self =>
    let r := env.UnloadCurrentImage self.heap
    (r.1, { self with heap := r.2 }))
  call Step.ReadNativeImageData (fun self =>
    let r := env.ReadNativeImageData self.heap
    (r.1, { self with heap := r.2 }))
  call Step.ValidateImage (fun self =>
    let r := env.ValidateImage self.m_Warnings self.heap
    (r.1, { self with m_Warnings := r.2.1, heap := r.2.2 }))
  call Step.UpdateApplicationWithImage (fun self =>
    let r := env.UpdateApplicationWithImage self.heap
    (r.1, { self with heap := r.2 }))
  call Step.AssociateRegistryWithFile (fun self =>
    let regAssoc := env.FindRegistryAssociatedWithFile
      (env.GetFileNameOfNativeImage self.heap) Registry.empty self.heap
    let regAssoc := env.FolderUpdate "Files.Grey".toList regAssoc self.m_Registry
    let r := env.AssociateRegistryWithFile (env.GetFileNameOfNativeImage self.heap)
      regAssoc self.heap
    (r.1, { self with heap := r.2 }))

/-- `ImageIOWizardModel::LoadImage`. -/
def LoadImage (env : Services σ) (filename : CxxString) : Call (ImageIOWizardModel σ) Unit :=
  Call.tryCatch (LoadImage.body env filename) LoadImage.handler

/-- The loop `while(pos < fd.pattern.size())` of `GetFilter`, with the number of
rounds it may take; the stream `ossLine` is the string written to it.  The positions
are below `npos` and `pend` is not before `pos`, so `pend + 1` and `pend - pos` are
taken as they stand. -/
def GetFilter.scan (extEntry extSeparator pattern : CxxString) :
    Nat → Nat → CxxString → Except GetFilterError CxxString
  | 0, _, _ => Except.error GetFilterError.OutOfFuel
  | fuel + 1, pos, ossLine =>
    if pos < pattern.length then
      let ossLine := if pos ≠ 0 then ossLine ++ extSeparator else ossLine
      let pend := CxxString.find pattern ',' pos
      let ext := CxxString.substr pattern pos (pend - pos)
      match sprintf extEntry [ext] with
      | none => Except.error GetFilterError.UndefinedBehaviour
      | some buffer =>
        let ossLine := ossLine ++ buffer
        let pos := if pend = npos then pend else pend + 1
        GetFilter.scan extEntry extSeparator pattern fuel pos ossLine
    else Except.ok ossLine

/-- The body of the loop over the formats in `GetFilter`, on the streams `ossMain` and
`ossAllImageFiles`. -/
def GetFilter.row (env : Services σ) (self : ImageIOWizardModel σ)
    (lineEntry extEntry extSeparator rowSeparator : CxxString) (i : Nat)
    (oss : CxxString × CxxString) : Except GetFilterError (CxxString × CxxString) :=
  let fmt : FileFormat := i
  let fd := env.GetFileFormatDescriptor fmt
  if CanHandleFileFormat env self fmt then
    match GetFilter.scan extEntry extSeparator fd.pattern (fd.pattern.length + 1) 0 [] with
    | Except.error e => Except.error e
    | Except.ok ossLine =>
      let ossAllImageFiles :=
        if oss.2.length ≠ 0 then oss.2 ++ extSeparator else oss.2
      let ossAllImageFiles := ossAllImageFiles ++ ossLine
      match sprintf lineEntry [fd.name, ossLine] with
      | none => Except.error GetFilterError.UndefinedBehaviour
      | some buffer => Except.ok (oss.1 ++ buffer ++ rowSeparator, ossAllImageFiles)
  else Except.ok oss

/-- The loop over the formats in `GetFilter`. -/
def GetFilter.rows (env : Services σ) (self : ImageIOWizardModel σ)
    (lineEntry extEntry extSeparator rowSeparator : CxxString) :
    List Nat → CxxString × CxxString → Except GetFilterError (CxxString × CxxString)
  | [], oss => Except.ok oss
  | i :: rest, oss =>
    match GetFilter.row env self lineEntry extEntry extSeparator rowSeparator i oss with
    | Except.error e => Except.error e
    | Except.ok oss1 =>
      GetFilter.rows env self lineEntry extEntry extSeparator rowSeparator rest oss1

/-- `ImageIOWizardModel::GetFilter`. -/
def GetFilter (env : Services σ) (self : ImageIOWizardModel σ)
    (lineEntry extEntry extSeparator rowSeparator : CxxString) :
    Except GetFilterError CxxString :=
  match GetFilter.rows env self lineEntry extEntry extSeparator rowSeparator
      (List.range env.FORMAT_COUNT) ([], []) with
  | Except.error e => Except.error e
  | Except.ok (ossMain, ossAllImageFiles) =>
    match sprintf lineEntry ["All 3D Image Files".toList, ossAllImageFiles] with
    | none => Except.error GetFilterError.UndefinedBehaviour
    | some buffer =>
      let ossMain := ossMain ++ buffer ++ rowSeparator
      match sprintf lineEntry ["All Files".toList, "*".toList] with
      | none => Except.error GetFilterError.UndefinedBehaviour
      | some buffer => Except.ok (ossMain ++ buffer)

end ImageIOWizardModel

/-- The strings of a list joined by a separator. -/
def joinWith (sep : CxxString) : List CxxString → CxxString
  | [] => []
  | [x] => x
  | x :: y :: rest => x ++ sep ++ joinWith sep (y :: rest)

namespace Examples

/-- The state outside of the wizard model: the image that the application shows and
the image that the image IO object holds. -/
structure Desk where
  current : Option CxxString
  native : Option CxxString
  deriving DecidableEq

/-- Two formats, the second of which cannot be written. -/
def formats : FileFormat → FileFormatDescriptor
  | 0 => ⟨"NiFTI".toList, "nii,nii.gz".toList, true⟩
  | 1 => ⟨"GE Version 4".toList, "ge4".toList, false⟩
  | _ => ⟨[], [], false⟩

/-- Services in which the file `missing.nii` does not exist and cannot be read, the
header of `bad.nii` is not valid, and the file `known.img` has a registry that stores
the format `0`. -/
def services : Services Desk :=
  { FORMAT_COUNT := 2
    GetFileFormatDescriptor := formats
    GetFileFormat := fun reg dflt =>
      if reg.entries = [("Format".toList, "NiFTI".toList)] then 0 else dflt
    GuessFormatForFileName := fun fname _ => if fname = "scan.ge4".toList then 1 else 2
    FileExists := fun fname _ _ => !(fname == "missing.nii".toList)
    FindRegistryAssociatedWithFile := fun fname reg _ =>
      if fname = "known.img".toList then ⟨[("Format".toList, "NiFTI".toList)]⟩ else reg
    FolderUpdate := fun _ reg _ => reg
    GetFileNameOfNativeImage := fun desk => desk.native.getD []
    ReadNativeImageHeader := fun fname reg desk =>
      if fname = "missing.nii".toList then
        (some (CxxException.Std "file not found".toList), (reg, desk))
      else (none, (reg, { desk with native := some fname }))
    ValidateHeader := fun warnings desk =>
      if desk.native = some "bad.nii".toList then
        (some (CxxException.IRIS ⟨"wrong size".toList, []⟩), (warnings, desk))
      else (none, (warnings, desk))
    UnloadCurrentImage := fun desk => (none, { desk with current := none })
    ReadNativeImageData := fun desk => (none, desk)
    ValidateImage := fun warnings desk => (none, (warnings, desk))
    UpdateApplicationWithImage := fun desk => (none, { desk with current := desk.native })
    AssociateRegistryWithFile := fun _ _ desk => (none, desk) }

/-- Services with one format, whose pattern is a single extension of `1100`
characters. -/
def longExtension : Services Desk :=
  { services with
    FORMAT_COUNT := 1
    GetFileFormatDescriptor := fun _ => ⟨"Long".toList, List.replicate 1100 'x', true⟩ }

/-- The extensions of the two formats. -/
def extensions (i : Nat) : List CxxString :=
  if i = 0 then ["nii".toList, "nii.gz".toList] else ["ge4".toList]

/-- An extension as the format `*.%s` writes it. -/
def starEntry (ext : CxxString) : CxxString := "*.".toList ++ ext

/-- The rows of the two formats as the format `%s (%s)` writes them. -/
def formatRow (i : Nat) : CxxString :=
  if i = 0 then "NiFTI (*.nii *.nii.gz)".toList else "GE Version 4 (*.ge4)".toList

/-- A wizard model in the given mode, with a warning left from an earlier load, while
the application shows the image `first.nii`. -/
def wizard (mode : Mode) : ImageIOWizardModel Desk :=
  { m_Mode := mode
    m_Registry := Registry.empty
    m_Warnings := ["old warning".toList]
    heap := ⟨some "first.nii".toList, none⟩
    calls := [] }

end Examples

/-! ## Running calls: the rules of the state-passing embedding -/

namespace Render

variable {α β : Type}

@[simp] theorem run_pure (a : α) (s : GenericSliceRenderer) :
    (pure a : Render α).run s = (Except.ok a, s) := rfl

@[simp] theorem run_bind (m : Render α) (f : α → Render β) (s : GenericSliceRenderer) :
    (m >>= f).run s = andThen (m.run s) f := rfl

@[simp] theorem andThen_ok (a : α) (s : GenericSliceRenderer) (f : α → Render β) :
    andThen (Except.ok a, s) f = (f a).run s := rfl

@[simp] theorem andThen_error (e : RenderError) (s : GenericSliceRenderer)
    (f : α → Render β) :
    andThen ((Except.error e : Except RenderError α), s) f = (Except.error e, s) := rfl

theorem andThen_of_ok {r : Except RenderError α × GenericSliceRenderer} {a : α}
    (h : r.1 = Except.ok a) (f : α → Render β) : andThen r f = (f a).run r.2 := by
  obtain ⟨x, s1⟩ := r
  simp only at h
  subst h
  rfl

@[simp] theorem run_read (s : GenericSliceRenderer) : read.run s = (Except.ok s, s) := rfl

@[simp] theorem run_update (f : GenericSliceRenderer → GenericSliceRenderer)
    (s : GenericSliceRenderer) : (update f).run s = (Except.ok (), f s) := rfl

@[simp] theorem run_updateGL (f : GLContext → GLContext) (s : GenericSliceRenderer) :
    (updateGL f).run s = (Except.ok (), { s with gl := f s.gl }) := rfl

@[simp] theorem run_fail (e : RenderError) (s : GenericSliceRenderer) :
    (fail e : Render α).run s = (Except.error e, s) := rfl

@[simp] theorem run_emit (p : Primitive) (s : GenericSliceRenderer) :
    (emit p).run s = (Except.ok (),
      { s with gl := { s.gl with
          frame := s.gl.frame ++ [⟨p, s.gl.viewport, s.gl.modelview⟩] } }) := rfl

@[simp] theorem run_ite (c : Prop) [Decidable c] (m n : Render α)
    (s : GenericSliceRenderer) :
    (if c then m else n).run s = if c then m.run s else n.run s := by
  split <;> rfl

@[simp] theorem run_forEach_nil {γ : Type} (body : γ → Render Unit)
    (s : GenericSliceRenderer) : (forEach [] body).run s = (Except.ok (), s) := rfl

@[simp] theorem run_forEach_cons {γ : Type} (a : γ) (rest : List γ)
    (body : γ → Render Unit) (s : GenericSliceRenderer) :
    (forEach (a :: rest) body).run s
      = andThen ((body a).run s) (fun _ => forEach rest body) := rfl

end Render


/-! ## States that differ by drawn primitives -/

namespace Draws

theorem draws_refl (s : GenericSliceRenderer) : Draws s s [] := by
  constructor <;> simp

theorem draws_trans {s s1 s2 : GenericSliceRenderer} {ps qs : List Primitive}
    (h1 : Draws s s1 ps) (h2 : Draws s1 s2 qs) : Draws s s2 (ps ++ qs) := by
  constructor
  · rw [h2.model, h1.model]
  · rw [h2.flag, h1.flag]
  · intro k; rw [h2.texture, h1.texture]
  · rw [h2.tiled, h1.tiled]
  · rw [h2.global, h1.global]
  · rw [h2.gl, h1.gl]; simp

theorem drawn_eq {s s1 : GenericSliceRenderer} {ps : List Primitive}
    (h : Draws s s1 ps) : drawn s1 = drawn s ++ ps := by
  simp [drawn, h.gl, Function.comp_def]

theorem hasTexture_eq {s s1 : GenericSliceRenderer} {ps : List Primitive}
    (h : Draws s s1 ps) (layer : ImageWrapperBase) :
    hasTexture s1 layer = hasTexture s layer := h.texture layer.id

theorem texturePrims_eq {s s1 : GenericSliceRenderer} {ps : List Primitive}
    (h : Draws s s1 ps) (layer : ImageWrapperBase) (b : Bool) :
    texturePrims s1 layer b = texturePrims s layer b := by
  simp [texturePrims, h.hasTexture_eq, h.flag, h.model]

end Draws

namespace GenericSliceRenderer

theorem DrawTextureForLayer_ok (layer : ImageWrapperBase) (b : Bool)
    (s : GenericSliceRenderer) :
    ((DrawTextureForLayer layer b).run s).1 = Except.ok () := by
  cases h : s.m_Texture layer.id <;> cases b <;> simp [DrawTextureForLayer, h, SetInterpolation]

theorem DrawTextureForLayer_draws (layer : ImageWrapperBase) (b : Bool)
    (s : GenericSliceRenderer) :
    Draws s ((DrawTextureForLayer layer b).run s).2 (texturePrims s layer b) := by
  cases h : s.m_Texture layer.id with
  | none =>
    simpa [DrawTextureForLayer, texturePrims, hasTexture, h] using Draws.draws_refl s
  | some t =>
    cases b <;>
    · simp only [DrawTextureForLayer, h, SetInterpolation, Render.run_bind, Render.run_read,
        Render.andThen_ok, Render.run_update, texturePrims, hasTexture]
      constructor <;> simp
      intro k
      split <;> simp_all

end GenericSliceRenderer

/-! ## Loops and the drawing procedures -/

namespace Render

theorem forEach_ok {γ : Type} (body : γ → Render Unit)
    (hok : ∀ a s, ((body a).run s).1 = Except.ok ()) :
    ∀ (l : List γ) (s : GenericSliceRenderer), ((forEach l body).run s).1 = Except.ok () := by
  intro l
  induction l with
  | nil => intro s; rfl
  | cons a rest ih =>
    intro s
    rw [run_forEach_cons, andThen_of_ok (hok a s)]
    exact ih _

theorem forEach_draws {γ : Type} (body : γ → Render Unit)
    (f : GenericSliceRenderer → γ → List Primitive)
    (hf : ∀ s s1 ps a, Draws s s1 ps → f s1 a = f s a)
    (hok : ∀ a s, ((body a).run s).1 = Except.ok ())
    (hd : ∀ a s, Draws s ((body a).run s).2 (f s a)) :
    ∀ (l : List γ) (s : GenericSliceRenderer),
      Draws s ((forEach l body).run s).2 (l.flatMap (f s)) := by
  intro l
  induction l with
  | nil => intro s; exact Draws.draws_refl s
  | cons a rest ih =>
    intro s
    rw [run_forEach_cons, andThen_of_ok (hok a s), List.flatMap_cons]
    have h1 := hd a s
    have h2 := ih ((body a).run s).2
    have hfe : rest.flatMap (f ((body a).run s).2) = rest.flatMap (f s) := by
      congr 1
      funext x
      exact hf _ _ _ x h1
    rw [hfe] at h2
    exact Draws.draws_trans h1 h2

end Render

namespace GenericSliceRenderer

theorem singleTilePrims_eq {s s1 : GenericSliceRenderer} {ps : List Primitive}
    (h : Draws s s1 ps) (it : LayerEntry) : singleTilePrims s1 it = singleTilePrims s it := by
  simp [singleTilePrims, h.texturePrims_eq]

theorem stickyPrims_eq {s s1 : GenericSliceRenderer} {ps : List Primitive}
    (h : Draws s s1 ps) (it : LayerEntry) : stickyPrims s1 it = stickyPrims s it := by
  simp [stickyPrims, h.texturePrims_eq]

theorem DrawSegmentationTexture_ok (s : GenericSliceRenderer)
    (hseg : s.m_Model.imageData.segmentationLoaded = true →
      hasTexture s s.m_Model.imageData.segmentation = true) :
    (DrawSegmentationTexture.run s).1 = Except.ok () := by
  cases hl : s.m_Model.imageData.segmentationLoaded with
  | false => simp [DrawSegmentationTexture, hl]
  | true =>
    have ht := hseg hl
    simp only [hasTexture, Option.isSome_iff_exists] at ht
    obtain ⟨t, ht⟩ := ht
    simp [DrawSegmentationTexture, hl, ht]

theorem DrawSegmentationTexture_draws (s : GenericSliceRenderer)
    (hseg : s.m_Model.imageData.segmentationLoaded = true →
      hasTexture s s.m_Model.imageData.segmentation = true) :
    Draws s (DrawSegmentationTexture.run s).2 (segmentationPrims s) := by
  cases hl : s.m_Model.imageData.segmentationLoaded with
  | false => simpa [DrawSegmentationTexture, segmentationPrims, hl] using Draws.draws_refl s
  | true =>
    have ht := hseg hl
    simp only [hasTexture, Option.isSome_iff_exists] at ht
    obtain ⟨t, ht⟩ := ht
    simp only [DrawSegmentationTexture, hl, ht, segmentationPrims, Render.run_bind,
      Render.run_read, Render.andThen_ok, if_true, Render.run_emit]
    constructor <;> simp

theorem DrawImageLayers_single_ok (s : GenericSliceRenderer) (irow icol : Int)
    (hflag : s.m_ThumbnailDrawing = false) :
    ((DrawImageLayers 1 1 irow icol).run s).1 = Except.ok true := by
  have hbody : ∀ (it : LayerEntry) (s0 : GenericSliceRenderer),
      ((if it.role = LayerRole.MAIN_ROLE then DrawTextureForLayer it.layer false
        else if it.role ≠ LayerRole.LABEL_ROLE ∧ it.layer.drawable = true ∧ it.layer.alpha > 0
          then DrawTextureForLayer it.layer true else pure ()).run s0).1 = Except.ok () := by
    intro it s0
    split
    · exact DrawTextureForLayer_ok _ _ _
    · split
      · exact DrawTextureForLayer_ok _ _ _
      · rfl
  simp only [DrawImageLayers, hflag, Render.run_bind, Render.run_read, Render.andThen_ok]
  simp only [Bool.false_eq_true, if_false, and_self, if_true, Render.run_bind]
  rw [Render.andThen_of_ok (Render.forEach_ok _ hbody _ _)]
  rfl

theorem DrawImageLayers_single_draws (s : GenericSliceRenderer) (irow icol : Int)
    (hflag : s.m_ThumbnailDrawing = false) :
    Draws s ((DrawImageLayers 1 1 irow icol).run s).2
      (s.m_Model.imageData.layers.flatMap (singleTilePrims s)) := by
  have hok : ∀ (it : LayerEntry) (s0 : GenericSliceRenderer),
      ((if it.role = LayerRole.MAIN_ROLE then DrawTextureForLayer it.layer false
        else if it.role ≠ LayerRole.LABEL_ROLE ∧ it.layer.drawable = true ∧ it.layer.alpha > 0
          then DrawTextureForLayer it.layer true else pure ()).run s0).1 = Except.ok () := by
    intro it s0
    split
    · exact DrawTextureForLayer_ok _ _ _
    · split
      · exact DrawTextureForLayer_ok _ _ _
      · rfl
  have hd : ∀ (it : LayerEntry) (s0 : GenericSliceRenderer),
      Draws s0 ((if it.role = LayerRole.MAIN_ROLE then DrawTextureForLayer it.layer false
        else if it.role ≠ LayerRole.LABEL_ROLE ∧ it.layer.drawable = true ∧ it.layer.alpha > 0
          then DrawTextureForLayer it.layer true else pure ()).run s0).2
        (singleTilePrims s0 it) := by
    intro it s0
    unfold singleTilePrims
    split
    · exact DrawTextureForLayer_draws _ _ _
    · split
      · exact DrawTextureForLayer_draws _ _ _
      · exact Draws.draws_refl _
  simp only [DrawImageLayers, hflag, Render.run_bind, Render.run_read, Render.andThen_ok]
  simp only [Bool.false_eq_true, if_false, and_self, if_true, Render.run_bind]
  rw [Render.andThen_of_ok (Render.forEach_ok _ hok _ _)]
  exact Render.forEach_draws _ singleTilePrims
    (fun _ _ _ a h => singleTilePrims_eq h a) hok hd _ _

end GenericSliceRenderer

namespace GenericSliceRenderer

theorem DrawImageLayers_tiled_none (s : GenericSliceRenderer) (nrows ncols irow icol : Int)
    (hflag : s.m_ThumbnailDrawing = false) (hmulti : ¬ (nrows = 1 ∧ ncols = 1))
    (hnone : GetLayerForNthTile s irow icol = none) :
    (DrawImageLayers nrows ncols irow icol).run s = (Except.ok false, s) := by
  simp only [DrawImageLayers, hflag, Render.run_bind, Render.run_read, Render.andThen_ok]
  simp only [Bool.false_eq_true, if_false, if_neg hmulti, hnone]
  rfl

theorem stickyLoop_ok (it : LayerEntry) (s0 : GenericSliceRenderer) :
    ((if it.role ≠ LayerRole.MAIN_ROLE ∧ it.layer.sticky = true
          ∧ it.layer.drawable = true ∧ it.layer.alpha > 0
        then DrawTextureForLayer it.layer true else pure ()).run s0).1 = Except.ok () := by
  split
  · exact DrawTextureForLayer_ok _ _ _
  · rfl

theorem stickyLoop_draws (it : LayerEntry) (s0 : GenericSliceRenderer) :
    Draws s0 ((if it.role ≠ LayerRole.MAIN_ROLE ∧ it.layer.sticky = true
          ∧ it.layer.drawable = true ∧ it.layer.alpha > 0
        then DrawTextureForLayer it.layer true else pure ()).run s0).2
      (stickyPrims s0 it) := by
  unfold stickyPrims
  split
  · exact DrawTextureForLayer_draws _ _ _
  · exact Draws.draws_refl _

theorem DrawImageLayers_tiled_ok (s : GenericSliceRenderer) (nrows ncols irow icol : Int)
    (layer : ImageWrapperBase)
    (hflag : s.m_ThumbnailDrawing = false) (hmulti : ¬ (nrows = 1 ∧ ncols = 1))
    (hsome : GetLayerForNthTile s irow icol = some layer) :
    ((DrawImageLayers nrows ncols irow icol).run s).1 = Except.ok true := by
  simp only [DrawImageLayers, hflag, Render.run_bind, Render.run_read, Render.andThen_ok]
  simp only [Bool.false_eq_true, if_false, if_neg hmulti, hsome, Render.run_bind]
  rw [Render.andThen_of_ok (DrawTextureForLayer_ok _ _ _), Render.run_bind,
    Render.andThen_of_ok (Render.forEach_ok _ stickyLoop_ok _ _)]
  rfl

theorem DrawImageLayers_tiled_draws (s : GenericSliceRenderer) (nrows ncols irow icol : Int)
    (layer : ImageWrapperBase)
    (hflag : s.m_ThumbnailDrawing = false) (hmulti : ¬ (nrows = 1 ∧ ncols = 1))
    (hsome : GetLayerForNthTile s irow icol = some layer) :
    Draws s ((DrawImageLayers nrows ncols irow icol).run s).2
      (texturePrims s layer false ++ s.m_Model.imageData.layers.flatMap (stickyPrims s)) := by
  simp only [DrawImageLayers, hflag, Render.run_bind, Render.run_read, Render.andThen_ok]
  simp only [Bool.false_eq_true, if_false, if_neg hmulti, hsome, Render.run_bind]
  rw [Render.andThen_of_ok (DrawTextureForLayer_ok _ _ _), Render.run_bind,
    Render.andThen_of_ok (Render.forEach_ok _ stickyLoop_ok _ _)]
  have h1 := DrawTextureForLayer_draws layer false s
  have h2 := Render.forEach_draws _ stickyPrims
    (fun _ _ _ a h => stickyPrims_eq h a) stickyLoop_ok stickyLoop_draws
    (LayerIterator s.m_Model.imageData none) ((DrawTextureForLayer layer false).run s).2
  have hfe : (LayerIterator s.m_Model.imageData none).flatMap
        (stickyPrims ((DrawTextureForLayer layer false).run s).2)
      = s.m_Model.imageData.layers.flatMap (stickyPrims s) := by
    simp only [LayerIterator]
    congr 1
    funext x
    exact stickyPrims_eq h1 x
  rw [hfe] at h2
  exact Draws.draws_trans h1 h2

theorem flatMap_ite_singleton {γ δ : Type} (p : γ → Bool) (g : γ → δ) (l : List γ) :
    l.flatMap (fun a => if p a = true then [g a] else []) = (l.filter p).map g := by
  induction l with
  | nil => rfl
  | cons a rest ih =>
    rw [List.flatMap_cons, ih]
    cases h : p a <;> simp [h]

end GenericSliceRenderer

/-! ## What a call can change, whether it ends normally or not -/

namespace Render

theorem andThen_cases {α β : Type} (r : Except RenderError α × GenericSliceRenderer)
    (f : α → Render β) :
    (andThen r f).2 = r.2 ∨ ∃ a, r.1 = Except.ok a ∧ andThen r f = (f a).run r.2 := by
  obtain ⟨x, s1⟩ := r
  cases x with
  | error e => exact Or.inl rfl
  | ok a => exact Or.inr ⟨a, rfl, rfl⟩

theorem andThen_draws_some {α β : Type} (s : GenericSliceRenderer)
    (r : Except RenderError α × GenericSliceRenderer) (f : α → Render β)
    (h1 : ∃ ps, Draws s r.2 ps)
    (h2 : ∀ a s1, ∃ qs, Draws s1 ((f a).run s1).2 qs) :
    ∃ ps, Draws s (andThen r f).2 ps := by
  obtain ⟨ps, hps⟩ := h1
  rcases andThen_cases r f with h | ⟨a, _, h⟩
  · exact ⟨ps, by rw [h]; exact hps⟩
  · obtain ⟨qs, hqs⟩ := h2 a r.2
    exact ⟨ps ++ qs, by rw [h]; exact Draws.draws_trans hps hqs⟩

theorem forEach_draws_some {γ : Type} (body : γ → Render Unit)
    (hd : ∀ a s, ∃ ps, Draws s ((body a).run s).2 ps) :
    ∀ (l : List γ) (s : GenericSliceRenderer), ∃ ps, Draws s ((forEach l body).run s).2 ps := by
  intro l
  induction l with
  | nil => intro s; exact ⟨[], Draws.draws_refl s⟩
  | cons a rest ih =>
    intro s
    rw [run_forEach_cons]
    exact andThen_draws_some s _ _ (hd a s) (fun _ s1 => ih s1)

end Render

namespace GenericSliceRenderer

theorem paintGL_delegate_draws_some (d : RendererDelegate) (s : GenericSliceRenderer) :
    ∃ ps, Draws s ((RendererDelegate.paintGL d).run s).2 ps := by
  cases h : d.throws with
  | true => exact ⟨[], by simpa [RendererDelegate.paintGL, h] using Draws.draws_refl s⟩
  | false =>
    refine ⟨[Primitive.Delegate d.id], ?_⟩
    simp only [RendererDelegate.paintGL, h, Bool.false_eq_true, if_false, Render.run_emit]
    constructor <;> simp

theorem DrawTiledOverlays_draws_some (s : GenericSliceRenderer) :
    ∃ ps, Draws s (DrawTiledOverlays.run s).2 ps := by
  simp only [DrawTiledOverlays, Render.run_bind, Render.run_read, Render.andThen_ok]
  exact Render.forEach_draws_some _ paintGL_delegate_draws_some _ _

theorem DrawTiledOverlays_ok (s : GenericSliceRenderer)
    (h : ∀ d ∈ s.m_TiledOverlays, d.throws = false) :
    (DrawTiledOverlays.run s).1 = Except.ok () := by
  simp only [DrawTiledOverlays, Render.run_bind, Render.run_read, Render.andThen_ok]
  generalize s.m_TiledOverlays = l at h
  induction l generalizing s with
  | nil => rfl
  | cons d rest ih =>
    have hd : d.throws = false := h d (List.mem_cons_self _ _)
    rw [Render.run_forEach_cons]
    simp only [RendererDelegate.paintGL, hd, Bool.false_eq_true, if_false, Render.run_emit,
      Render.andThen_ok]
    exact ih _ (fun e he => h e (List.mem_cons_of_mem _ he))

theorem DrawSegmentationTexture_draws_some (s : GenericSliceRenderer) :
    ∃ ps, Draws s (DrawSegmentationTexture.run s).2 ps := by
  by_cases hseg : s.m_Model.imageData.segmentationLoaded = true →
      hasTexture s s.m_Model.imageData.segmentation = true
  · exact ⟨_, DrawSegmentationTexture_draws s hseg⟩
  · have hl : s.m_Model.imageData.segmentationLoaded = true := by
      by_contra h
      exact hseg (fun h1 => absurd h1 h)
    have ht : s.m_Texture s.m_Model.imageData.segmentation.id = none := by
      cases hx : s.m_Texture s.m_Model.imageData.segmentation.id with
      | none => rfl
      | some t => exact absurd (fun _ => by simp [hasTexture, hx]) hseg
    exact ⟨[], by simpa [DrawSegmentationTexture, hl, ht] using Draws.draws_refl s⟩

theorem DrawImageLayers_draws_some (s : GenericSliceRenderer) (nrows ncols irow icol : Int) :
    ∃ ps, Draws s ((DrawImageLayers nrows ncols irow icol).run s).2 ps := by
  cases hflag : s.m_ThumbnailDrawing with
  | true =>
    refine ⟨texturePrims s s.m_Model.imageData.main false, ?_⟩
    simp only [DrawImageLayers, hflag, Render.run_bind, Render.run_read, Render.andThen_ok,
      if_true]
    rw [Render.andThen_of_ok (DrawTextureForLayer_ok _ _ _)]
    exact DrawTextureForLayer_draws _ _ _
  | false =>
    by_cases hsingle : nrows = 1 ∧ ncols = 1
    · obtain ⟨h1, h2⟩ := hsingle
      subst h1 h2
      exact ⟨_, DrawImageLayers_single_draws s irow icol hflag⟩
    · cases hget : GetLayerForNthTile s irow icol with
      | none =>
        rw [DrawImageLayers_tiled_none s nrows ncols irow icol hflag hsingle hget]
        exact ⟨[], Draws.draws_refl s⟩
      | some layer =>
        exact ⟨_, DrawImageLayers_tiled_draws s nrows ncols irow icol layer hflag hsingle hget⟩

end GenericSliceRenderer

/-! ## The cells of `paintGL` -/

namespace Render

theorem andThen_inv2 {α β : Type} (P Q : GenericSliceRenderer → Prop)
    (r : Except RenderError α × GenericSliceRenderer) (f : α → Render β)
    (h1 : P r.2) (h0 : P r.2 → Q r.2) (h2 : ∀ a, P r.2 → Q ((f a).run r.2).2) :
    Q (andThen r f).2 := by
  rcases andThen_cases r f with h | ⟨a, _, h⟩
  · rw [h]; exact h0 h1
  · rw [h]; exact h2 a h1

end Render

theorem Affine.identity_mul (M : Affine) : Affine.identity.mul M = M := by
  simp [Affine.identity, Affine.mul]

theorem Draws.sameTile {s s1 : GenericSliceRenderer} {ps : List Primitive}
    (h : Draws s s1 ps) : SameTile s s1 :=
  ⟨⟨ps, by rw [h.gl]⟩, by rw [h.gl]⟩

namespace GenericSliceRenderer

theorem glPopMatrix_sameTile (s s1 : GenericSliceRenderer) (h : SameTile s s1) :
    SameTile s (glPopMatrix.run s1).2 := by
  obtain ⟨⟨ps, hps⟩, hv⟩ := h
  simp only [glPopMatrix, Render.run_updateGL]
  cases s1.gl.matrixMode with
  | GL_MODELVIEW =>
    cases hst : s1.gl.modelviewStack with
    | nil => exact ⟨⟨ps, hps⟩, hv⟩
    | cons M rest => exact ⟨⟨ps, hps⟩, hv⟩
  | GL_PROJECTION =>
    cases hst : s1.gl.projectionStack with
    | nil => exact ⟨⟨ps, hps⟩, hv⟩
    | cons M rest => exact ⟨⟨ps, hps⟩, hv⟩

theorem drawCell_sameTile (s : GenericSliceRenderer) (nrows ncols irow icol : Int) :
    SameTile s ((paintGL.drawCell nrows ncols irow icol).run s).2 := by
  have hpop : ∀ s1, (∃ ps, Draws s s1 ps) → SameTile s (glPopMatrix.run s1).2 :=
    fun s1 h => glPopMatrix_sameTile s s1 (h.elim fun _ hps => hps.sameTile)
  have hsame : ∀ s1, (∃ ps, Draws s s1 ps) → SameTile s s1 :=
    fun s1 h => h.elim fun _ hps => hps.sameTile
  simp only [paintGL.drawCell, Render.run_bind, Render.run_read, Render.andThen_ok]
  refine Render.andThen_inv2 (fun x => ∃ ps, Draws s x ps) (SameTile s) _ _
    (DrawImageLayers_draws_some s _ _ _ _) (hsame _) ?_
  intro b h1
  cases b with
  | false => exact hpop _ h1
  | true =>
    simp only [if_true, Render.run_bind]
    refine Render.andThen_inv2 (fun x => ∃ ps, Draws s x ps) (SameTile s) _ _ ?_ (hsame _) ?_
    · obtain ⟨ps, hps⟩ := h1
      obtain ⟨qs, hqs⟩ := DrawSegmentationTexture_draws_some
        ((DrawImageLayers nrows ncols irow icol).run s).2
      exact ⟨ps ++ qs, Draws.draws_trans hps hqs⟩
    · intro _ h2
      cases s.m_Model.overallVisibility with
      | false => exact hpop _ h2
      | true =>
        simp only [if_true, Render.run_bind]
        refine Render.andThen_inv2 (fun x => ∃ ps, Draws s x ps) (SameTile s) _ _ ?_
          (hsame _) (fun _ h3 => hpop _ h3)
        obtain ⟨ps, hps⟩ := h2
        obtain ⟨qs, hqs⟩ := DrawTiledOverlays_draws_some
          (DrawSegmentationTexture.run ((DrawImageLayers nrows ncols irow icol).run s).2).2
        exact ⟨ps ++ qs, Draws.draws_trans hps hqs⟩

theorem setupCell_run (s : GenericSliceRenderer) (nrows : Int) (cell_w cell_h : Int)
    (irow icol : Int) :
    (paintGL.setupCell nrows cell_w cell_h irow icol).run s
      = (Except.ok (),
          { s with gl := { s.gl with
              matrixMode := MatrixMode.GL_MODELVIEW
              modelview := viewTransform s.m_Model cell_w cell_h
              modelviewStack := Affine.identity :: s.gl.modelviewStack
              projection := Affine.ortho2D 0 (cell_w : ℚ) 0 (cell_h : ℚ)
              viewport := cellViewport nrows cell_w cell_h irow icol } }) := by
  simp only [paintGL.setupCell, glViewport, glMatrixMode, glLoadIdentity, gluOrtho2D,
    glMultMatrix, glPushMatrix, glTranslated, glScalef, Render.run_bind, Render.run_read,
    Render.andThen_ok, Render.run_updateGL, viewTransform, cellViewport,
    Affine.identity_mul]

theorem cell_sameTile (s : GenericSliceRenderer) (nrows ncols : Int) (cell_w cell_h : Int)
    (irow icol : Int) :
    (∃ ps : List Primitive,
        ((paintGL.cell nrows ncols cell_w cell_h irow icol).run s).2.gl.frame
          = s.gl.frame ++ ps.map (fun p =>
              ⟨p, cellViewport nrows cell_w cell_h irow icol,
                viewTransform s.m_Model cell_w cell_h⟩))
      ∧ ((paintGL.cell nrows ncols cell_w cell_h irow icol).run s).2.gl.viewport
          = cellViewport nrows cell_w cell_h irow icol := by
  simp only [paintGL.cell, Render.run_bind, setupCell_run, Render.andThen_ok]
  exact drawCell_sameTile _ nrows ncols irow icol

end GenericSliceRenderer

/-! ## Machine integers in range -/

theorem toInt32_of_range {z : Int} (h0 : 0 ≤ z) (h1 : z < 2147483648) : toInt32 z = z := by
  unfold toInt32
  have h : z % 4294967296 = z := by omega
  rw [h, if_pos h1]

theorem toUInt32_of_range {z : Int} (h0 : 0 ≤ z) (h1 : z < 4294967296) :
    toUInt32 z = z := by
  unfold toUInt32
  omega

/-! ## Tile assignment -/

namespace GenericSliceRenderer

theorem GetLayerForNthTile.loop_eq (layers : List LayerEntry) :
    ∀ n : Nat, n < 2147483648 →
      GetLayerForNthTile.loop layers (n : Int) = slotLayer layers n := by
  induction layers with
  | nil => intro n _; simp [GetLayerForNthTile.loop, slotLayer, tileSlots]
  | cons it rest ih =>
    intro n hn
    by_cases hp : it.role = LayerRole.MAIN_ROLE ∨ it.layer.sticky = false
    · have hf : tileSlots (it :: rest) = it :: tileSlots rest := by
        rcases hp with hp | hp <;> simp [tileSlots, hp]
      cases n with
      | zero => simp [GetLayerForNthTile.loop, slotLayer, hf, hp]
      | succ m =>
        have hm : toInt32 (((m + 1 : Nat) : Int) - 1) = (m : Int) := by
          rw [toInt32_of_range] <;> omega
        have hne : ¬ (((m + 1 : Nat) : Int) = 0) := by omega
        rw [GetLayerForNthTile.loop, if_pos hp, if_neg hne, hm, ih m (by omega)]
        simp [slotLayer, hf]
    · have hf : tileSlots (it :: rest) = tileSlots rest := by
        have h1 : it.role ≠ LayerRole.MAIN_ROLE := fun h => hp (Or.inl h)
        have h2 : it.layer.sticky = true := by
          cases hs : it.layer.sticky
          · exact absurd (Or.inr hs) hp
          · rfl
        simp [tileSlots, h1, h2]
      rw [GetLayerForNthTile.loop, if_neg hp, ih n hn]
      simp [slotLayer, hf]

theorem GetLayerForNthTile.loop_some (layers : List LayerEntry) :
    ∀ (togo : Int) (layer : ImageWrapperBase),
      GetLayerForNthTile.loop layers togo = some layer →
      ∃ it ∈ layers, it.layer = layer ∧ layer.drawable = true
        ∧ (it.role = LayerRole.MAIN_ROLE ∨ layer.sticky = false) := by
  induction layers with
  | nil => intro togo layer h; simp [GetLayerForNthTile.loop] at h
  | cons it rest ih =>
    intro togo layer h
    rw [GetLayerForNthTile.loop] at h
    split at h
    · rename_i hp
      split at h
      · split at h
        · rename_i hd
          have he : it.layer = layer := by simpa using h
          subst he
          exact ⟨it, List.mem_cons_self _ _, rfl, hd, hp⟩
        · simp at h
      · obtain ⟨e, he, h1⟩ := ih _ _ h
        exact ⟨e, List.mem_cons_of_mem _ he, h1⟩
    · obtain ⟨e, he, h1⟩ := ih _ _ h
      exact ⟨e, List.mem_cons_of_mem _ he, h1⟩

/-- Entries that are sticky and not of main role do not count: the loop gives the
same layer when any of them are left out. -/
theorem GetLayerForNthTile.loop_filter (keep : LayerEntry → Bool) (layers : List LayerEntry)
    (hkeep : ∀ it ∈ layers, keep it = false →
      it.role ≠ LayerRole.MAIN_ROLE ∧ it.layer.sticky = true) :
    ∀ togo : Int, GetLayerForNthTile.loop (layers.filter keep) togo
      = GetLayerForNthTile.loop layers togo := by
  induction layers with
  | nil => intro togo; rfl
  | cons it rest ih =>
    intro togo
    have ih1 := ih (fun e he => hkeep e (List.mem_cons_of_mem _ he))
    cases hk : keep it with
    | true =>
      rw [List.filter_cons_of_pos hk]
      simp only [GetLayerForNthTile.loop, ih1]
    | false =>
      have hskip := hkeep it (List.mem_cons_self _ _) hk
      have hp : ¬ (it.role = LayerRole.MAIN_ROLE ∨ it.layer.sticky = false) := by
        simp [hskip.1, hskip.2]
      rw [List.filter_cons_of_neg (by simp [hk]), GetLayerForNthTile.loop, if_neg hp, ih1]

/-- The tile `(row, col)` shows the slot `row * cols + col`, as long as that index is
an `int`. -/
theorem GetLayerForNthTile_eq (self : GenericSliceRenderer) (row col cols : Nat)
    (hcols : self.m_Model.layout.2 = (cols : Int))
    (hidx : row * cols + col < 2147483648) :
    GetLayerForNthTile self (row : Int) (col : Int)
      = slotLayer self.m_Model.imageData.layers (row * cols + col) := by
  have hmul : (row : Int) * toInt32 (cols : Int) = ((row * cols : Nat) : Int) := by
    rcases Nat.eq_zero_or_pos row with h0 | hpos
    · subst h0; simp
    · have hc : cols < 2147483648 := by
        have : cols ≤ row * cols := Nat.le_mul_of_pos_left _ hpos
        omega
      rw [toInt32_of_range (by omega) (by omega)]
      push_cast
      ring
  have htogo : toInt32 ((row : Int) * toInt32 (cols : Int) + (col : Int))
      = ((row * cols + col : Nat) : Int) := by
    rw [hmul, toInt32_of_range (by omega) (by omega)]
    push_cast
    ring
  simp only [GetLayerForNthTile, LayerIterator, hcols]
  rw [htogo]
  exact GetLayerForNthTile.loop_eq _ _ hidx

end GenericSliceRenderer

/-! ## Tile assignment: the properties -/

namespace GenericSliceRenderer

/-- C2: for every layer sequence, column count and tile `(row, col)` whose index
`row * cols + col` is an `int`, `GetLayerForNthTile` returns the layer at the
0-based position `row * cols + col` of the iterator-order subsequence of the layers
that are of main role or not sticky, whenever that position exists and that layer
is drawable. -/
theorem GetLayerForNthTile_row_major (self : GenericSliceRenderer) (row col cols : Nat)
    (it : LayerEntry)
    (hcols : self.m_Model.layout.2 = (cols : Int))
    (hidx : row * cols + col < 2147483648)
    (hpos : (tileSlots self.m_Model.imageData.layers)[row * cols + col]? = some it)
    (hdraw : it.layer.drawable = true) :
    GetLayerForNthTile self (row : Int) (col : Int) = some it.layer := by
  rw [GetLayerForNthTile_eq self row col cols hcols hidx]
  simp [slotLayer, hpos, hdraw]

/-- C2, the scenario of the specification: with the grid `(1, 2)` and the layers
`[main, overlayA]`, none of them sticky, the tile `(0, 0)` shows the main image and
the tile `(0, 1)` shows the overlay. -/
theorem GetLayerForNthTile_row_major_witness :
    GetLayerForNthTile Examples.sideBySide 0 0 = some Examples.mainLayer
      ∧ GetLayerForNthTile Examples.sideBySide 0 1 = some Examples.overlayA :=
  ⟨GetLayerForNthTile_row_major Examples.sideBySide 0 0 2
      ⟨LayerRole.MAIN_ROLE, Examples.mainLayer⟩ rfl (by decide) rfl rfl,
   GetLayerForNthTile_row_major Examples.sideBySide 0 1 2
      ⟨LayerRole.OVERLAY_ROLE, Examples.overlayA⟩ rfl (by decide) rfl rfl⟩

/-- C7: the layer that `GetLayerForNthTile` returns for a tile is sticky only if
the iterator lists it with the main role. -/
theorem GetLayerForNthTile_sticky_is_main (self : GenericSliceRenderer) (row col : Int)
    (layer : ImageWrapperBase)
    (h : GetLayerForNthTile self row col = some layer) (hs : layer.sticky = true) :
    ∃ it ∈ self.m_Model.imageData.layers,
      it.layer = layer ∧ it.role = LayerRole.MAIN_ROLE := by
  obtain ⟨it, hmem, hl, _, hrole⟩ := GetLayerForNthTile.loop_some _ _ _ h
  refine ⟨it, hmem, hl, ?_⟩
  rcases hrole with hrole | hrole
  · exact hrole
  · rw [hs] at hrole; exact absurd hrole (by decide)

/-- C7 at a sticky main image: it is returned for the tile `(0, 0)`, and it has the
main role. -/
theorem GetLayerForNthTile_sticky_is_main_witness :
    GetLayerForNthTile Examples.stickyMainOnly 0 0 = some Examples.stickyMain
      ∧ Examples.stickyMain.sticky = true
      ∧ ∃ it ∈ Examples.stickyMainOnly.m_Model.imageData.layers,
          it.layer = Examples.stickyMain ∧ it.role = LayerRole.MAIN_ROLE :=
  ⟨rfl, rfl,
    GetLayerForNthTile_sticky_is_main Examples.stickyMainOnly 0 0 Examples.stickyMain rfl rfl⟩

/-- C6 fails as stated: with two tiles and three drawable layers that are not
sticky, the third layer is the primary layer of no tile. -/
theorem GetLayerForNthTile_unique_tile_counterexample :
    (⟨LayerRole.OVERLAY_ROLE, Examples.overlayB⟩ : LayerEntry)
        ∈ Examples.threeInTwo.m_Model.imageData.layers
      ∧ Examples.overlayB.sticky = false ∧ Examples.overlayB.drawable = true
      ∧ Examples.threeInTwo.m_Model.layout = (1, 2)
      ∧ GetLayerForNthTile Examples.threeInTwo 0 0 = some Examples.mainLayer
      ∧ GetLayerForNthTile Examples.threeInTwo 0 1 = some Examples.overlayA
      ∧ Examples.mainLayer ≠ Examples.overlayB ∧ Examples.overlayA ≠ Examples.overlayB := by
  refine ⟨by decide, rfl, rfl, rfl, rfl, rfl, by decide, by decide⟩

/-- C6, amended: when the iterator yields each layer once and a grid of `rows` rows
and `cols` columns has a tile for every layer that is of main role or not sticky
(their number is at most `rows * cols`, which is an `int`), each drawable layer that
is not sticky is the primary layer, the result of `GetLayerForNthTile`, of exactly
one tile `(row, col)` with `row < rows` and `col < cols`. -/
theorem GetLayerForNthTile_unique_tile (self : GenericSliceRenderer) (rows cols : Nat)
    (it : LayerEntry)
    (hcolsEq : self.m_Model.layout.2 = (cols : Int))
    (hnodup : (self.m_Model.imageData.layers.map (fun e => e.layer.id)).Nodup)
    (hfit : (tileSlots self.m_Model.imageData.layers).length ≤ rows * cols)
    (hrange : rows * cols < 2147483648)
    (hmem : it ∈ self.m_Model.imageData.layers)
    (hns : it.layer.sticky = false) (hd : it.layer.drawable = true) :
    ∃! p : Nat × Nat, p.1 < rows ∧ p.2 < cols
      ∧ GetLayerForNthTile self (p.1 : Int) (p.2 : Int) = some it.layer := by
  have hslot : it ∈ tileSlots self.m_Model.imageData.layers := by
    simp [tileSlots, hmem, hns]
  obtain ⟨n, hn⟩ := List.mem_iff_getElem?.1 hslot
  have hnlt : n < (tileSlots self.m_Model.imageData.layers).length := by
    obtain ⟨h, _⟩ := List.getElem?_eq_some.1 hn
    exact h
  have hnrc : n < rows * cols := lt_of_lt_of_le hnlt hfit
  have hcols : 0 < cols := by
    rcases Nat.eq_zero_or_pos cols with h0 | h0
    · subst h0; simp at hnrc
    · exact h0
  have hsub : ((tileSlots self.m_Model.imageData.layers).map (fun e => e.layer.id)).Nodup :=
    List.Nodup.sublist (List.Sublist.map _ (List.filter_sublist _)) hnodup
  have hidx : ∀ r c : Nat, r < rows → c < cols → r * cols + c < rows * cols := by
    intro r c hr hc
    calc r * cols + c < r * cols + cols := by omega
      _ = (r + 1) * cols := by ring
      _ ≤ rows * cols := Nat.mul_le_mul_right _ hr
  refine ⟨(n / cols, n % cols), ⟨?_, ?_, ?_⟩, ?_⟩
  · exact Nat.div_lt_of_lt_mul (by rw [Nat.mul_comm]; exact hnrc)
  · exact Nat.mod_lt _ hcols
  · have hdm : n / cols * cols + n % cols = n := by
      rw [Nat.mul_comm]; exact Nat.div_add_mod n cols
    rw [GetLayerForNthTile_eq self _ _ cols hcolsEq (by rw [hdm]; omega), hdm]
    simp [slotLayer, hn, hd]
  · rintro ⟨r, c⟩ ⟨hr, hc, hget⟩
    simp only at hr hc hget
    have hlt := hidx r c hr hc
    rw [GetLayerForNthTile_eq self _ _ cols hcolsEq (by omega)] at hget
    have hpos : ((tileSlots self.m_Model.imageData.layers).map (fun e => e.layer.id))[r * cols + c]?
        = ((tileSlots self.m_Model.imageData.layers).map (fun e => e.layer.id))[n]? := by
      rw [List.getElem?_map, List.getElem?_map, hn]
      simp only [slotLayer] at hget
      split at hget
      · rename_i e he
        split at hget
        · have : e.layer = it.layer := by simpa using hget
          simp [he, this]
        · simp at hget
      · simp at hget
    have hlen : r * cols + c < ((tileSlots self.m_Model.imageData.layers).map
        (fun e => e.layer.id)).length := by
      by_contra hge
      rw [List.getElem?_eq_none (by omega), List.getElem?_map, hn] at hpos
      simp at hpos
    have heq : r * cols + c = n := List.getElem?_inj hlen hsub hpos
    have hu := (Nat.div_mod_unique hcols).2 ⟨show c + cols * r = n by rw [← heq]; ring, hc⟩
    rw [Prod.mk.injEq]
    exact ⟨hu.1.symm, hu.2.symm⟩

/-- C6, amended, at two tiles for a main image and an overlay: the overlay is the
primary layer of exactly one tile. -/
theorem GetLayerForNthTile_unique_tile_witness :
    ∃! p : Nat × Nat, p.1 < 1 ∧ p.2 < 2
      ∧ GetLayerForNthTile Examples.sideBySide (p.1 : Int) (p.2 : Int)
          = some Examples.overlayA :=
  GetLayerForNthTile_unique_tile Examples.sideBySide 1 2
    ⟨LayerRole.OVERLAY_ROLE, Examples.overlayA⟩ rfl (by decide) (by decide) (by decide)
    (by decide) rfl rfl

/-- C4 fails as stated: a segmentation (label role) that is not sticky takes the
second tile slot, and without the label layers that tile is empty. -/
theorem GetLayerForNthTile_label_counterexample :
    (⟨LayerRole.LABEL_ROLE, Examples.looseLabel⟩ : LayerEntry)
        ∈ Examples.withLooseLabel.m_Model.imageData.layers
      ∧ GetLayerForNthTile Examples.withLooseLabel 0 1 = some Examples.looseLabel
      ∧ GetLayerForNthTile
          (withLayers Examples.withLooseLabel
            (Examples.withLooseLabel.m_Model.imageData.layers.filter
              (fun it => decide (it.role ≠ LayerRole.LABEL_ROLE)))) 0 1 = none := by
  refine ⟨by decide, rfl, rfl⟩

/-- C4, amended: the count of tile slots in `GetLayerForNthTile` skips the layers
that are sticky and not of main role.  So a label layer that is sticky takes no
slot: leaving all sticky label layers out of the sequence does not change the layer
returned for any `(row, col)`, and a returned layer is listed by an entry that is
not a sticky label. -/
theorem GetLayerForNthTile_skips_sticky_label (self : GenericSliceRenderer)
    (row col : Int) :
    GetLayerForNthTile
        (withLayers self (self.m_Model.imageData.layers.filter
          (fun it => !(decide (it.role = LayerRole.LABEL_ROLE) && it.layer.sticky))))
        row col
      = GetLayerForNthTile self row col
    ∧ ∀ layer, GetLayerForNthTile self row col = some layer →
        ∃ it ∈ self.m_Model.imageData.layers, it.layer = layer
          ∧ ¬ (it.role = LayerRole.LABEL_ROLE ∧ it.layer.sticky = true) := by
  constructor
  · simp only [GetLayerForNthTile, LayerIterator, withLayers]
    apply GetLayerForNthTile.loop_filter
    intro it _ hk
    have hk1 : it.role = LayerRole.LABEL_ROLE ∧ it.layer.sticky = true := by
      simpa using hk
    exact ⟨by rw [hk1.1]; decide, hk1.2⟩
  · intro layer h
    obtain ⟨it, hmem, hl, _, hrole⟩ := GetLayerForNthTile.loop_some _ _ _ h
    refine ⟨it, hmem, hl, ?_⟩
    rintro ⟨h1, h2⟩
    rcases hrole with hrole | hrole
    · rw [h1] at hrole; exact absurd hrole (by decide)
    · rw [← hl, h2] at hrole; exact absurd hrole (by decide)

/-- C4, amended, at a sticky segmentation between a main image and an overlay: the
second tile shows the overlay, with and without the segmentation in the sequence. -/
theorem GetLayerForNthTile_skips_sticky_label_witness :
    GetLayerForNthTile Examples.withStickyLabel 0 1 = some Examples.overlayA
      ∧ GetLayerForNthTile
          (withLayers Examples.withStickyLabel
            (Examples.withStickyLabel.m_Model.imageData.layers.filter
              (fun it => !(decide (it.role = LayerRole.LABEL_ROLE) && it.layer.sticky))))
          0 1 = GetLayerForNthTile Examples.withStickyLabel 0 1 :=
  ⟨rfl, (GetLayerForNthTile_skips_sticky_label Examples.withStickyLabel 0 1).1⟩

end GenericSliceRenderer

/-! ## Compositing: the properties -/

namespace GenericSliceRenderer

/-- C1 fails as stated: in a single tile, a drawable overlay (not the segmentation)
of opacity zero is not drawn; only the main image is. -/
theorem DrawImageLayers_single_tile_counterexample :
    (⟨LayerRole.OVERLAY_ROLE, Examples.clearOverlay⟩ : LayerEntry)
        ∈ Examples.withClearOverlay.m_Model.imageData.layers
      ∧ Examples.clearOverlay.drawable = true
      ∧ hasTexture Examples.withClearOverlay Examples.clearOverlay = true
      ∧ Examples.withClearOverlay.m_ThumbnailDrawing = false
      ∧ drawn ((DrawImageLayers 1 1 0 0 >>= fun _ => DrawSegmentationTexture).run
          Examples.withClearOverlay).2
        = [Primitive.Texture Examples.mainLayer.id (Vector3d.fill 1)] := by
  refine ⟨by decide, rfl, rfl, rfl, rfl⟩

/-- C1, amended: in single-tile mode, with the thumbnail flag off and a texture for
the segmentation if one is loaded, `DrawImageLayers` followed by
`DrawSegmentationTexture` ends normally and draws, once for each position of the
iterator and in its order, the layers with a texture that are of main role (opaque)
or that are not of label role, drawable and of opacity above zero (transparent, with
their own opacity); then it draws the segmentation once, with the global
segmentation opacity, if it is loaded. -/
theorem DrawImageLayers_single_tile (self : GenericSliceRenderer) (irow icol : Int)
    (hflag : self.m_ThumbnailDrawing = false)
    (hseg : self.m_Model.imageData.segmentationLoaded = true →
      hasTexture self self.m_Model.imageData.segmentation = true) :
    ((DrawImageLayers 1 1 irow icol >>= fun _ => DrawSegmentationTexture).run self).1
        = Except.ok ()
      ∧ drawn ((DrawImageLayers 1 1 irow icol >>= fun _ => DrawSegmentationTexture).run
          self).2
        = drawn self
          ++ (self.m_Model.imageData.layers.filter (fun it =>
                hasTexture self it.layer
                && (decide (it.role = LayerRole.MAIN_ROLE)
                    || (decide (it.role ≠ LayerRole.LABEL_ROLE) && it.layer.drawable
                        && decide (it.layer.alpha > 0))))).map
              (fun it =>
                if it.role = LayerRole.MAIN_ROLE then
                  Primitive.Texture it.layer.id (Vector3d.fill 1)
                else Primitive.TextureTransparent it.layer.id it.layer.alpha)
          ++ (if self.m_Model.imageData.segmentationLoaded then
                [Primitive.TextureTransparent self.m_Model.imageData.segmentation.id
                  self.m_Model.segmentationAlpha]
              else []) := by
  have hok := DrawImageLayers_single_ok self irow icol hflag
  have hd := DrawImageLayers_single_draws self irow icol hflag
  have hseg1 : ((DrawImageLayers 1 1 irow icol).run self).2.m_Model.imageData.segmentationLoaded
      = true → hasTexture ((DrawImageLayers 1 1 irow icol).run self).2
        ((DrawImageLayers 1 1 irow icol).run self).2.m_Model.imageData.segmentation = true := by
    rw [hd.model, hd.hasTexture_eq]
    exact hseg
  have hd2 := DrawSegmentationTexture_draws _ hseg1
  rw [Render.run_bind, Render.andThen_of_ok hok]
  refine ⟨DrawSegmentationTexture_ok _ hseg1, ?_⟩
  rw [(Draws.draws_trans hd hd2).drawn_eq, ← List.append_assoc]
  congr 1
  · congr 1
    rw [← flatMap_ite_singleton]
    congr 1
    funext it
    by_cases hm : it.role = LayerRole.MAIN_ROLE
    · simp [singleTilePrims, texturePrims, hm, hflag]
    · by_cases hc : it.role ≠ LayerRole.LABEL_ROLE ∧ it.layer.drawable = true
          ∧ it.layer.alpha > 0
      · simp only [singleTilePrims, texturePrims, hm, if_false, if_pos hc]
        simp [hc.1, hc.2.1, hc.2.2]
      · simp only [singleTilePrims, hm, if_false, if_neg hc]
        simp [hm]
        intro _ h1 h2
        exact not_lt.1 (fun h3 => hc ⟨h1, h2, h3⟩)
  · simp [segmentationPrims, hd.model]

/-- C1, amended, at a single tile with a main image, a sticky overlay of opacity
one half and a loaded segmentation: the two calls end normally and draw the main
image, the overlay and the segmentation, in this order. -/
theorem DrawImageLayers_single_tile_witness :
    ((DrawImageLayers 1 1 0 0 >>= fun _ => DrawSegmentationTexture).run
        Examples.singleTile).1 = Except.ok ()
      ∧ drawn ((DrawImageLayers 1 1 0 0 >>= fun _ => DrawSegmentationTexture).run
          Examples.singleTile).2
        = [Primitive.Texture 1 (Vector3d.fill 1), Primitive.TextureTransparent 4 (1 / 2),
            Primitive.TextureTransparent 7 (3 / 10)] := by
  have h := DrawImageLayers_single_tile Examples.singleTile 0 0 rfl (fun _ => rfl)
  refine ⟨h.1, ?_⟩
  rw [h.2]
  simp [drawn, hasTexture, Examples.singleTile, Examples.renderer, Examples.model,
    Examples.allTextures, Examples.gl0, Examples.mainLayer, Examples.stickyOverlay,
    Examples.stickyLabel, List.filter]

/-- C3: in multi-tile mode, for a tile whose index `row * cols + col` (an `int`) is
at least the number of layers that are of main role or not sticky, or whose slot
holds a layer that is not drawable, `GetLayerForNthTile` returns the null pointer
and `DrawImageLayers` ends normally, returns `false` and leaves the state as it
is: nothing is drawn. -/
theorem DrawImageLayers_empty_tile (self : GenericSliceRenderer) (nrows ncols : Int)
    (irow icol cols : Nat)
    (hflag : self.m_ThumbnailDrawing = false) (hmulti : ¬ (nrows = 1 ∧ ncols = 1))
    (hcols : self.m_Model.layout.2 = (cols : Int))
    (hidx : irow * cols + icol < 2147483648)
    (hempty : (tileSlots self.m_Model.imageData.layers).length ≤ irow * cols + icol
        ∨ ∃ it, (tileSlots self.m_Model.imageData.layers)[irow * cols + icol]? = some it
              ∧ it.layer.drawable = false) :
    GetLayerForNthTile self (irow : Int) (icol : Int) = none
      ∧ (DrawImageLayers nrows ncols (irow : Int) (icol : Int)).run self
          = (Except.ok false, self) := by
  have hnone : GetLayerForNthTile self (irow : Int) (icol : Int) = none := by
    rw [GetLayerForNthTile_eq self irow icol cols hcols hidx]
    rcases hempty with hlen | ⟨it, hit, hdraw⟩
    · simp [slotLayer, List.getElem?_eq_none hlen]
    · simp [slotLayer, hit, hdraw]
  exact ⟨hnone, DrawImageLayers_tiled_none self nrows ncols _ _ hflag hmulti hnone⟩

/-- C3 at two tiles and a single main image: the second tile has no layer. -/
theorem DrawImageLayers_empty_tile_witness :
    GetLayerForNthTile Examples.stickyMainOnly 0 1 = none
      ∧ (DrawImageLayers 1 2 0 1).run Examples.stickyMainOnly
          = (Except.ok false, Examples.stickyMainOnly) :=
  DrawImageLayers_empty_tile Examples.stickyMainOnly 1 2 0 1 2 rfl (by decide) rfl
    (by decide) (Or.inl (by decide))

end GenericSliceRenderer

/-! ## The viewport and the view transform of a tile -/

namespace GenericSliceRenderer

theorem cellViewport_eq (nrows ncols cell_w cell_h irow icol : Int)
    (hrow0 : 0 ≤ irow) (hrow : irow < nrows) (hcol0 : 0 ≤ icol) (hcol : icol < ncols)
    (hw0 : 0 ≤ cell_w) (hh0 : 0 ≤ cell_h)
    (hrows : nrows < 2147483648) (hcols : ncols < 2147483648)
    (hw : ncols * cell_w < 2147483648) (hh : nrows * cell_h < 2147483648) :
    cellViewport nrows cell_w cell_h irow icol
      = ⟨icol * cell_w, (nrows - 1 - irow) * cell_h, cell_w, cell_h⟩ := by
  have hx0 : 0 ≤ icol * cell_w := Int.mul_nonneg hcol0 hw0
  have hx1 : icol * cell_w ≤ ncols * cell_w :=
    Int.mul_le_mul_of_nonneg_right (le_of_lt hcol) hw0
  have hy0 : 0 ≤ (nrows - 1 - irow) * cell_h := Int.mul_nonneg (by omega) hh0
  have hy1 : (nrows - 1 - irow) * cell_h ≤ nrows * cell_h :=
    Int.mul_le_mul_of_nonneg_right (by omega) hh0
  have hcw : cell_w ≤ ncols * cell_w := by
    have := Int.mul_le_mul_of_nonneg_right (show (1 : Int) ≤ ncols by omega) hw0
    simpa using this
  have hch : cell_h ≤ nrows * cell_h := by
    have := Int.mul_le_mul_of_nonneg_right (show (1 : Int) ≤ nrows by omega) hh0
    simpa using this
  have e1 : toUInt32 icol = icol := toUInt32_of_range hcol0 (by omega)
  have e2 : toInt32 (nrows - 1 - irow) = nrows - 1 - irow :=
    toInt32_of_range (by omega) (by omega)
  have e3 : toUInt32 (nrows - 1 - irow) = nrows - 1 - irow :=
    toUInt32_of_range (by omega) (by omega)
  unfold cellViewport
  rw [e1, e2, e3, toUInt32_of_range hx0 (by omega), toUInt32_of_range hy0 (by omega),
    toInt32_of_range hx0 (by omega), toInt32_of_range hy0 (by omega),
    toInt32_of_range hw0 (by omega), toInt32_of_range hh0 (by omega)]

end GenericSliceRenderer

/-! ## The thumbnail -/

namespace Render

theorem run_eq_of_ok {α : Type} {m : Render α} {s : GenericSliceRenderer} {a : α}
    (h : (m.run s).1 = Except.ok a) : m.run s = (Except.ok a, exec m s) := by
  unfold exec
  rw [← h]

end Render

namespace GenericSliceRenderer

theorem DrawMainTexture_ok (s : GenericSliceRenderer) :
    (DrawMainTexture.run s).1 = Except.ok () := by
  have hrest : ∀ s1 : GenericSliceRenderer,
      ((do
          let self ← Render.read
          if (!self.m_ThumbnailDrawing) = true then
            Render.forEach (LayerIterator s.m_Model.imageData (some LayerRole.OVERLAY_ROLE))
              fun it => DrawTextureForLayer it.layer true
          else pure () : Render Unit).run s1).1 = Except.ok () := by
    intro s1
    simp only [Render.run_bind, Render.run_read, Render.andThen_ok]
    split
    · exact Render.forEach_ok _ (fun it s0 => DrawTextureForLayer_ok _ _ _) _ _
    · rfl
  simp only [DrawMainTexture, Render.run_bind, Render.run_read, Render.andThen_ok]
  split
  · rw [Render.run_bind, Render.andThen_of_ok (DrawTextureForLayer_ok _ _ _)]
    exact hrest _
  · rw [Render.run_bind, Render.run_pure, Render.andThen_ok]
    exact hrest _

theorem DrawMainTexture_draws_some (s : GenericSliceRenderer) :
    ∃ ps, Draws s (DrawMainTexture.run s).2 ps := by
  have hrest : ∀ s1 : GenericSliceRenderer,
      ∃ ps, Draws s1 ((do
          let self ← Render.read
          if (!self.m_ThumbnailDrawing) = true then
            Render.forEach (LayerIterator s.m_Model.imageData (some LayerRole.OVERLAY_ROLE))
              fun it => DrawTextureForLayer it.layer true
          else pure () : Render Unit).run s1).2 ps := by
    intro s1
    simp only [Render.run_bind, Render.run_read, Render.andThen_ok]
    split
    · exact Render.forEach_draws_some _ (fun it s0 => ⟨_, DrawTextureForLayer_draws _ _ _⟩) _ _
    · exact ⟨[], Draws.draws_refl s1⟩
  simp only [DrawMainTexture, Render.run_bind, Render.run_read, Render.andThen_ok]
  split
  · rw [Render.run_bind]
    exact Render.andThen_draws_some s _ _ ⟨_, DrawTextureForLayer_draws _ _ _⟩
      (fun _ s1 => hrest s1)
  · rw [Render.run_bind, Render.run_pure, Render.andThen_ok]
    exact hrest _

theorem glPopMatrix_frame (t : GenericSliceRenderer) :
    (glPopMatrix.run t).2.gl.frame = t.gl.frame := by
  simp only [glPopMatrix, Render.run_updateGL]
  cases t.gl.matrixMode with
  | GL_MODELVIEW => cases t.gl.modelviewStack <;> rfl
  | GL_PROJECTION => cases t.gl.projectionStack <;> rfl

/-- A line loop of four vertices: `glColor3dv`, `glBegin`, four `glVertex2d` and
`glEnd` end normally and put the loop on the screen. -/
theorem lineLoop_run {α : Type} (c : Vector3d) (x1 y1 x2 y2 x3 y3 x4 y4 : ℚ)
    (k : Render α) (t : GenericSliceRenderer) :
    (do
        glColor3dv c
        glBegin
        glVertex2d x1 y1
        glVertex2d x2 y2
        glVertex2d x3 y3
        glVertex2d x4 y4
        glEnd
        k : Render α).run t
      = k.run { t with gl := { t.gl with
          color := c
          vertices := none
          frame := t.gl.frame ++ [⟨Primitive.LineLoop c [⟨x1, y1⟩, ⟨x2, y2⟩, ⟨x3, y3⟩, ⟨x4, y4⟩],
            t.gl.viewport, t.gl.modelview⟩] } } := by
  simp only [glColor3dv, glBegin, glVertex2d, glEnd, Render.run_bind, Render.run_updateGL,
    Render.andThen_ok, Render.run_read, Render.run_emit, Option.map_some', List.nil_append,
    List.cons_append]

theorem glPushMatrix_run (t : GenericSliceRenderer) :
    glPushMatrix.run t = (Except.ok (), Render.exec glPushMatrix t) := rfl

theorem glPopMatrix_run (t : GenericSliceRenderer) :
    glPopMatrix.run t = (Except.ok (), Render.exec glPopMatrix t) := rfl

theorem glLoadIdentity_run (t : GenericSliceRenderer) :
    glLoadIdentity.run t = (Except.ok (), Render.exec glLoadIdentity t) := rfl

theorem glMultMatrix_run (M : Affine) (t : GenericSliceRenderer) :
    (glMultMatrix M).run t = (Except.ok (), Render.exec (glMultMatrix M) t) := rfl

theorem exec_glPopMatrix_frame (t : GenericSliceRenderer) :
    (Render.exec glPopMatrix t).gl.frame = t.gl.frame := glPopMatrix_frame t

theorem DrawThumbnail_box (s : GenericSliceRenderer)
    (hvis : s.m_Model.zoomThumbnail.visible = true)
    (hthrow : ∀ d ∈ s.m_TiledOverlays, d.throws = false) :
    (DrawThumbnail.run s).1 = Except.ok ()
      ∧ (drawn (DrawThumbnail.run s).2).getLast?
        = some (Primitive.LineLoop s.m_Model.zoomThumbnail.activeColor
            [⟨-((s.m_Model.size.1 : ℚ) * (1 / 2) / s.m_Model.viewZoom),
              -((s.m_Model.size.2 : ℚ) * (1 / 2) / s.m_Model.viewZoom)⟩,
             ⟨-((s.m_Model.size.1 : ℚ) * (1 / 2) / s.m_Model.viewZoom),
              (s.m_Model.size.2 : ℚ) * (1 / 2) / s.m_Model.viewZoom⟩,
             ⟨(s.m_Model.size.1 : ℚ) * (1 / 2) / s.m_Model.viewZoom,
              (s.m_Model.size.2 : ℚ) * (1 / 2) / s.m_Model.viewZoom⟩,
             ⟨(s.m_Model.size.1 : ℚ) * (1 / 2) / s.m_Model.viewZoom,
              -((s.m_Model.size.2 : ℚ) * (1 / 2) / s.m_Model.viewZoom)⟩]) := by
  have hT : ∀ t0 : GenericSliceRenderer, t0.m_TiledOverlays = s.m_TiledOverlays →
      (DrawTiledOverlays.run (Render.exec DrawMainTexture t0)).1 = Except.ok () := by
    intro t0 h0
    apply DrawTiledOverlays_ok
    obtain ⟨ps, hps⟩ := DrawMainTexture_draws_some t0
    show ∀ d ∈ (DrawMainTexture.run t0).2.m_TiledOverlays, d.throws = false
    rw [hps.tiled, h0]
    exact hthrow
  simp only [DrawThumbnail, hvis, Bool.not_true, Bool.false_eq_true, if_false,
    Render.run_bind, Render.run_read, Render.andThen_ok, Render.run_update,
    glTranslated, glScaled, glScalef, glPushMatrix_run, glLoadIdentity_run, glMultMatrix_run]
  rw [Render.run_eq_of_ok (DrawMainTexture_ok _), Render.andThen_ok, Render.run_bind]
  generalize hT0 : Render.exec
    (glMultMatrix (Affine.scale s.m_Model.sliceSpacing.1 s.m_Model.sliceSpacing.2)) _ = T0
  have hT1 : T0.m_TiledOverlays = s.m_TiledOverlays := by rw [← hT0]; rfl
  rw [Render.run_eq_of_ok (hT T0 hT1), Render.andThen_ok, lineLoop_run]
  rw [Render.run_bind, glPopMatrix_run, Render.andThen_ok, Render.run_bind, glMultMatrix_run,
    Render.andThen_ok, lineLoop_run]
  simp only [Render.run_bind, glPopMatrix_run, Render.andThen_ok, Render.run_update]
  refine ⟨trivial, ?_⟩
  simp only [drawn, exec_glPopMatrix_frame, List.map_append, List.map_cons, List.map_nil,
    List.getLast?_append, List.getLast?_singleton, Option.or_some]

/-- C10: for every zoom above zero and every cell size `(w, h)`, `DrawThumbnail`
(with the thumbnail element visible and overlay delegates that do not throw) ends
normally, and the last thing it draws is the box of the current view: the line
loop through `(-w', -h')`, `(-w', h')`, `(w', h')`, `(w', -h')` with
`w' = w * 0.5 / zoom` and `h' = h * 0.5 / zoom`.  With the zoom doubled the box has
half these dimensions. -/
theorem DrawThumbnail_zoom_box (self : GenericSliceRenderer) (zoom : ℚ)
    (hzoom : 0 < zoom)
    (hvis : self.m_Model.zoomThumbnail.visible = true)
    (hthrow : ∀ d ∈ self.m_TiledOverlays, d.throws = false) :
    (DrawThumbnail.run (withViewZoom self zoom)).1 = Except.ok ()
      ∧ (drawn (DrawThumbnail.run (withViewZoom self zoom)).2).getLast?
        = some (Primitive.LineLoop self.m_Model.zoomThumbnail.activeColor
            [⟨-((self.m_Model.size.1 : ℚ) * (1 / 2) / zoom),
              -((self.m_Model.size.2 : ℚ) * (1 / 2) / zoom)⟩,
             ⟨-((self.m_Model.size.1 : ℚ) * (1 / 2) / zoom),
              (self.m_Model.size.2 : ℚ) * (1 / 2) / zoom⟩,
             ⟨(self.m_Model.size.1 : ℚ) * (1 / 2) / zoom,
              (self.m_Model.size.2 : ℚ) * (1 / 2) / zoom⟩,
             ⟨(self.m_Model.size.1 : ℚ) * (1 / 2) / zoom,
              -((self.m_Model.size.2 : ℚ) * (1 / 2) / zoom)⟩])
      ∧ (drawn (DrawThumbnail.run (withViewZoom self (2 * zoom))).2).getLast?
        = some (Primitive.LineLoop self.m_Model.zoomThumbnail.activeColor
            [⟨-((self.m_Model.size.1 : ℚ) * (1 / 2) / zoom / 2),
              -((self.m_Model.size.2 : ℚ) * (1 / 2) / zoom / 2)⟩,
             ⟨-((self.m_Model.size.1 : ℚ) * (1 / 2) / zoom / 2),
              (self.m_Model.size.2 : ℚ) * (1 / 2) / zoom / 2⟩,
             ⟨(self.m_Model.size.1 : ℚ) * (1 / 2) / zoom / 2,
              (self.m_Model.size.2 : ℚ) * (1 / 2) / zoom / 2⟩,
             ⟨(self.m_Model.size.1 : ℚ) * (1 / 2) / zoom / 2,
              -((self.m_Model.size.2 : ℚ) * (1 / 2) / zoom / 2)⟩]) := by
  have h1 := DrawThumbnail_box (withViewZoom self zoom) hvis hthrow
  have h2 := DrawThumbnail_box (withViewZoom self (2 * zoom)) hvis hthrow
  have hhalf : ∀ a : ℚ, a * (1 / 2) / (2 * zoom) = a * (1 / 2) / zoom / 2 := by
    intro a
    rw [div_div, mul_comm zoom 2]
  refine ⟨h1.1, h1.2, ?_⟩
  rw [h2.2]
  simp only [withViewZoom, hhalf]

/-- C10 at a cell of `200` by `100` pixels: at zoom `2` the box of the current view
has the half-dimensions `50` and `25`, and at zoom `4` it has `25` and `25 / 2`. -/
theorem DrawThumbnail_zoom_box_witness :
    (DrawThumbnail.run (withViewZoom Examples.sideBySide 2)).1 = Except.ok ()
      ∧ (drawn (DrawThumbnail.run (withViewZoom Examples.sideBySide 2)).2).getLast?
        = some (Primitive.LineLoop ⟨1, 0, 0⟩ [⟨-50, -25⟩, ⟨-50, 25⟩, ⟨50, 25⟩, ⟨50, -25⟩])
      ∧ (drawn (DrawThumbnail.run (withViewZoom Examples.sideBySide (2 * 2))).2).getLast?
        = some (Primitive.LineLoop ⟨1, 0, 0⟩
            [⟨-25, -(25 / 2)⟩, ⟨-25, 25 / 2⟩, ⟨25, 25 / 2⟩, ⟨25, -(25 / 2)⟩]) := by
  have h := DrawThumbnail_zoom_box Examples.sideBySide 2 (by norm_num) rfl
    (fun d hd => absurd hd (List.not_mem_nil d))
  refine ⟨h.1, ?_, ?_⟩
  · rw [h.2.1]
    simp [Examples.sideBySide, Examples.renderer, Examples.model]
    norm_num
  · rw [h.2.2]
    simp [Examples.sideBySide, Examples.renderer, Examples.model]
    norm_num

end GenericSliceRenderer

/-! ## Textures -/

namespace GenericSliceRenderer

/-- C15 fails on the code: `DrawSegmentationTexture` uses the texture of a loaded
segmentation without testing it.  With the segmentation loaded and no texture for
it in the layer association, `DrawSegmentationTexture` ends in the dereference of a
null pointer, and so does the whole of `paintGL`; `DrawTextureForLayer` on the same
layer tests the pointer and draws nothing. -/
theorem DrawSegmentationTexture_null_texture :
    Examples.missingSegmentationTexture.m_Model.imageData.segmentationLoaded = true
      ∧ hasTexture Examples.missingSegmentationTexture
          Examples.missingSegmentationTexture.m_Model.imageData.segmentation = false
      ∧ DrawSegmentationTexture.run Examples.missingSegmentationTexture
          = (Except.error RenderError.NullTexture, Examples.missingSegmentationTexture)
      ∧ (paintGL.run Examples.missingSegmentationTexture).1
          = Except.error RenderError.NullTexture
      ∧ (DrawTextureForLayer Examples.stickyLabel true).run
            Examples.missingSegmentationTexture
          = (Except.ok (), Examples.missingSegmentationTexture) := by
  refine ⟨rfl, rfl, rfl, ?_, rfl⟩
  rfl

/-- C16: `CreateTexture`, and with it the factory of the layer association, returns
the null pointer exactly for a layer that is not initialized; for an initialized
layer it returns a texture that shows the display slice of the layer in this slice
view, with the interpolation of the display settings. -/
theorem CreateTexture_initialized (self : GenericSliceRenderer) (iw : ImageWrapperBase) :
    (CreateTexture self iw = none ↔ iw.initialized = false)
      ∧ (iw.initialized = true →
          CreateTexture self iw
            = some { image := self.m_Model.displaySlice iw.id self.m_Model.id
                     interpolation := self.m_Model.greyInterpolationMode })
      ∧ OpenGLTextureAssociationFactory.New ⟨self⟩ iw = CreateTexture self iw := by
  refine ⟨?_, ?_, rfl⟩
  · cases h : iw.initialized <;> simp [CreateTexture, h]
  · intro h
    simp [CreateTexture, h]

/-- C16 at an initialized layer and at a layer that is not initialized. -/
theorem CreateTexture_initialized_witness :
    CreateTexture Examples.sideBySide Examples.mainLayer
        = some { image := 1, interpolation := InterpolationMode.NEAREST }
      ∧ CreateTexture Examples.sideBySide Examples.emptyLayer = none :=
  ⟨(CreateTexture_initialized Examples.sideBySide Examples.mainLayer).2.1 rfl,
   (CreateTexture_initialized Examples.sideBySide Examples.emptyLayer).1.2 rfl⟩

end GenericSliceRenderer

/-! ## The thumbnail flag and the layers -/

namespace GenericSliceRenderer

theorem DrawMainTexture_thumbnail_draws (s : GenericSliceRenderer)
    (hflag : s.m_ThumbnailDrawing = true) :
    Draws s (DrawMainTexture.run s).2
      (if s.m_Model.imageData.mainLoaded then texturePrims s s.m_Model.imageData.main false
       else []) := by
  have hrest : ∀ s1 : GenericSliceRenderer, s1.m_ThumbnailDrawing = true →
      ((do
          let self ← Render.read
          if (!self.m_ThumbnailDrawing) = true then
            Render.forEach (LayerIterator s.m_Model.imageData (some LayerRole.OVERLAY_ROLE))
              fun it => DrawTextureForLayer it.layer true
          else pure () : Render Unit).run s1).2 = s1 := by
    intro s1 h1
    simp only [Render.run_bind, Render.run_read, Render.andThen_ok, h1, Bool.not_true,
      Bool.false_eq_true, if_false, Render.run_pure]
  simp only [DrawMainTexture, Render.run_bind, Render.run_read, Render.andThen_ok]
  cases hl : s.m_Model.imageData.mainLoaded with
  | true =>
    simp only [if_true]
    have hd := DrawTextureForLayer_draws s.m_Model.imageData.main false s
    rw [Render.run_bind, Render.andThen_of_ok (DrawTextureForLayer_ok _ _ _),
      hrest _ (by rw [hd.flag]; exact hflag)]
    exact hd
  | false =>
    simp only [Bool.false_eq_true, if_false]
    rw [Render.run_bind, Render.run_pure, Render.andThen_ok, hrest _ hflag]
    exact Draws.draws_refl s

/-- C13: while the thumbnail flag is set, `DrawMainTexture` and `DrawImageLayers`
draw the texture of the main layer and nothing else, no overlay and no
segmentation, and `DrawTextureForLayer` draws an opaque texture against the colour
of the `ZOOM_THUMBNAIL` element. -/
theorem thumbnail_flag_draws_main_only (self : GenericSliceRenderer)
    (nrows ncols irow icol : Int) (layer : ImageWrapperBase)
    (hflag : self.m_ThumbnailDrawing = true) :
    ((DrawMainTexture.run self).1 = Except.ok ()
        ∧ drawn (DrawMainTexture.run self).2
          = drawn self
            ++ (if self.m_Model.imageData.mainLoaded
                    && hasTexture self self.m_Model.imageData.main then
                  [Primitive.Texture self.m_Model.imageData.main.id
                    self.m_Model.zoomThumbnail.normalColor]
                else []))
      ∧ (((DrawImageLayers nrows ncols irow icol).run self).1 = Except.ok true
        ∧ drawn ((DrawImageLayers nrows ncols irow icol).run self).2
          = drawn self
            ++ (if hasTexture self self.m_Model.imageData.main then
                  [Primitive.Texture self.m_Model.imageData.main.id
                    self.m_Model.zoomThumbnail.normalColor]
                else []))
      ∧ drawn ((DrawTextureForLayer layer false).run self).2
          = drawn self
            ++ (if hasTexture self layer then
                  [Primitive.Texture layer.id self.m_Model.zoomThumbnail.normalColor]
                else []) := by
  have htex : ∀ l : ImageWrapperBase, texturePrims self l false
      = if hasTexture self l then
          [Primitive.Texture l.id self.m_Model.zoomThumbnail.normalColor]
        else [] := by
    intro l
    simp [texturePrims, hflag]
  refine ⟨⟨DrawMainTexture_ok self, ?_⟩, ⟨?_, ?_⟩, ?_⟩
  · rw [(DrawMainTexture_thumbnail_draws self hflag).drawn_eq, htex]
    cases self.m_Model.imageData.mainLoaded <;> simp
  · simp only [DrawImageLayers, hflag, Render.run_bind, Render.run_read, Render.andThen_ok,
      if_true]
    rw [Render.andThen_of_ok (DrawTextureForLayer_ok _ _ _)]
    rfl
  · simp only [DrawImageLayers, hflag, Render.run_bind, Render.run_read, Render.andThen_ok,
      if_true]
    rw [Render.andThen_of_ok (DrawTextureForLayer_ok _ _ _), Render.run_pure]
    rw [(DrawTextureForLayer_draws _ false self).drawn_eq, htex]
  · rw [(DrawTextureForLayer_draws layer false self).drawn_eq, htex]

/-- C13 in the thumbnail pass over a main image, a sticky overlay and a
segmentation: the main texture alone is drawn, against the thumbnail colour. -/
theorem thumbnail_flag_draws_main_only_witness :
    drawn (DrawMainTexture.run (Examples.inThumbnail Examples.singleTile)).2
        = [Primitive.Texture 1 ⟨1, 1, 0⟩]
      ∧ drawn ((DrawImageLayers 1 1 0 0).run (Examples.inThumbnail Examples.singleTile)).2
        = [Primitive.Texture 1 ⟨1, 1, 0⟩] := by
  have h := thumbnail_flag_draws_main_only (Examples.inThumbnail Examples.singleTile)
    1 1 0 0 Examples.mainLayer rfl
  refine ⟨?_, ?_⟩
  · rw [h.1.2]; rfl
  · rw [h.2.1.2]; rfl

end GenericSliceRenderer

/-! ## The thumbnail flag -/

namespace Render

theorem andThen_of_error {α β : Type} {r : Except RenderError α × GenericSliceRenderer}
    {e : RenderError} (h : r.1 = Except.error e) (f : α → Render β) :
    andThen r f = (Except.error e, r.2) := by
  obtain ⟨x, s1⟩ := r
  simp only at h
  subst h
  rfl

namespace Triple

variable {α β : Type} {P Q R : GenericSliceRenderer → Prop}

theorem bind {m : Render α} {f : α → Render β}
    (h1 : Triple P m R) (h2 : ∀ a, Triple R (f a) Q) : Triple P (m >>= f) Q := by
  intro s hs b hb
  rw [run_bind] at hb ⊢
  cases hm : (m.run s).1 with
  | ok a =>
    rw [andThen_of_ok hm] at hb ⊢
    exact h2 a _ (h1 s hs a hm) b hb
  | error e =>
    rw [andThen_of_error hm] at hb
    cases hb

theorem pure_of {a : α} (h : ∀ s, P s → Q s) : Triple P (pure a : Render α) Q :=
  fun s hs _ _ => h s hs

theorem ite {c : Prop} [Decidable c] {m n : Render α}
    (h1 : Triple P m Q) (h2 : Triple P n Q) : Triple P (if c then m else n) Q := by
  split
  · exact h1
  · exact h2

theorem read_inv : Triple P read P :=
  fun _ hs _ _ => hs

theorem read_bind {f : GenericSliceRenderer → Render β}
    (h : ∀ a, Triple P (f a) Q) : Triple P (read >>= f) Q :=
  bind read_inv h

theorem inv_bind {m : Render α} {f : α → Render β}
    (h1 : Triple P m P) (h2 : ∀ a, Triple P (f a) P) : Triple P (m >>= f) P :=
  bind h1 h2

theorem drop {m : Render α} {f : α → Render β}
    (h : ∀ a, Triple (fun _ => True) (f a) Q) : Triple P (m >>= f) Q :=
  bind (fun _ _ _ _ => trivial) h

theorem forEach {γ : Type} {body : γ → Render Unit} (h : ∀ a, Triple P (body a) P) :
    ∀ l : List γ, Triple P (Render.forEach l body) P := by
  intro l
  induction l with
  | nil => exact pure_of (fun _ hs => hs)
  | cons a rest ih => exact bind (h a) (fun _ => ih)

theorem forRange {n : Int} {body : Int → Render Unit} (h : ∀ a, Triple P (body a) P) :
    Triple P (Render.forRange n body) P :=
  forEach h _

theorem flag_updateGL (f : GLContext → GLContext) : Triple FlagOff (updateGL f) FlagOff :=
  fun _ hs _ _ => hs

theorem flag_of_draws {m : Render α}
    (h : ∀ s, ∃ ps, Draws s (m.run s).2 ps) : Triple FlagOff m FlagOff := by
  intro s hs _ _
  obtain ⟨ps, hps⟩ := h s
  exact hps.flag.trans hs

end Triple

end Render

namespace GenericSliceRenderer

theorem DrawGlobalOverlays_draws_some (s : GenericSliceRenderer) :
    ∃ ps, Draws s (DrawGlobalOverlays.run s).2 ps := by
  simp only [DrawGlobalOverlays, Render.run_bind, Render.run_read, Render.andThen_ok]
  exact Render.forEach_draws_some _ paintGL_delegate_draws_some _ _

theorem DrawThumbnail_flag : Render.Triple FlagOff DrawThumbnail FlagOff := by
  unfold DrawThumbnail
  refine Render.Triple.read_bind (fun self => ?_)
  refine Render.Triple.ite (Render.Triple.pure_of (fun _ hs => hs)) ?_
  repeat refine Render.Triple.drop (fun _ => ?_)
  exact fun _ _ _ _ => rfl

theorem glClear_flag : Render.Triple FlagOff glClear FlagOff :=
  Render.Triple.read_bind (fun _ => Render.Triple.flag_updateGL _)

theorem cell_flag (nrows ncols cell_w cell_h irow icol : Int) :
    Render.Triple FlagOff (paintGL.cell nrows ncols cell_w cell_h irow icol) FlagOff := by
  unfold paintGL.cell paintGL.setupCell paintGL.drawCell
  repeat (first
    | with_reducible refine Render.Triple.inv_bind ?_ (fun _ => ?_)
    | with_reducible refine Render.Triple.ite ?_ ?_
    | with_reducible exact Render.Triple.read_inv
    | with_reducible exact Render.Triple.flag_of_draws (DrawImageLayers_draws_some · _ _ _ _)
    | with_reducible exact Render.Triple.flag_of_draws DrawSegmentationTexture_draws_some
    | with_reducible exact Render.Triple.flag_of_draws DrawTiledOverlays_draws_some
    | exact Render.Triple.flag_updateGL _
    | exact Render.Triple.pure_of (fun _ hs => hs))

theorem cells_flag (nrows ncols cell_w cell_h : Int) :
    Render.Triple FlagOff
      (Render.forRange nrows (fun irow => Render.forRange ncols (fun icol =>
        paintGL.cell nrows ncols cell_w cell_h irow icol))) FlagOff :=
  Render.Triple.forRange (fun _ => Render.Triple.forRange (fun _ => cell_flag _ _ _ _ _ _))

theorem paintGL_flag : Render.Triple FlagOff paintGL FlagOff := by
  unfold paintGL
  repeat (first
    | with_reducible refine Render.Triple.inv_bind ?_ (fun _ => ?_)
    | with_reducible refine Render.Triple.ite ?_ ?_
    | with_reducible exact Render.Triple.read_inv
    | with_reducible exact DrawThumbnail_flag
    | with_reducible exact glClear_flag
    | with_reducible exact Render.Triple.flag_of_draws DrawGlobalOverlays_draws_some
    | with_reducible exact cells_flag _ _ _ _
    | exact Render.Triple.flag_updateGL _
    | exact Render.Triple.pure_of (fun _ hs => hs)
    | dsimp only)

end GenericSliceRenderer

/-! ## Paints that end normally -/

namespace Render

namespace Total

variable {α β : Type} {P Q R : GenericSliceRenderer → Prop}

theorem total_bind {m : Render α} {f : α → Render β}
    (h1 : Total P m R) (h2 : ∀ a, Total R (f a) Q) : Total P (m >>= f) Q := by
  intro s hs
  obtain ⟨⟨a, ha⟩, hr⟩ := h1 s hs
  rw [run_bind, andThen_of_ok ha]
  exact h2 a _ hr

theorem total_pure_of {a : α} (h : ∀ s, P s → Q s) : Total P (pure a : Render α) Q :=
  fun s hs => ⟨⟨a, rfl⟩, h s hs⟩

theorem total_ite {c : Prop} [Decidable c] {m n : Render α}
    (h1 : Total P m Q) (h2 : Total P n Q) : Total P (if c then m else n) Q := by
  split
  · exact h1
  · exact h2

theorem total_read_inv : Total P read P :=
  fun s hs => ⟨⟨s, rfl⟩, hs⟩

theorem total_inv_bind {m : Render α} {f : α → Render β}
    (h1 : Total P m P) (h2 : ∀ a, Total P (f a) P) : Total P (m >>= f) P :=
  total_bind h1 h2

theorem total_forEach {γ : Type} {body : γ → Render Unit} (h : ∀ a, Total P (body a) P) :
    ∀ l : List γ, Total P (Render.forEach l body) P := by
  intro l
  induction l with
  | nil => exact total_pure_of (fun _ hs => hs)
  | cons a rest ih => exact total_bind (h a) (fun _ => ih)

theorem total_forRange {n : Int} {body : Int → Render Unit} (h : ∀ a, Total P (body a) P) :
    Total P (Render.forRange n body) P :=
  total_forEach h _

theorem of_update (f : GenericSliceRenderer → GenericSliceRenderer)
    (h : ∀ s, P s → P (f s)) : Total P (update f) P :=
  fun s hs => ⟨⟨(), rfl⟩, h s hs⟩

theorem nofail_of_draws {m : Render α}
    (hok : ∀ s, NoFailure s → ∃ a, (m.run s).1 = Except.ok a)
    (hd : ∀ s, ∃ ps, Draws s (m.run s).2 ps) : Total NoFailure m NoFailure := by
  intro s hs
  refine ⟨hok s hs, ?_⟩
  obtain ⟨ps, hps⟩ := hd s
  obtain ⟨h1, h2, h3⟩ := hs
  refine ⟨?_, ?_, ?_⟩
  · rw [hps.tiled]; exact h1
  · rw [hps.global]; exact h2
  · rw [hps.model, hps.hasTexture_eq]; exact h3

end Total

end Render

namespace GenericSliceRenderer

theorem DrawGlobalOverlays_ok (s : GenericSliceRenderer)
    (h : ∀ d ∈ s.m_GlobalOverlays, d.throws = false) :
    (DrawGlobalOverlays.run s).1 = Except.ok () := by
  simp only [DrawGlobalOverlays, Render.run_bind, Render.run_read, Render.andThen_ok]
  generalize s.m_GlobalOverlays = l at h
  induction l generalizing s with
  | nil => rfl
  | cons d rest ih =>
    have hd : d.throws = false := h d (List.mem_cons_self _ _)
    rw [Render.run_forEach_cons]
    simp only [RendererDelegate.paintGL, hd, Bool.false_eq_true, if_false, Render.run_emit,
      Render.andThen_ok]
    exact ih _ (fun e he => h e (List.mem_cons_of_mem _ he))

theorem DrawImageLayers_ok_some (s : GenericSliceRenderer) (nrows ncols irow icol : Int) :
    ∃ b, ((DrawImageLayers nrows ncols irow icol).run s).1 = Except.ok b := by
  cases hflag : s.m_ThumbnailDrawing with
  | true =>
    refine ⟨true, ?_⟩
    simp only [DrawImageLayers, hflag, Render.run_bind, Render.run_read, Render.andThen_ok,
      if_true]
    rw [Render.andThen_of_ok (DrawTextureForLayer_ok _ _ _)]
    rfl
  | false =>
    by_cases hsingle : nrows = 1 ∧ ncols = 1
    · obtain ⟨h1, h2⟩ := hsingle
      subst h1 h2
      exact ⟨true, DrawImageLayers_single_ok s irow icol hflag⟩
    · cases hget : GetLayerForNthTile s irow icol with
      | none =>
        rw [DrawImageLayers_tiled_none s nrows ncols irow icol hflag hsingle hget]
        exact ⟨false, rfl⟩
      | some layer =>
        exact ⟨true, DrawImageLayers_tiled_ok s nrows ncols irow icol layer hflag hsingle hget⟩

theorem glClear_total : Render.Total NoFailure glClear NoFailure :=
  fun _ hs => ⟨⟨(), rfl⟩, hs⟩

theorem glEnd_total : Render.Total NoFailure glEnd NoFailure := by
  intro s hs
  simp only [glEnd, Render.run_bind, Render.run_read, Render.andThen_ok]
  cases s.gl.vertices with
  | none => exact ⟨⟨(), rfl⟩, hs⟩
  | some vs => exact ⟨⟨(), rfl⟩, hs⟩

theorem DrawMainTexture_total : Render.Total NoFailure DrawMainTexture NoFailure :=
  Render.Total.nofail_of_draws (fun s _ => ⟨(), DrawMainTexture_ok s⟩) DrawMainTexture_draws_some

theorem DrawTiledOverlays_total : Render.Total NoFailure DrawTiledOverlays NoFailure :=
  Render.Total.nofail_of_draws (fun s hs => ⟨(), DrawTiledOverlays_ok s hs.1⟩)
    DrawTiledOverlays_draws_some

theorem DrawGlobalOverlays_total : Render.Total NoFailure DrawGlobalOverlays NoFailure :=
  Render.Total.nofail_of_draws (fun s hs => ⟨(), DrawGlobalOverlays_ok s hs.2.1⟩)
    DrawGlobalOverlays_draws_some

theorem DrawSegmentationTexture_total :
    Render.Total NoFailure DrawSegmentationTexture NoFailure :=
  Render.Total.nofail_of_draws (fun s hs => ⟨(), DrawSegmentationTexture_ok s hs.2.2⟩)
    DrawSegmentationTexture_draws_some

theorem DrawImageLayers_total (nrows ncols irow icol : Int) :
    Render.Total NoFailure (DrawImageLayers nrows ncols irow icol) NoFailure :=
  Render.Total.nofail_of_draws (fun s _ => DrawImageLayers_ok_some s _ _ _ _)
    (DrawImageLayers_draws_some · _ _ _ _)

theorem DrawThumbnail_total : Render.Total NoFailure DrawThumbnail NoFailure := by
  unfold DrawThumbnail
  repeat (first
    | with_reducible refine Render.Total.total_inv_bind ?_ (fun _ => ?_)
    | with_reducible refine Render.Total.total_ite ?_ ?_
    | with_reducible exact Render.Total.total_read_inv
    | with_reducible exact glEnd_total
    | with_reducible exact DrawMainTexture_total
    | with_reducible exact DrawTiledOverlays_total
    | exact Render.Total.of_update _ (fun _ hs => hs)
    | exact Render.Total.total_pure_of (fun _ hs => hs)
    | dsimp only)

theorem cell_total (nrows ncols cell_w cell_h irow icol : Int) :
    Render.Total NoFailure (paintGL.cell nrows ncols cell_w cell_h irow icol) NoFailure := by
  unfold paintGL.cell paintGL.setupCell paintGL.drawCell
  repeat (first
    | with_reducible refine Render.Total.total_inv_bind ?_ (fun _ => ?_)
    | with_reducible refine Render.Total.total_ite ?_ ?_
    | with_reducible exact Render.Total.total_read_inv
    | with_reducible exact DrawImageLayers_total _ _ _ _
    | with_reducible exact DrawSegmentationTexture_total
    | with_reducible exact DrawTiledOverlays_total
    | exact Render.Total.of_update _ (fun _ hs => hs)
    | exact Render.Total.total_pure_of (fun _ hs => hs)
    | dsimp only)

theorem cells_total (nrows ncols cell_w cell_h : Int) :
    Render.Total NoFailure
      (Render.forRange nrows (fun irow => Render.forRange ncols (fun icol =>
        paintGL.cell nrows ncols cell_w cell_h irow icol))) NoFailure :=
  Render.Total.total_forRange (fun _ =>
    Render.Total.total_forRange (fun _ => cell_total _ _ _ _ _ _))

theorem paintGL_total : Render.Total NoFailure paintGL NoFailure := by
  unfold paintGL
  repeat (first
    | with_reducible refine Render.Total.total_inv_bind ?_ (fun _ => ?_)
    | with_reducible refine Render.Total.total_ite ?_ ?_
    | with_reducible exact Render.Total.total_read_inv
    | with_reducible exact DrawThumbnail_total
    | with_reducible exact glClear_total
    | with_reducible exact DrawGlobalOverlays_total
    | with_reducible exact cells_total _ _ _ _
    | exact Render.Total.of_update _ (fun _ hs => hs)
    | exact Render.Total.total_pure_of (fun _ hs => hs)
    | dsimp only)

end GenericSliceRenderer

namespace GenericSliceRenderer

theorem DrawTiledOverlays_error (s : GenericSliceRenderer)
    (h : ∃ d ∈ s.m_TiledOverlays, d.throws = true) :
    ∃ e, (DrawTiledOverlays.run s).1 = Except.error e := by
  simp only [DrawTiledOverlays, Render.run_bind, Render.run_read, Render.andThen_ok]
  generalize s.m_TiledOverlays = l at h
  induction l generalizing s with
  | nil =>
    obtain ⟨d, hd, _⟩ := h
    exact absurd hd (List.not_mem_nil d)
  | cons d rest ih =>
    rw [Render.run_forEach_cons]
    cases hd : d.throws with
    | true =>
      refine ⟨RenderError.DelegateException d.id, ?_⟩
      simp only [RendererDelegate.paintGL, hd, if_true, Render.run_fail]
      rfl
    | false =>
      simp only [RendererDelegate.paintGL, hd, Bool.false_eq_true, if_false, Render.run_emit,
        Render.andThen_ok]
      apply ih
      obtain ⟨e, he, hthrow⟩ := h
      rcases List.mem_cons.mp he with h1 | h1
      · rw [h1, hd] at hthrow
        exact absurd hthrow (by decide)
      · exact ⟨e, h1, hthrow⟩

/-- The two ends of `DrawThumbnail` with a visible thumbnail: after an exception of
an overlay delegate the flag is set, and after the last statement it is not. -/
theorem DrawThumbnail_ends (s : GenericSliceRenderer)
    (hvis : s.m_Model.zoomThumbnail.visible = true) :
    ((∃ d ∈ s.m_TiledOverlays, d.throws = true) →
        (∃ e, (DrawThumbnail.run s).1 = Except.error e)
          ∧ (DrawThumbnail.run s).2.m_ThumbnailDrawing = true)
      ∧ ((∀ d ∈ s.m_TiledOverlays, d.throws = false) →
        (DrawThumbnail.run s).1 = Except.ok ()
          ∧ (DrawThumbnail.run s).2.m_ThumbnailDrawing = false) := by
  have hT : ∀ t0 : GenericSliceRenderer, t0.m_TiledOverlays = s.m_TiledOverlays →
      (Render.exec DrawMainTexture t0).m_TiledOverlays = s.m_TiledOverlays := by
    intro t0 h0
    obtain ⟨ps, hps⟩ := DrawMainTexture_draws_some t0
    show (DrawMainTexture.run t0).2.m_TiledOverlays = _
    rw [hps.tiled, h0]
  have hF : ∀ t0 : GenericSliceRenderer, t0.m_ThumbnailDrawing = true →
      (DrawTiledOverlays.run (Render.exec DrawMainTexture t0)).2.m_ThumbnailDrawing = true := by
    intro t0 h0
    obtain ⟨ps, hps⟩ := DrawMainTexture_draws_some t0
    obtain ⟨qs, hqs⟩ := DrawTiledOverlays_draws_some (Render.exec DrawMainTexture t0)
    rw [hqs.flag]
    show (DrawMainTexture.run t0).2.m_ThumbnailDrawing = _
    rw [hps.flag, h0]
  simp only [DrawThumbnail, hvis, Bool.not_true, Bool.false_eq_true, if_false,
    Render.run_bind, Render.run_read, Render.andThen_ok, Render.run_update,
    glTranslated, glScaled, glScalef, glPushMatrix_run, glLoadIdentity_run, glMultMatrix_run]
  rw [Render.run_eq_of_ok (DrawMainTexture_ok _), Render.andThen_ok, Render.run_bind]
  generalize hT0 : Render.exec
    (glMultMatrix (Affine.scale s.m_Model.sliceSpacing.1 s.m_Model.sliceSpacing.2)) _ = T0
  have hT1 : T0.m_TiledOverlays = s.m_TiledOverlays := by rw [← hT0]; rfl
  have hT2 : T0.m_ThumbnailDrawing = true := by rw [← hT0]; rfl
  constructor
  · intro hthrow
    obtain ⟨e, he⟩ := DrawTiledOverlays_error (Render.exec DrawMainTexture T0)
      (by rw [hT T0 hT1]; exact hthrow)
    rw [Render.andThen_of_error he]
    exact ⟨⟨e, rfl⟩, hF T0 hT2⟩
  · intro hthrow
    have hok : (DrawTiledOverlays.run (Render.exec DrawMainTexture T0)).1 = Except.ok () :=
      DrawTiledOverlays_ok _ (by rw [hT T0 hT1]; exact hthrow)
    rw [Render.run_eq_of_ok hok, Render.andThen_ok, lineLoop_run]
    rw [Render.run_bind, glPopMatrix_run, Render.andThen_ok, Render.run_bind, glMultMatrix_run,
      Render.andThen_ok, lineLoop_run]
    simp only [Render.run_bind, glPopMatrix_run, Render.andThen_ok, Render.run_update]
    exact ⟨trivial, trivial⟩

theorem DrawThumbnail_hidden (s : GenericSliceRenderer)
    (hvis : s.m_Model.zoomThumbnail.visible = false) :
    DrawThumbnail.run s = (Except.ok (), s) := by
  simp only [DrawThumbnail, hvis, Bool.not_false, if_true, Render.run_bind, Render.run_read,
    Render.andThen_ok, Render.run_pure]

end GenericSliceRenderer

namespace GenericSliceRenderer

/-- C11: the constructor leaves the thumbnail flag false, whatever the object held
before.  For every renderer state `self` in which the flag is false: when
`paintGL` returns, the flag is false; when `DrawThumbnail` returns, the flag is
false; the early return of `DrawThumbnail` for a thumbnail that is not visible
leaves the whole state as it was; and when no overlay delegate throws and a loaded
segmentation has a texture, both calls do return. -/
theorem thumbnail_flag_restored (init self : GenericSliceRenderer)
    (hflag : self.m_ThumbnailDrawing = false) :
    (constructor init).m_ThumbnailDrawing = false
      ∧ (∀ a, (paintGL.run self).1 = Except.ok a →
          (paintGL.run self).2.m_ThumbnailDrawing = false)
      ∧ (∀ a, (DrawThumbnail.run self).1 = Except.ok a →
          (DrawThumbnail.run self).2.m_ThumbnailDrawing = false)
      ∧ (self.m_Model.zoomThumbnail.visible = false →
          DrawThumbnail.run self = (Except.ok (), self))
      ∧ (NoFailure self →
          (paintGL.run self).1 = Except.ok ()
            ∧ (DrawThumbnail.run self).1 = Except.ok ()) := by
  refine ⟨rfl, paintGL_flag self hflag, DrawThumbnail_flag self hflag,
    DrawThumbnail_hidden self, fun hno => ⟨?_, ?_⟩⟩
  · obtain ⟨⟨a, ha⟩, _⟩ := paintGL_total self hno
    exact ha
  · obtain ⟨⟨a, ha⟩, _⟩ := DrawThumbnail_total self hno
    exact ha

/-- C11 at two tiles side by side with a visible thumbnail: the flag is false
before `paintGL`, and the statement holds of this state. -/
theorem thumbnail_flag_restored_witness :
    Examples.sideBySide.m_ThumbnailDrawing = false
      ∧ Examples.sideBySide.m_Model.zoomThumbnail.visible = true
      ∧ ((constructor Examples.sideBySide).m_ThumbnailDrawing = false
        ∧ (∀ a, (paintGL.run Examples.sideBySide).1 = Except.ok a →
            (paintGL.run Examples.sideBySide).2.m_ThumbnailDrawing = false)
        ∧ (∀ a, (DrawThumbnail.run Examples.sideBySide).1 = Except.ok a →
            (DrawThumbnail.run Examples.sideBySide).2.m_ThumbnailDrawing = false)
        ∧ (Examples.sideBySide.m_Model.zoomThumbnail.visible = false →
            DrawThumbnail.run Examples.sideBySide = (Except.ok (), Examples.sideBySide))
        ∧ (NoFailure Examples.sideBySide →
            (paintGL.run Examples.sideBySide).1 = Except.ok ()
              ∧ (DrawThumbnail.run Examples.sideBySide).1 = Except.ok ())) :=
  ⟨rfl, rfl, thumbnail_flag_restored Examples.sideBySide Examples.sideBySide rfl⟩

/-- C12, a state that refutes it: one image, a visible thumbnail and a tiled overlay
delegate that throws.  The flag is false before the call; `DrawThumbnail` is left by
the exception of the delegate with the flag set, and so is `paintGL`. -/
theorem DrawThumbnail_flag_counterexample :
    Examples.throwingOverlay.m_ThumbnailDrawing = false
      ∧ (DrawThumbnail.run Examples.throwingOverlay).1
          = Except.error (RenderError.DelegateException 1)
      ∧ (DrawThumbnail.run Examples.throwingOverlay).2.m_ThumbnailDrawing = true
      ∧ (paintGL.run Examples.throwingOverlay).1
          = Except.error (RenderError.DelegateException 1)
      ∧ (paintGL.run Examples.throwingOverlay).2.m_ThumbnailDrawing = true :=
  ⟨rfl, rfl, rfl, rfl, rfl⟩

/-- C12, amended: `DrawThumbnail` resets the flag on its two normal exits only.  For
every state with the flag false before the call, the flag is false after the call
exactly when the call ends normally, and the call ends normally exactly when the
thumbnail is not visible or no tiled overlay delegate throws; on the exit by an
exception the flag stays set. -/
theorem DrawThumbnail_flag_reset_iff (self : GenericSliceRenderer)
    (hflag : self.m_ThumbnailDrawing = false) :
    ((DrawThumbnail.run self).2.m_ThumbnailDrawing = false
        ↔ (DrawThumbnail.run self).1 = Except.ok ())
      ∧ ((DrawThumbnail.run self).1 = Except.ok ()
        ↔ (self.m_Model.zoomThumbnail.visible = false
            ∨ ∀ d ∈ self.m_TiledOverlays, d.throws = false))
      ∧ ((∃ e, (DrawThumbnail.run self).1 = Except.error e) →
          (DrawThumbnail.run self).2.m_ThumbnailDrawing = true) := by
  cases hvis : self.m_Model.zoomThumbnail.visible with
  | false =>
    rw [DrawThumbnail_hidden self hvis]
    refine ⟨⟨fun _ => rfl, fun _ => hflag⟩, ⟨fun _ => Or.inl rfl, fun _ => rfl⟩, ?_⟩
    rintro ⟨e, he⟩
    exact absurd he (by simp)
  | true =>
    obtain ⟨hbad, hgood⟩ := DrawThumbnail_ends self hvis
    by_cases hthrow : ∀ d ∈ self.m_TiledOverlays, d.throws = false
    · obtain ⟨hok, hf⟩ := hgood hthrow
      refine ⟨⟨fun _ => hok, fun _ => hf⟩, ⟨fun _ => Or.inr hthrow, fun _ => hok⟩, ?_⟩
      rintro ⟨e, he⟩
      rw [hok] at he
      exact absurd he (by simp)
    · have hex : ∃ d ∈ self.m_TiledOverlays, d.throws = true := by
        by_contra hne
        apply hthrow
        intro d hd
        cases hdt : d.throws with
        | false => rfl
        | true => exact absurd ⟨d, hd, hdt⟩ hne
      obtain ⟨⟨e, he⟩, hf⟩ := hbad hex
      refine ⟨⟨fun h => ?_, fun h => ?_⟩, ⟨fun h => ?_, fun h => ?_⟩, fun _ => hf⟩
      · rw [hf] at h
        exact absurd h (by decide)
      · rw [he] at h
        exact absurd h (by simp)
      · rw [he] at h
        exact absurd h (by simp)
      · rcases h with h | h
        · exact absurd h (by decide)
        · exact absurd h hthrow

/-- C12, amended, at the state with the throwing delegate: the flag is false before
the call, the call does not end normally and the flag is set after it. -/
theorem DrawThumbnail_flag_reset_iff_witness :
    Examples.throwingOverlay.m_ThumbnailDrawing = false
      ∧ ¬ (DrawThumbnail.run Examples.throwingOverlay).1 = Except.ok ()
      ∧ (DrawThumbnail.run Examples.throwingOverlay).2.m_ThumbnailDrawing = true :=
  ⟨rfl,
   fun h => absurd
     (((DrawThumbnail_flag_reset_iff Examples.throwingOverlay rfl).2.1.mp h).resolve_left
       (by decide) ⟨1, true⟩ (List.mem_singleton.mpr rfl))
     (by decide),
   (DrawThumbnail_flag_reset_iff Examples.throwingOverlay rfl).2.2
     ⟨RenderError.DelegateException 1, rfl⟩⟩

end GenericSliceRenderer

/-! ## What the thumbnail shows -/

namespace GenericSliceRenderer

theorem forEach_delegates_draws (l : List RendererDelegate) (s : GenericSliceRenderer)
    (h : ∀ d ∈ l, d.throws = false) :
    Draws s ((Render.forEach l (fun it => RendererDelegate.paintGL it)).run s).2
      (l.map (fun d => Primitive.Delegate d.id)) := by
  induction l generalizing s with
  | nil => exact Draws.draws_refl s
  | cons d rest ih =>
    have hd : d.throws = false := h d (List.mem_cons_self _ _)
    rw [Render.run_forEach_cons]
    simp only [RendererDelegate.paintGL, hd, Bool.false_eq_true, if_false, Render.run_emit,
      Render.andThen_ok]
    have h1 : Draws s { s with gl := { s.gl with
        frame := s.gl.frame ++ [⟨Primitive.Delegate d.id, s.gl.viewport, s.gl.modelview⟩] } }
        [Primitive.Delegate d.id] := by
      constructor <;> simp
    exact Draws.draws_trans h1 (ih _ (fun e he => h e (List.mem_cons_of_mem _ he)))

theorem DrawTiledOverlays_draws (s : GenericSliceRenderer)
    (h : ∀ d ∈ s.m_TiledOverlays, d.throws = false) :
    Draws s (DrawTiledOverlays.run s).2
      (s.m_TiledOverlays.map (fun d => Primitive.Delegate d.id)) := by
  simp only [DrawTiledOverlays, Render.run_bind, Render.run_read, Render.andThen_ok]
  exact forEach_delegates_draws _ s h

theorem DrawThumbnail_frame (s : GenericSliceRenderer)
    (hvis : s.m_Model.zoomThumbnail.visible = true)
    (hthrow : ∀ d ∈ s.m_TiledOverlays, d.throws = false)
    (hmode : s.gl.matrixMode = MatrixMode.GL_MODELVIEW) :
    (DrawThumbnail.run s).2.gl.frame
      = s.gl.frame
        ++ (thumbnailPrims s).map (fun p => ⟨p, s.gl.viewport,
            (thumbnailTransform s.m_Model).mul
              (Affine.scale s.m_Model.sliceSpacing.1 s.m_Model.sliceSpacing.2)⟩)
        ++ [⟨viewBox s.m_Model, s.gl.viewport,
            (thumbnailTransform s.m_Model).mul
              (Affine.translate s.m_Model.viewPosition.1 s.m_Model.viewPosition.2)⟩] := by
  simp only [DrawThumbnail, hvis, Bool.not_true, Bool.false_eq_true, if_false,
    Render.run_bind, Render.run_read, Render.andThen_ok, Render.run_update,
    glTranslated, glScaled, glScalef, glPushMatrix_run, glLoadIdentity_run, glMultMatrix_run]
  rw [Render.run_eq_of_ok (DrawMainTexture_ok _), Render.andThen_ok, Render.run_bind]
  generalize hT0 : Render.exec
    (glMultMatrix (Affine.scale s.m_Model.sliceSpacing.1 s.m_Model.sliceSpacing.2)) _ = T0
  have hT0gl : T0 = { s with
      m_ThumbnailDrawing := true
      gl := { s.gl with
        modelview := (thumbnailTransform s.m_Model).mul
          (Affine.scale s.m_Model.sliceSpacing.1 s.m_Model.sliceSpacing.2)
        modelviewStack := thumbnailTransform s.m_Model :: s.gl.modelview
          :: s.gl.modelviewStack } } := by
    rw [← hT0]
    simp only [Render.exec, glMultMatrix, glPushMatrix, glLoadIdentity, Render.run_updateGL,
      hmode, thumbnailTransform, Affine.identity_mul]
  have hmain : Draws T0 (Render.exec DrawMainTexture T0)
      (if s.m_Model.imageData.mainLoaded && hasTexture s s.m_Model.imageData.main then
        [Primitive.Texture s.m_Model.imageData.main.id s.m_Model.zoomThumbnail.normalColor]
       else []) := by
    have h := DrawMainTexture_thumbnail_draws T0 (by rw [hT0gl])
    have e : (if T0.m_Model.imageData.mainLoaded then
          texturePrims T0 T0.m_Model.imageData.main false else [])
        = (if s.m_Model.imageData.mainLoaded && hasTexture s s.m_Model.imageData.main then
            [Primitive.Texture s.m_Model.imageData.main.id
              s.m_Model.zoomThumbnail.normalColor]
           else []) := by
      rw [hT0gl]
      simp only [texturePrims, hasTexture, if_true]
      cases s.m_Model.imageData.mainLoaded <;> simp
    rw [e] at h
    exact h
  have htiled : (Render.exec DrawMainTexture T0).m_TiledOverlays = s.m_TiledOverlays := by
    rw [hmain.tiled, hT0gl]
  have hover := DrawTiledOverlays_draws (Render.exec DrawMainTexture T0)
    (by rw [htiled]; exact hthrow)
  rw [htiled] at hover
  have hok : (DrawTiledOverlays.run (Render.exec DrawMainTexture T0)).1 = Except.ok () :=
    DrawTiledOverlays_ok _ (by rw [htiled]; exact hthrow)
  have hgl := (Draws.draws_trans hmain hover).gl
  rw [Render.run_eq_of_ok hok, Render.andThen_ok, lineLoop_run]
  rw [Render.run_bind, glPopMatrix_run, Render.andThen_ok, Render.run_bind, glMultMatrix_run,
    Render.andThen_ok, lineLoop_run]
  simp only [Render.run_bind, glPopMatrix_run, Render.andThen_ok, Render.run_update]
  change (Render.exec DrawTiledOverlays (Render.exec DrawMainTexture T0)).gl = _ at hgl
  generalize Render.exec DrawTiledOverlays (Render.exec DrawMainTexture T0) = T2 at hgl ⊢
  clear hmain hover hok htiled hT0
  subst hT0gl
  obtain ⟨m2, f2, t2, to2, go2, gl2⟩ := T2
  simp only at hgl
  subst hgl
  simp only [Render.exec, glPopMatrix, glMultMatrix, Render.run_updateGL, hmode, thumbnailPrims,
    viewBox, List.map_append, List.append_assoc, List.map_cons, List.map_nil]

theorem view_interval (z w p c : ℚ) (hz : 0 < z) :
    (0 ≤ 1 / 2 * w + z * (p - c) ∧ 1 / 2 * w + z * (p - c) ≤ w)
      ↔ (c - w * (1 / 2) / z ≤ p ∧ p ≤ c + w * (1 / 2) / z) := by
  have h1 : c - w * (1 / 2) / z ≤ p ↔ (c - p) * z ≤ w * (1 / 2) := by
    rw [sub_le_comm, le_div_iff₀ hz]
  have h2 : p ≤ c + w * (1 / 2) / z ↔ (p - c) * z ≤ w * (1 / 2) := by
    rw [← sub_le_iff_le_add', le_div_iff₀ hz]
  rw [h1, h2]
  constructor
  · rintro ⟨ha, hb⟩
    constructor <;> linarith
  · rintro ⟨ha, hb⟩
    constructor <;> linarith

/-- C14, a state that refutes it: a main image and a sticky overlay that is drawable,
of opacity `1 / 2` and with a texture.  `DrawThumbnail` ends normally and draws the
main texture, the border of the image and the box of the view; the texture of the
sticky overlay is not drawn. -/
theorem DrawThumbnail_sticky_counterexample :
    Examples.mainAndSticky.m_Model.imageData.layers
        = [⟨LayerRole.MAIN_ROLE, Examples.mainLayer⟩,
           ⟨LayerRole.OVERLAY_ROLE, Examples.stickyOverlay⟩]
      ∧ Examples.stickyOverlay.sticky = true
      ∧ Examples.stickyOverlay.drawable = true
      ∧ Examples.stickyOverlay.alpha > 0
      ∧ hasTexture Examples.mainAndSticky Examples.stickyOverlay = true
      ∧ (DrawThumbnail.run Examples.mainAndSticky).1 = Except.ok ()
      ∧ drawn (DrawThumbnail.run Examples.mainAndSticky).2
        = [Primitive.Texture 1 ⟨1, 1, 0⟩,
           Primitive.LineLoop ⟨1, 1, 0⟩ [⟨0, 0⟩, ⟨0, 48⟩, ⟨64, 48⟩, ⟨64, 0⟩],
           Primitive.LineLoop ⟨1, 0, 0⟩ [⟨-50, -25⟩, ⟨-50, 25⟩, ⟨50, 25⟩, ⟨50, -25⟩]] := by
  refine ⟨rfl, rfl, rfl, ?_, rfl, ?_, ?_⟩
  · norm_num [Examples.stickyOverlay]
  · exact (DrawThumbnail_box Examples.mainAndSticky rfl
      (fun d hd => absurd hd (List.not_mem_nil d))).1
  · rw [drawn, DrawThumbnail_frame Examples.mainAndSticky rfl
      (fun d hd => absurd hd (List.not_mem_nil d)) rfl]
    simp [thumbnailPrims, viewBox, hasTexture, Examples.mainAndSticky, Examples.renderer,
      Examples.model, Examples.gl0, Examples.allTextures, Examples.mainLayer]
    norm_num

/-- C14, amended: `DrawThumbnail` renders at the thumbnail scale the main layer
alone.  For every layer stack (with the thumbnail visible, overlay delegates that do
not throw and the model-view matrix current), the call ends normally and what it adds
to the screen is, under the matrix of the thumbnail times the pixel spacing, the main
texture against the thumbnail colour (when the main image is loaded and has a
texture), the tiled overlay delegates and the border of the image, and then the box
of the view; no texture of an overlay, sticky or not, is among them. -/
theorem DrawThumbnail_main_only (self : GenericSliceRenderer)
    (hvis : self.m_Model.zoomThumbnail.visible = true)
    (hthrow : ∀ d ∈ self.m_TiledOverlays, d.throws = false)
    (hmode : self.gl.matrixMode = MatrixMode.GL_MODELVIEW) :
    (DrawThumbnail.run self).1 = Except.ok ()
      ∧ (DrawThumbnail.run self).2.gl.frame
        = self.gl.frame
          ++ (((if self.m_Model.imageData.mainLoaded
                    && hasTexture self self.m_Model.imageData.main then
                  [Primitive.Texture self.m_Model.imageData.main.id
                    self.m_Model.zoomThumbnail.normalColor]
                else [])
              ++ self.m_TiledOverlays.map (fun d => Primitive.Delegate d.id)
              ++ [Primitive.LineLoop self.m_Model.zoomThumbnail.normalColor
                    [⟨0, 0⟩, ⟨0, (self.m_Model.sliceSize.2 : ℚ)⟩,
                     ⟨(self.m_Model.sliceSize.1 : ℚ), (self.m_Model.sliceSize.2 : ℚ)⟩,
                     ⟨(self.m_Model.sliceSize.1 : ℚ), 0⟩]]).map
              (fun p => ⟨p, self.gl.viewport,
                ((Affine.translate (self.m_Model.thumbnailPosition.1 : ℚ)
                    (self.m_Model.thumbnailPosition.2 : ℚ)).mul
                  (Affine.scale self.m_Model.thumbnailZoom self.m_Model.thumbnailZoom)).mul
                  (Affine.scale self.m_Model.sliceSpacing.1 self.m_Model.sliceSpacing.2)⟩))
          ++ [⟨viewBox self.m_Model, self.gl.viewport,
              (thumbnailTransform self.m_Model).mul
                (Affine.translate self.m_Model.viewPosition.1 self.m_Model.viewPosition.2)⟩]
      ∧ (∀ e ∈ (DrawThumbnail.run self).2.gl.frame.drop self.gl.frame.length,
          ∀ (k : Nat) (a : ℚ), e.prim ≠ Primitive.TextureTransparent k a) := by
  have hframe := DrawThumbnail_frame self hvis hthrow hmode
  refine ⟨(DrawThumbnail_box self hvis hthrow).1, hframe, ?_⟩
  intro e he k a
  rw [hframe, List.append_assoc, List.drop_left] at he
  simp only [thumbnailPrims, viewBox, List.mem_append, List.mem_map, List.mem_singleton,
    List.mem_cons, List.not_mem_nil, or_false] at he
  rcases he with ⟨p, hp, rfl⟩ | rfl
  · rcases hp with (hp | ⟨d, _, rfl⟩) | rfl
    · split at hp
      · rw [List.mem_singleton] at hp
        subst hp
        exact fun h => Primitive.noConfusion h
      · exact absurd hp (List.not_mem_nil p)
    · exact fun h => Primitive.noConfusion h
    · exact fun h => Primitive.noConfusion h
  · exact fun h => Primitive.noConfusion h

/-- C14, amended, at a single tile with a main image, a sticky overlay of opacity one
half and a loaded segmentation: the thumbnail is visible, `DrawThumbnail` ends
normally and adds no texture of an overlay to the screen. -/
theorem DrawThumbnail_main_only_witness :
    Examples.singleTile.m_Model.zoomThumbnail.visible = true
      ∧ Examples.singleTile.gl.matrixMode = MatrixMode.GL_MODELVIEW
      ∧ (DrawThumbnail.run Examples.singleTile).1 = Except.ok ()
      ∧ (∀ e ∈ (DrawThumbnail.run Examples.singleTile).2.gl.frame.drop
            Examples.singleTile.gl.frame.length,
          ∀ (k : Nat) (a : ℚ), e.prim ≠ Primitive.TextureTransparent k a) :=
  ⟨rfl, rfl,
   (DrawThumbnail_main_only Examples.singleTile rfl
      (fun d hd => absurd hd (List.not_mem_nil d)) rfl).1,
   (DrawThumbnail_main_only Examples.singleTile rfl
      (fun d hd => absurd hd (List.not_mem_nil d)) rfl).2.2⟩

/-- Over exact rationals, for every zoom above zero, every pan and every tile size
(with the thumbnail visible, overlay delegates that do not throw and the model-view
matrix current), the last thing `DrawThumbnail` draws is the box with the corners `(-w', -h')`, `(-w', h')`,
`(w', h')`, `(w', -h')`, `w' = w * 0.5 / zoom`, `h' = h * 0.5 / zoom`, under the matrix
of the thumbnail times the translation by the pan: a vertex `v` of the box is put
where the thumbnail puts the physical point `pan + v`, as a voxel `q` of the image
is put where the thumbnail puts the physical point `spacing * q`; so the box is
centred at the pan.  A voxel `q` is mapped by the model-view matrix of a cell of
`paintGL` into the viewport `[0, w] x [0, h]` of the tile exactly when its physical
point lies in the box `[pan.x - w', pan.x + w'] x [pan.y - h', pan.y + h']`. -/
theorem DrawThumbnail_box_is_view (self : GenericSliceRenderer) (nrows irow icol : Int)
    (hzoom : 0 < self.m_Model.viewZoom)
    (hvis : self.m_Model.zoomThumbnail.visible = true)
    (hthrow : ∀ d ∈ self.m_TiledOverlays, d.throws = false)
    (hmode : self.gl.matrixMode = MatrixMode.GL_MODELVIEW) :
    (DrawThumbnail.run self).2.gl.frame.getLast?
        = some ⟨Primitive.LineLoop self.m_Model.zoomThumbnail.activeColor
            [⟨-((self.m_Model.size.1 : ℚ) * (1 / 2) / self.m_Model.viewZoom),
              -((self.m_Model.size.2 : ℚ) * (1 / 2) / self.m_Model.viewZoom)⟩,
             ⟨-((self.m_Model.size.1 : ℚ) * (1 / 2) / self.m_Model.viewZoom),
              (self.m_Model.size.2 : ℚ) * (1 / 2) / self.m_Model.viewZoom⟩,
             ⟨(self.m_Model.size.1 : ℚ) * (1 / 2) / self.m_Model.viewZoom,
              (self.m_Model.size.2 : ℚ) * (1 / 2) / self.m_Model.viewZoom⟩,
             ⟨(self.m_Model.size.1 : ℚ) * (1 / 2) / self.m_Model.viewZoom,
              -((self.m_Model.size.2 : ℚ) * (1 / 2) / self.m_Model.viewZoom)⟩],
            self.gl.viewport,
            (thumbnailTransform self.m_Model).mul
              (Affine.translate self.m_Model.viewPosition.1 self.m_Model.viewPosition.2)⟩
      ∧ (∀ v : Point,
          ((thumbnailTransform self.m_Model).mul
              (Affine.translate self.m_Model.viewPosition.1
                self.m_Model.viewPosition.2)).apply v
            = (thumbnailTransform self.m_Model).apply
                ⟨self.m_Model.viewPosition.1 + v.x, self.m_Model.viewPosition.2 + v.y⟩)
      ∧ (∀ q : Point,
          ((thumbnailTransform self.m_Model).mul
              (Affine.scale self.m_Model.sliceSpacing.1 self.m_Model.sliceSpacing.2)).apply q
            = (thumbnailTransform self.m_Model).apply
                ⟨self.m_Model.sliceSpacing.1 * q.x, self.m_Model.sliceSpacing.2 * q.y⟩)
      ∧ (∀ q : Point,
          (0 ≤ (((paintGL.setupCell nrows self.m_Model.size.1 self.m_Model.size.2
                    irow icol).run self).2.gl.modelview.apply q).x
            ∧ (((paintGL.setupCell nrows self.m_Model.size.1 self.m_Model.size.2
                    irow icol).run self).2.gl.modelview.apply q).x
                ≤ (self.m_Model.size.1 : ℚ)
            ∧ 0 ≤ (((paintGL.setupCell nrows self.m_Model.size.1 self.m_Model.size.2
                    irow icol).run self).2.gl.modelview.apply q).y
            ∧ (((paintGL.setupCell nrows self.m_Model.size.1 self.m_Model.size.2
                    irow icol).run self).2.gl.modelview.apply q).y
                ≤ (self.m_Model.size.2 : ℚ))
          ↔ (self.m_Model.viewPosition.1
                  - (self.m_Model.size.1 : ℚ) * (1 / 2) / self.m_Model.viewZoom
                ≤ self.m_Model.sliceSpacing.1 * q.x
              ∧ self.m_Model.sliceSpacing.1 * q.x
                ≤ self.m_Model.viewPosition.1
                  + (self.m_Model.size.1 : ℚ) * (1 / 2) / self.m_Model.viewZoom
              ∧ self.m_Model.viewPosition.2
                  - (self.m_Model.size.2 : ℚ) * (1 / 2) / self.m_Model.viewZoom
                ≤ self.m_Model.sliceSpacing.2 * q.y
              ∧ self.m_Model.sliceSpacing.2 * q.y
                ≤ self.m_Model.viewPosition.2
                  + (self.m_Model.size.2 : ℚ) * (1 / 2) / self.m_Model.viewZoom)) := by
  refine ⟨?_, ?_, ?_, ?_⟩
  · rw [DrawThumbnail_frame self hvis hthrow hmode, List.getLast?_append,
      List.getLast?_singleton, Option.or_some]
    rfl
  · intro v
    simp only [thumbnailTransform, Affine.apply, Affine.mul, Affine.translate, Affine.scale,
      Point.mk.injEq]
    constructor <;> ring
  · intro q
    simp only [thumbnailTransform, Affine.apply, Affine.mul, Affine.translate, Affine.scale,
      Point.mk.injEq]
    constructor <;> ring
  · intro q
    rw [setupCell_run]
    have hx : ((viewTransform self.m_Model self.m_Model.size.1 self.m_Model.size.2).apply q).x
        = 1 / 2 * (self.m_Model.size.1 : ℚ) + self.m_Model.viewZoom
          * (self.m_Model.sliceSpacing.1 * q.x - self.m_Model.viewPosition.1) := by
      simp only [viewTransform, Affine.apply, Affine.mul, Affine.translate, Affine.scale]
      ring
    have hy : ((viewTransform self.m_Model self.m_Model.size.1 self.m_Model.size.2).apply q).y
        = 1 / 2 * (self.m_Model.size.2 : ℚ) + self.m_Model.viewZoom
          * (self.m_Model.sliceSpacing.2 * q.y - self.m_Model.viewPosition.2) := by
      simp only [viewTransform, Affine.apply, Affine.mul, Affine.translate, Affine.scale]
      ring
    have h1 := view_interval self.m_Model.viewZoom (self.m_Model.size.1 : ℚ)
      (self.m_Model.sliceSpacing.1 * q.x) self.m_Model.viewPosition.1 hzoom
    have h2 := view_interval self.m_Model.viewZoom (self.m_Model.size.2 : ℚ)
      (self.m_Model.sliceSpacing.2 * q.y) self.m_Model.viewPosition.2 hzoom
    show (0 ≤ ((viewTransform self.m_Model self.m_Model.size.1 self.m_Model.size.2).apply q).x
      ∧ ((viewTransform self.m_Model self.m_Model.size.1 self.m_Model.size.2).apply q).x
          ≤ (self.m_Model.size.1 : ℚ)
      ∧ 0 ≤ ((viewTransform self.m_Model self.m_Model.size.1 self.m_Model.size.2).apply q).y
      ∧ ((viewTransform self.m_Model self.m_Model.size.1 self.m_Model.size.2).apply q).y
          ≤ (self.m_Model.size.2 : ℚ)) ↔ _
    rw [hx, hy]
    constructor
    · rintro ⟨a, b, c, d⟩
      exact ⟨(h1.mp ⟨a, b⟩).1, (h1.mp ⟨a, b⟩).2, (h2.mp ⟨c, d⟩).1, (h2.mp ⟨c, d⟩).2⟩
    · rintro ⟨a, b, c, d⟩
      exact ⟨(h1.mpr ⟨a, b⟩).1, (h1.mpr ⟨a, b⟩).2, (h2.mpr ⟨c, d⟩).1, (h2.mpr ⟨c, d⟩).2⟩

/-- The box of the view at a cell of `200` by `100` pixels, zoom `2`, pan `(30, 20)`
and spacing `(1, 1)`: the half-dimensions of the box are `50` and `25`, and a voxel is mapped into
the viewport of the cell exactly when it lies in `[-20, 80] x [-5, 45]`. -/
theorem DrawThumbnail_box_is_view_witness :
    (0 : ℚ) < Examples.sideBySide.m_Model.viewZoom
      ∧ ∀ q : Point,
        (0 ≤ (((paintGL.setupCell 1 200 100 0 1).run
                Examples.sideBySide).2.gl.modelview.apply q).x
          ∧ (((paintGL.setupCell 1 200 100 0 1).run
                Examples.sideBySide).2.gl.modelview.apply q).x ≤ 200
          ∧ 0 ≤ (((paintGL.setupCell 1 200 100 0 1).run
                Examples.sideBySide).2.gl.modelview.apply q).y
          ∧ (((paintGL.setupCell 1 200 100 0 1).run
                Examples.sideBySide).2.gl.modelview.apply q).y ≤ 100)
        ↔ (-20 ≤ q.x ∧ q.x ≤ 80 ∧ -5 ≤ q.y ∧ q.y ≤ 45) := by
  have hz : (0 : ℚ) < Examples.sideBySide.m_Model.viewZoom := by
    norm_num [Examples.sideBySide, Examples.renderer, Examples.model]
  refine ⟨hz, fun q => ?_⟩
  have h := (DrawThumbnail_box_is_view Examples.sideBySide 1 0 1 hz rfl
    (fun d hd => absurd hd (List.not_mem_nil d)) rfl).2.2.2 q
  simp only [Examples.sideBySide, Examples.renderer, Examples.model] at h
  norm_num at h
  exact h

end GenericSliceRenderer

/-! ## The segmentation in a tile -/

namespace GenericSliceRenderer

theorem mem_texturePrims_true {s : GenericSliceRenderer} {l : ImageWrapperBase}
    {p : Primitive} (h : p ∈ texturePrims s l true) :
    p = Primitive.TextureTransparent l.id l.alpha := by
  unfold texturePrims at h
  split at h
  · simpa using h
  · exact absurd h (List.not_mem_nil p)

theorem mem_texturePrims_false {s : GenericSliceRenderer} {l : ImageWrapperBase}
    {p : Primitive} (h : p ∈ texturePrims s l false) :
    ∃ c, p = Primitive.Texture l.id c := by
  unfold texturePrims at h
  split at h
  · exact ⟨_, by simpa using h⟩
  · exact absurd h (List.not_mem_nil p)

theorem drawCell_draws (s : GenericSliceRenderer) (nrows ncols irow icol : Int)
    (ps : List Primitive)
    (hok : ((DrawImageLayers nrows ncols irow icol).run s).1 = Except.ok true)
    (hd : Draws s ((DrawImageLayers nrows ncols irow icol).run s).2 ps)
    (hseg : s.m_Model.imageData.segmentationLoaded = true →
      hasTexture s s.m_Model.imageData.segmentation = true)
    (hthrow : ∀ d ∈ s.m_TiledOverlays, d.throws = false) :
    ((paintGL.drawCell nrows ncols irow icol).run s).1 = Except.ok ()
      ∧ drawn ((paintGL.drawCell nrows ncols irow icol).run s).2
        = drawn s ++ (ps ++ segmentationPrims s
            ++ (if s.m_Model.overallVisibility then
                  s.m_TiledOverlays.map (fun d => Primitive.Delegate d.id)
                else [])) := by
  have hpop : ∀ (t : GenericSliceRenderer) (qs : List Primitive), Draws s t qs →
      (glPopMatrix.run t).1 = Except.ok ()
        ∧ drawn (glPopMatrix.run t).2 = drawn s ++ qs := by
    intro t qs ht
    refine ⟨rfl, ?_⟩
    rw [drawn, glPopMatrix_frame, ← ht.drawn_eq]
    rfl
  have hseg1 : ((DrawImageLayers nrows ncols irow icol).run s).2.m_Model.imageData.segmentationLoaded
      = true → hasTexture ((DrawImageLayers nrows ncols irow icol).run s).2
        ((DrawImageLayers nrows ncols irow icol).run s).2.m_Model.imageData.segmentation
          = true := by
    rw [hd.model, hd.hasTexture_eq]
    exact hseg
  have hd2 := Draws.draws_trans hd (DrawSegmentationTexture_draws _ hseg1)
  have hok2 := DrawSegmentationTexture_ok _ hseg1
  have hprims : segmentationPrims ((DrawImageLayers nrows ncols irow icol).run s).2
      = segmentationPrims s := by
    simp only [segmentationPrims, hd.model]
  rw [hprims] at hd2
  simp only [paintGL.drawCell, Render.run_bind, Render.run_read, Render.andThen_ok]
  rw [Render.andThen_of_ok hok]
  simp only [if_true, Render.run_bind]
  rw [Render.andThen_of_ok hok2]
  cases hv : s.m_Model.overallVisibility with
  | false =>
    simp only [Bool.false_eq_true, if_false, Render.run_pure, Render.andThen_ok,
      List.append_nil]
    exact hpop _ _ hd2
  | true =>
    simp only [if_true, Render.run_bind]
    have htiled : (DrawSegmentationTexture.run
        ((DrawImageLayers nrows ncols irow icol).run s).2).2.m_TiledOverlays
          = s.m_TiledOverlays := hd2.tiled
    have hok3 := DrawTiledOverlays_ok _ (by rw [htiled]; exact hthrow)
    have hd3 := DrawTiledOverlays_draws (DrawSegmentationTexture.run
        ((DrawImageLayers nrows ncols irow icol).run s).2).2 (by rw [htiled]; exact hthrow)
    rw [htiled] at hd3
    rw [Render.andThen_of_ok hok3]
    exact hpop _ _ (Draws.draws_trans hd2 hd3)

theorem mem_singleTile_flatMap {s : GenericSliceRenderer} {p : Primitive}
    (h : p ∈ s.m_Model.imageData.layers.flatMap (singleTilePrims s)) :
    (∃ k c, p = Primitive.Texture k c)
      ∨ ∃ it ∈ s.m_Model.imageData.layers, it.role ≠ LayerRole.MAIN_ROLE
          ∧ it.role ≠ LayerRole.LABEL_ROLE
          ∧ p = Primitive.TextureTransparent it.layer.id it.layer.alpha := by
  obtain ⟨it, hit, hp⟩ := List.mem_flatMap.mp h
  unfold singleTilePrims at hp
  split at hp
  · obtain ⟨c, hc⟩ := mem_texturePrims_false hp
    exact Or.inl ⟨_, c, hc⟩
  · rename_i hmain
    split at hp
    · rename_i hc
      exact Or.inr ⟨it, hit, hmain, hc.1, mem_texturePrims_true hp⟩
    · exact absurd hp (List.not_mem_nil p)

theorem mem_sticky_flatMap {s : GenericSliceRenderer} {p : Primitive}
    (h : p ∈ s.m_Model.imageData.layers.flatMap (stickyPrims s)) :
    ∃ it ∈ s.m_Model.imageData.layers, it.role ≠ LayerRole.MAIN_ROLE
      ∧ p = Primitive.TextureTransparent it.layer.id it.layer.alpha := by
  obtain ⟨it, hit, hp⟩ := List.mem_flatMap.mp h
  unfold stickyPrims at hp
  split at hp
  · rename_i hc
    exact ⟨it, hit, hc.1, mem_texturePrims_true hp⟩
  · exact absurd hp (List.not_mem_nil p)

/-- The cell `(0, 0)` of two tiles with a main image, a segmentation layer
that is sticky and has the opacity `1` of its own, and the global segmentation
opacity `3 / 10`.  In the tile `(0, 0)` the texture of the segmentation is drawn by the
loop over the sticky layers with the opacity `1` of the layer, and then once more, last,
with the global opacity. -/
theorem drawCell_segmentation_counterexample :
    (Examples.loadSegmentation Examples.withStickyLabel).m_Model.imageData.segmentation
        = Examples.stickyLabel
      ∧ (⟨LayerRole.LABEL_ROLE, Examples.stickyLabel⟩ : LayerEntry)
          ∈ (Examples.loadSegmentation Examples.withStickyLabel).m_Model.imageData.layers
      ∧ Examples.stickyLabel.id = 7
      ∧ Examples.stickyLabel.alpha = 1
      ∧ (Examples.loadSegmentation Examples.withStickyLabel).m_Model.segmentationAlpha
          = 3 / 10
      ∧ ((paintGL.drawCell 1 2 0 0).run
          (Examples.loadSegmentation Examples.withStickyLabel)).1 = Except.ok ()
      ∧ drawn ((paintGL.drawCell 1 2 0 0).run
          (Examples.loadSegmentation Examples.withStickyLabel)).2
        = [Primitive.Texture 1 (Vector3d.fill 1), Primitive.TextureTransparent 7 1,
            Primitive.TextureTransparent 7 (3 / 10)] :=
  ⟨rfl, by decide, rfl, rfl, rfl, rfl, rfl⟩

/-- In every tile whose image layers are drawn (`DrawImageLayers`
returns `true`; the thumbnail flag is off, the segmentation is loaded and has a
texture, no tiled overlay delegate throws), the cell of `paintGL` ends normally and
draws what `DrawImageLayers` draws, then the segmentation with the global
segmentation opacity, whatever the opacity of the layer, and after it only the tiled
overlay delegates.  What `DrawImageLayers` draws are opaque textures and
transparent textures of layers of the iterator that are not of main role, each with
the opacity of its own layer; in single-tile mode none of them is of label role, in
multi-tile mode a layer of label role may be among them. -/
theorem drawCell_segmentation_last (self : GenericSliceRenderer)
    (nrows ncols irow icol : Int)
    (hflag : self.m_ThumbnailDrawing = false)
    (hloaded : self.m_Model.imageData.segmentationLoaded = true)
    (htex : hasTexture self self.m_Model.imageData.segmentation = true)
    (hthrow : ∀ d ∈ self.m_TiledOverlays, d.throws = false)
    (hdrawn : ((DrawImageLayers nrows ncols irow icol).run self).1 = Except.ok true) :
    ∃ ps : List Primitive,
      drawn ((DrawImageLayers nrows ncols irow icol).run self).2 = drawn self ++ ps
        ∧ ((paintGL.drawCell nrows ncols irow icol).run self).1 = Except.ok ()
        ∧ drawn ((paintGL.drawCell nrows ncols irow icol).run self).2
          = drawn self ++ (ps
              ++ [Primitive.TextureTransparent self.m_Model.imageData.segmentation.id
                    self.m_Model.segmentationAlpha]
              ++ (if self.m_Model.overallVisibility then
                    self.m_TiledOverlays.map (fun d => Primitive.Delegate d.id)
                  else []))
        ∧ (∀ p ∈ ps, (∃ k c, p = Primitive.Texture k c)
            ∨ ∃ it ∈ self.m_Model.imageData.layers, it.role ≠ LayerRole.MAIN_ROLE
                ∧ ((nrows = 1 ∧ ncols = 1) → it.role ≠ LayerRole.LABEL_ROLE)
                ∧ p = Primitive.TextureTransparent it.layer.id it.layer.alpha) := by
  have hsegp : segmentationPrims self
      = [Primitive.TextureTransparent self.m_Model.imageData.segmentation.id
          self.m_Model.segmentationAlpha] := by
    simp only [segmentationPrims, hloaded, if_true]
  by_cases hsingle : nrows = 1 ∧ ncols = 1
  · obtain ⟨h1, h2⟩ := hsingle
    subst h1 h2
    have hd := DrawImageLayers_single_draws self irow icol hflag
    have hcell := drawCell_draws self 1 1 irow icol _ hdrawn hd (fun _ => htex) hthrow
    rw [hsegp] at hcell
    refine ⟨_, hd.drawn_eq, hcell.1, hcell.2, ?_⟩
    intro p hp
    rcases mem_singleTile_flatMap hp with h | ⟨it, hit, hm, hl, hp⟩
    · exact Or.inl h
    · exact Or.inr ⟨it, hit, hm, fun _ => hl, hp⟩
  · cases hget : GetLayerForNthTile self irow icol with
    | none =>
      rw [DrawImageLayers_tiled_none self nrows ncols irow icol hflag hsingle hget] at hdrawn
      exact absurd hdrawn (by simp)
    | some layer =>
      have hd := DrawImageLayers_tiled_draws self nrows ncols irow icol layer hflag hsingle
        hget
      have hcell := drawCell_draws self nrows ncols irow icol _ hdrawn hd (fun _ => htex)
        hthrow
      rw [hsegp] at hcell
      refine ⟨_, hd.drawn_eq, hcell.1, hcell.2, ?_⟩
      intro p hp
      rcases List.mem_append.mp hp with h | h
      · obtain ⟨c, hc⟩ := mem_texturePrims_false h
        exact Or.inl ⟨_, c, hc⟩
      · obtain ⟨it, hit, hm, hp⟩ := mem_sticky_flatMap h
        exact Or.inr ⟨it, hit, hm, fun hs => absurd hs hsingle, hp⟩

/-- The grid `(1, 1)` with a main image, a sticky overlay of opacity `1 / 2` and
a loaded segmentation with the global opacity `3 / 10`: the cell draws the main image
opaque, the overlay at `1 / 2` and the segmentation at `3 / 10`. -/
theorem drawCell_segmentation_last_witness :
    Examples.singleTile.m_ThumbnailDrawing = false
      ∧ Examples.singleTile.m_Model.imageData.segmentationLoaded = true
      ∧ ((paintGL.drawCell 1 1 0 0).run Examples.singleTile).1 = Except.ok ()
      ∧ drawn ((paintGL.drawCell 1 1 0 0).run Examples.singleTile).2
        = [Primitive.Texture 1 (Vector3d.fill 1), Primitive.TextureTransparent 4 (1 / 2),
            Primitive.TextureTransparent 7 (3 / 10)] := by
  obtain ⟨ps, h1, h2, h3, _⟩ := drawCell_segmentation_last Examples.singleTile 1 1 0 0
    rfl rfl rfl (fun d hd => absurd hd (List.not_mem_nil d))
    (DrawImageLayers_single_ok Examples.singleTile 0 0 rfl)
  have hps : ps = [Primitive.Texture 1 (Vector3d.fill 1),
      Primitive.TextureTransparent 4 (1 / 2)] := by
    have h := (DrawImageLayers_single_draws Examples.singleTile 0 0 rfl).drawn_eq
    rw [h1] at h
    rw [List.append_cancel_left h]
    simp [singleTilePrims, texturePrims, hasTexture, Examples.singleTile, Examples.renderer,
      Examples.model, Examples.allTextures, Examples.mainLayer, Examples.stickyOverlay,
      Examples.stickyLabel]
  refine ⟨rfl, rfl, h2, ?_⟩
  rw [h3, hps]
  simp [drawn, Examples.singleTile, Examples.renderer, Examples.model, Examples.gl0,
    Examples.stickyLabel]

end GenericSliceRenderer

/-! ## Each layer once in a tile -/

namespace GenericSliceRenderer

theorem stickyIds_sublist (s : GenericSliceRenderer) (layers : List LayerEntry) :
    ((layers.flatMap (stickyPrims s)).filterMap Primitive.textureLayer).Sublist
      ((layers.filter (fun it =>
          decide (it.role ≠ LayerRole.MAIN_ROLE) && it.layer.sticky)).map
        (fun it => it.layer.id)) := by
  induction layers with
  | nil => exact List.Sublist.refl _
  | cons it rest ih =>
    rw [List.flatMap_cons, List.filterMap_append]
    by_cases hc : it.role ≠ LayerRole.MAIN_ROLE ∧ it.layer.sticky = true
        ∧ it.layer.drawable = true ∧ it.layer.alpha > 0
    · have hkeep : (decide (it.role ≠ LayerRole.MAIN_ROLE) && it.layer.sticky) = true := by
        simp [hc.1, hc.2.1]
      have hf : (it :: rest).filter (fun it =>
            decide (it.role ≠ LayerRole.MAIN_ROLE) && it.layer.sticky)
          = it :: rest.filter (fun it =>
            decide (it.role ≠ LayerRole.MAIN_ROLE) && it.layer.sticky) :=
        List.filter_cons_of_pos hkeep
      rw [hf, List.map_cons]
      simp only [stickyPrims, if_pos hc, texturePrims]
      cases hasTexture s it.layer with
      | true => exact List.Sublist.cons₂ _ ih
      | false => exact List.Sublist.cons _ ih
    · simp only [stickyPrims, if_neg hc, List.filterMap_nil, List.nil_append]
      cases hkeep : (decide (it.role ≠ LayerRole.MAIN_ROLE) && it.layer.sticky) with
      | true =>
        have hf : (it :: rest).filter (fun it =>
              decide (it.role ≠ LayerRole.MAIN_ROLE) && it.layer.sticky)
            = it :: rest.filter (fun it =>
              decide (it.role ≠ LayerRole.MAIN_ROLE) && it.layer.sticky) :=
          List.filter_cons_of_pos hkeep
        rw [hf, List.map_cons]
        exact List.Sublist.cons _ ih
      | false =>
        have hf : (it :: rest).filter (fun it =>
              decide (it.role ≠ LayerRole.MAIN_ROLE) && it.layer.sticky)
            = rest.filter (fun it =>
              decide (it.role ≠ LayerRole.MAIN_ROLE) && it.layer.sticky) :=
          List.filter_cons_of_neg (by rw [hkeep]; decide)
        rw [hf]
        exact ih

theorem primary_not_sticky_pass (layers : List LayerEntry) (togo : Int)
    (layer : ImageWrapperBase)
    (hnodup : (layers.map (fun it => it.layer.id)).Nodup)
    (h : GetLayerForNthTile.loop layers togo = some layer) :
    layer.id ∉ (layers.filter (fun it =>
        decide (it.role ≠ LayerRole.MAIN_ROLE) && it.layer.sticky)).map
      (fun it => it.layer.id) := by
  obtain ⟨it0, hmem0, hl, _, hrole⟩ := GetLayerForNthTile.loop_some layers togo layer h
  intro hin
  obtain ⟨e, he, hid⟩ := List.mem_map.mp hin
  obtain ⟨hemem, hcond⟩ := List.mem_filter.mp he
  have heq : e = it0 :=
    List.inj_on_of_nodup_map hnodup hemem hmem0 (by rw [hid, hl])
  subst heq
  simp only [Bool.and_eq_true, decide_eq_true_eq] at hcond
  rcases hrole with h1 | h1
  · exact hcond.1 h1
  · rw [← hl, hcond.2] at h1
    exact absurd h1 (by decide)

/-- C19: in multi-tile mode (thumbnail flag off), for every layer stack in which the
iterator yields each layer once and for every tile, the layers whose textures
`DrawImageLayers` draws are pairwise different: each texture is drawn at most once.
The primary layer of the tile, which is of main role or not sticky, is not among the
layers of the loop over the sticky layers, which are not of main role and sticky, and
is not drawn as a transparent texture. -/
theorem DrawImageLayers_draws_once (self : GenericSliceRenderer)
    (nrows ncols irow icol : Int)
    (hflag : self.m_ThumbnailDrawing = false) (hmulti : ¬ (nrows = 1 ∧ ncols = 1))
    (hnodup : (self.m_Model.imageData.layers.map (fun it => it.layer.id)).Nodup) :
    ∃ ps : List Primitive,
      drawn ((DrawImageLayers nrows ncols irow icol).run self).2 = drawn self ++ ps
        ∧ (ps.filterMap Primitive.textureLayer).Nodup
        ∧ (∀ primary, GetLayerForNthTile self irow icol = some primary →
            (∀ it ∈ self.m_Model.imageData.layers,
              it.role ≠ LayerRole.MAIN_ROLE → it.layer.sticky = true →
                it.layer.id ≠ primary.id)
            ∧ ∀ a, Primitive.TextureTransparent primary.id a ∉ ps) := by
  cases hget : GetLayerForNthTile self irow icol with
  | none =>
    refine ⟨[], ?_, List.nodup_nil, fun primary hp => by cases hp⟩
    rw [DrawImageLayers_tiled_none self nrows ncols irow icol hflag hmulti hget,
      List.append_nil]
  | some layer =>
    have hd := DrawImageLayers_tiled_draws self nrows ncols irow icol layer hflag hmulti hget
    have hnot := primary_not_sticky_pass _ _ layer hnodup hget
    have hsub := stickyIds_sublist self self.m_Model.imageData.layers
    have hnd : ((self.m_Model.imageData.layers.filter (fun it =>
        decide (it.role ≠ LayerRole.MAIN_ROLE) && it.layer.sticky)).map
          (fun it => it.layer.id)).Nodup :=
      List.Nodup.sublist (List.Sublist.map _ (List.filter_sublist _)) hnodup
    refine ⟨_, hd.drawn_eq, ?_, ?_⟩
    · rw [List.filterMap_append]
      have hfirst : ((texturePrims self layer false).filterMap Primitive.textureLayer).Sublist
          [layer.id] := by
        simp only [texturePrims]
        cases hasTexture self layer with
        | true => exact List.Sublist.refl _
        | false => exact List.nil_sublist _
      refine List.Nodup.sublist (List.Sublist.append hfirst hsub) ?_
      rw [List.singleton_append]
      exact List.nodup_cons.mpr ⟨hnot, hnd⟩
    · intro primary hp
      have hpe : layer = primary := by simpa using hp
      subst hpe
      refine ⟨?_, ?_⟩
      · intro it hit hrole hsticky hid
        apply hnot
        rw [← hid]
        exact List.mem_map.mpr ⟨it, List.mem_filter.mpr ⟨hit, by simp [hrole, hsticky]⟩, rfl⟩
      · intro a hin
        rcases List.mem_append.mp hin with h | h
        · obtain ⟨c, hc⟩ := mem_texturePrims_false h
          exact Primitive.noConfusion hc
        · apply hnot
          exact List.Sublist.subset hsub
            (List.mem_filterMap.mpr ⟨_, h, rfl⟩)

/-- C19 at two tiles with a main image, an overlay that is not sticky and a sticky
overlay: the layers `1`, `2`, `4` are yielded once each, and what the tile `(0, 1)`
draws are the textures of the layers `2` and `4`, once each. -/
theorem DrawImageLayers_draws_once_witness :
    Examples.tiledWithSticky.m_ThumbnailDrawing = false
      ∧ (Examples.tiledWithSticky.m_Model.imageData.layers.map
          (fun it => it.layer.id)).Nodup
      ∧ ∃ ps : List Primitive,
        drawn ((DrawImageLayers 1 2 0 1).run Examples.tiledWithSticky).2
            = drawn Examples.tiledWithSticky ++ ps
          ∧ (ps.filterMap Primitive.textureLayer).Nodup
          ∧ (∀ primary, GetLayerForNthTile Examples.tiledWithSticky 0 1 = some primary →
              (∀ it ∈ Examples.tiledWithSticky.m_Model.imageData.layers,
                it.role ≠ LayerRole.MAIN_ROLE → it.layer.sticky = true →
                  it.layer.id ≠ primary.id)
              ∧ ∀ a, Primitive.TextureTransparent primary.id a ∉ ps) :=
  ⟨rfl, by decide,
    DrawImageLayers_draws_once Examples.tiledWithSticky 1 2 0 1 rfl (by decide) (by decide)⟩

end GenericSliceRenderer

/-! ## The metadata table -/

theorem matchesAt_iff (a b : List Char) :
    matchesAt case_insensitive_predicate a b = true
      ↔ b.map Char.toLower <+: a.map Char.toLower := by
  induction a generalizing b with
  | nil =>
    cases b with
    | nil => simp [matchesAt]
    | cons y ys => simp [matchesAt]
  | cons x xs ih =>
    cases b with
    | nil => simp [matchesAt]
    | cons y ys =>
      simp only [matchesAt, Bool.and_eq_true, ih, List.map_cons, List.cons_prefix_cons,
        case_insensitive_predicate, beq_iff_eq]
      constructor
      · rintro ⟨h1, h2⟩
        exact ⟨h1.symm, h2⟩
      · rintro ⟨h1, h2⟩
        exact ⟨h1.symm, h2⟩

theorem case_insensitive_find_iff (a b : CxxString) (hb : b ≠ []) :
    case_insensitive_find a b = true ↔ occursIn b a := by
  unfold case_insensitive_find occursIn
  simp only [bne_iff_ne, ne_eq]
  induction a with
  | nil =>
    simp only [search, List.length_nil, not_true_eq_false, List.map_nil, false_iff]
    intro h
    exact hb (List.map_eq_nil_iff.mp (List.infix_nil.mp h))
  | cons x xs ih =>
    rw [List.map_cons, List.infix_cons_iff, ← List.map_cons, ← matchesAt_iff, ← ih]
    simp only [search, List.length_cons]
    by_cases hm : matchesAt case_insensitive_predicate (x :: xs) b = true
    · simp [hm]
    · simp [hm]

theorem UpdateMetadataIndex_loop_eq (mda : MetaDataAccess) (filter : CxxString)
    (keys acc : List CxxString) :
    ImageInfoModel.UpdateMetadataIndex.loop mda filter keys acc
      = acc ++ keys.filter (fun key =>
          decide (filter = []) || decide (occursIn filter (mda.MapKeyToDICOM key))
            || decide (occursIn filter (mda.GetValueAsString key))) := by
  induction keys generalizing acc with
  | nil => simp [ImageInfoModel.UpdateMetadataIndex.loop]
  | cons key rest ih =>
    have hcond : (decide (filter.length = 0)
          || case_insensitive_find (mda.MapKeyToDICOM key) filter
          || case_insensitive_find (mda.GetValueAsString key) filter)
        = (decide (filter = []) || decide (occursIn filter (mda.MapKeyToDICOM key))
            || decide (occursIn filter (mda.GetValueAsString key))) := by
      by_cases hf : filter = []
      · simp [hf]
      · have h1 := case_insensitive_find_iff (mda.MapKeyToDICOM key) filter hf
        have h2 := case_insensitive_find_iff (mda.GetValueAsString key) filter hf
        have hlen : ¬ filter.length = 0 := fun h => hf (List.length_eq_zero.mp h)
        simp only [hf, hlen, decide_False, Bool.false_or]
        rw [Bool.eq_iff_iff]
        simp only [Bool.or_eq_true, decide_eq_true_eq, h1, h2]
    simp only [ImageInfoModel.UpdateMetadataIndex.loop, hcond, ih, List.filter_cons]
    split <;> simp

/-- C20: after `UpdateMetadataIndex` the key list is, with no layer, empty, and with a
layer, the keys of the layer, in their order, for which the filter is empty or occurs,
case left out of account, in the DICOM name of the key or in its value; whatever the
list held before is gone, and the layer and the filter are as they were.
`GetMetadataRows` returns the length of the list (the number of keys of the layer
fits in an `int`). -/
theorem UpdateMetadataIndex_keys (self : ImageInfoModel)
    (hlen : ∀ mda, self.layer = some mda → mda.GetKeysAsArray.length < 2147483648) :
    (self.layer = none → (ImageInfoModel.UpdateMetadataIndex self).m_MetadataKeys = [])
      ∧ (∀ mda, self.layer = some mda →
          (ImageInfoModel.UpdateMetadataIndex self).m_MetadataKeys
            = mda.GetKeysAsArray.filter (fun key =>
                decide (self.m_MetadataFilterModel = [])
                  || decide (occursIn self.m_MetadataFilterModel (mda.MapKeyToDICOM key))
                  || decide (occursIn self.m_MetadataFilterModel
                      (mda.GetValueAsString key))))
      ∧ ImageInfoModel.GetMetadataRows (ImageInfoModel.UpdateMetadataIndex self)
          = ((ImageInfoModel.UpdateMetadataIndex self).m_MetadataKeys.length : Int)
      ∧ (ImageInfoModel.UpdateMetadataIndex self).layer = self.layer
      ∧ (ImageInfoModel.UpdateMetadataIndex self).m_MetadataFilterModel
          = self.m_MetadataFilterModel := by
  cases hl : self.layer with
  | none =>
    have hk : (ImageInfoModel.UpdateMetadataIndex self).m_MetadataKeys = [] := by
      simp only [ImageInfoModel.UpdateMetadataIndex, hl]
    refine ⟨fun _ => hk, (fun mda h => by cases h), ?_, ?_, ?_⟩
    · rw [ImageInfoModel.GetMetadataRows, hk]
      rfl
    · simp only [ImageInfoModel.UpdateMetadataIndex, hl]
    · simp only [ImageInfoModel.UpdateMetadataIndex, hl]
  | some mda0 =>
    have hk : (ImageInfoModel.UpdateMetadataIndex self).m_MetadataKeys
        = mda0.GetKeysAsArray.filter (fun key =>
            decide (self.m_MetadataFilterModel = [])
              || decide (occursIn self.m_MetadataFilterModel (mda0.MapKeyToDICOM key))
              || decide (occursIn self.m_MetadataFilterModel
                  (mda0.GetValueAsString key))) := by
      simp only [ImageInfoModel.UpdateMetadataIndex, hl, UpdateMetadataIndex_loop_eq,
        List.nil_append]
    refine ⟨(fun h => by cases h), fun mda h => ?_, ?_, ?_, ?_⟩
    · cases h
      exact hk
    · have h1 := List.length_filter_le (fun key =>
          decide (self.m_MetadataFilterModel = [])
            || decide (occursIn self.m_MetadataFilterModel (mda0.MapKeyToDICOM key))
            || decide (occursIn self.m_MetadataFilterModel (mda0.GetValueAsString key)))
        mda0.GetKeysAsArray
      have h2 := hlen mda0 hl
      rw [← hk] at h1
      rw [ImageInfoModel.GetMetadataRows]
      exact toInt32_of_range (by omega) (by omega)
    · simp only [ImageInfoModel.UpdateMetadataIndex, hl]
    · simp only [ImageInfoModel.UpdateMetadataIndex, hl]

/-- C20 at an image with the keys `0010|0010` (Patient Name, value DOE), `0008|0060`
(Modality, value MR) and `origin`: the filter `NAME` keeps the first key, the filter
`mr` the second, and the key list has one row. -/
theorem UpdateMetadataIndex_keys_witness :
    (ImageInfoModel.UpdateMetadataIndex (Examples.infoModel "NAME".toList)).m_MetadataKeys
        = ["0010|0010".toList]
      ∧ (ImageInfoModel.UpdateMetadataIndex (Examples.infoModel "mr".toList)).m_MetadataKeys
        = ["0008|0060".toList]
      ∧ ImageInfoModel.GetMetadataRows
          (ImageInfoModel.UpdateMetadataIndex (Examples.infoModel "NAME".toList)) = 1 := by
  have h1 := UpdateMetadataIndex_keys (Examples.infoModel "NAME".toList)
    (fun mda h => by cases h; decide)
  have h2 := UpdateMetadataIndex_keys (Examples.infoModel "mr".toList)
    (fun mda h => by cases h; decide)
  refine ⟨?_, ?_, ?_⟩
  · rw [h1.2.1 Examples.metadata rfl]
    decide
  · rw [h2.2.1 Examples.metadata rfl]
    decide
  · rw [h1.2.2.1, h1.2.1 Examples.metadata rfl]
    decide

/-! ## The image IO wizard -/

namespace ImageIOWizardModel

variable {σ : Type}

/-- C22: `GuessFileFormat` returns, in `LOAD` mode for a file that does not exist,
`FORMAT_COUNT` with `fileExists` set to `false`; otherwise the format that
`GetFileFormat` reads from the registry associated with the file, when that is not
`FORMAT_COUNT`; otherwise the result of `GuessFormatForFileName`.  In `SAVE` mode
`fileExists` is left as it was, and in `LOAD` mode it is set to the result of
`FileExists`. -/
theorem GuessFileFormat_cases (env : Services σ) (self : ImageIOWizardModel σ)
    (fname : CxxString) (fileExists : Bool) :
    (self.m_Mode = Mode.LOAD → env.FileExists fname true self.heap = false →
        GuessFileFormat env self fname fileExists = (env.FORMAT_COUNT, false))
      ∧ (¬ (self.m_Mode = Mode.LOAD ∧ env.FileExists fname true self.heap = false) →
          env.GetFileFormat
              (env.FindRegistryAssociatedWithFile fname Registry.empty self.heap)
              env.FORMAT_COUNT ≠ env.FORMAT_COUNT →
          (GuessFileFormat env self fname fileExists).1
            = env.GetFileFormat
                (env.FindRegistryAssociatedWithFile fname Registry.empty self.heap)
                env.FORMAT_COUNT)
      ∧ (¬ (self.m_Mode = Mode.LOAD ∧ env.FileExists fname true self.heap = false) →
          env.GetFileFormat
              (env.FindRegistryAssociatedWithFile fname Registry.empty self.heap)
              env.FORMAT_COUNT = env.FORMAT_COUNT →
          (GuessFileFormat env self fname fileExists).1
            = env.GuessFormatForFileName fname (self.m_Mode == Mode.LOAD))
      ∧ (self.m_Mode = Mode.SAVE →
          (GuessFileFormat env self fname fileExists).2 = fileExists)
      ∧ (self.m_Mode = Mode.LOAD →
          (GuessFileFormat env self fname fileExists).2
            = env.FileExists fname true self.heap) := by
  refine ⟨?_, ?_, ?_, ?_, ?_⟩
  · intro hmode hex
    simp [GuessFileFormat, hmode, hex]
  · intro hnot hfmt
    cases hmode : self.m_Mode with
    | LOAD =>
      have hex : env.FileExists fname true self.heap = true := by
        cases h : env.FileExists fname true self.heap with
        | true => rfl
        | false => exact absurd ⟨hmode, h⟩ hnot
      simp [GuessFileFormat, hmode, hex, hfmt]
    | SAVE => simp [GuessFileFormat, hmode, hfmt]
  · intro hnot hfmt
    cases hmode : self.m_Mode with
    | LOAD =>
      have hex : env.FileExists fname true self.heap = true := by
        cases h : env.FileExists fname true self.heap with
        | true => rfl
        | false => exact absurd ⟨hmode, h⟩ hnot
      simp [GuessFileFormat, hmode, hex, hfmt]
    | SAVE => simp [GuessFileFormat, hmode, hfmt]
  · intro hmode
    by_cases hfmt : env.GetFileFormat
        (env.FindRegistryAssociatedWithFile fname Registry.empty self.heap)
        env.FORMAT_COUNT = env.FORMAT_COUNT
    · simp [GuessFileFormat, hmode, hfmt]
    · simp [GuessFileFormat, hmode, hfmt]
  · intro hmode
    by_cases hfmt : env.GetFileFormat
        (env.FindRegistryAssociatedWithFile fname Registry.empty self.heap)
        env.FORMAT_COUNT = env.FORMAT_COUNT
    · cases hex : env.FileExists fname true self.heap <;>
        simp [GuessFileFormat, hmode, hfmt, hex]
    · cases hex : env.FileExists fname true self.heap <;>
        simp [GuessFileFormat, hmode, hfmt, hex]

/-- C22 at three files: in `LOAD` mode the file `missing.nii` has no format and does
not exist; the file `known.img` has the format `0` of its registry; the file
`scan.ge4` has the format `1` guessed from its name; in `SAVE` mode `fileExists` is as
it was, also for `missing.nii`. -/
theorem GuessFileFormat_cases_witness :
    GuessFileFormat Examples.services (Examples.wizard Mode.LOAD) "missing.nii".toList true
        = (2, false)
      ∧ GuessFileFormat Examples.services (Examples.wizard Mode.LOAD) "known.img".toList
          false = (0, true)
      ∧ GuessFileFormat Examples.services (Examples.wizard Mode.LOAD) "scan.ge4".toList
          false = (1, true)
      ∧ GuessFileFormat Examples.services (Examples.wizard Mode.SAVE) "missing.nii".toList
          true = (2, true) := by
  have h1 := GuessFileFormat_cases Examples.services (Examples.wizard Mode.LOAD)
    "missing.nii".toList true
  exact ⟨h1.1 rfl (by decide), by decide, by decide, by decide⟩

theorem handler_run (e : CxxException) (self : ImageIOWizardModel σ) :
    (LoadImage.handler e : Call (ImageIOWizardModel σ) Unit) self
      = (Except.error (LoadImage.rethrown e), self) := by
  cases e <;> rfl

theorem LoadImage_read_fails (env : Services σ) (self : ImageIOWizardModel σ)
    (filename : CxxString) (e : CxxException) (reg1 : Registry) (heap1 : σ)
    (h : env.ReadNativeImageHeader filename self.m_Registry self.heap
      = (some e, (reg1, heap1))) :
    (LoadImage env filename).run self
      = (Except.error (LoadImage.rethrown e),
          { self with
            m_Registry := reg1
            m_Warnings := []
            heap := heap1
            calls := self.calls ++ [Step.ReadNativeImageHeader] }) := by
  simp only [Call.run, LoadImage, Call.tryCatch, LoadImage.body, bind, Call.seq,
    Call.andThen, call, h, handler_run]

theorem LoadImage_validate_fails (env : Services σ) (self : ImageIOWizardModel σ)
    (filename : CxxString) (e : CxxException) (reg1 : Registry) (heap1 heap2 : σ)
    (warnings2 : List CxxString)
    (h1 : env.ReadNativeImageHeader filename self.m_Registry self.heap
      = (none, (reg1, heap1)))
    (h2 : env.ValidateHeader [] heap1 = (some e, (warnings2, heap2))) :
    (LoadImage env filename).run self
      = (Except.error (LoadImage.rethrown e),
          { self with
            m_Registry := reg1
            m_Warnings := warnings2
            heap := heap2
            calls := self.calls ++ [Step.ReadNativeImageHeader, Step.ValidateHeader] }) := by
  simp only [Call.run, LoadImage, Call.tryCatch, LoadImage.body, bind, Call.seq,
    Call.andThen, call, h1, h2, handler_run, List.append_assoc, List.singleton_append]

/-- C21: when `ReadNativeImageHeader` throws, or returns and `ValidateHeader` throws,
`LoadImage` throws: an `IRISException` as it is, another exception derived from
`std::exception` wrapped in an `IRISException` with its `what()`.  The calls made are
`ReadNativeImageHeader` alone, or `ReadNativeImageHeader` and `ValidateHeader`;
`UnloadCurrentImage`, `ReadNativeImageData` and `UpdateApplicationWithImage` are not
called, and whatever neither the reading of the header nor its validation changes,
such as the image that the application shows, is after the call as it was before. -/
theorem LoadImage_header_failure (env : Services σ) (self : ImageIOWizardModel σ)
    (filename : CxxString) (e : CxxException) (reg1 : Registry) (heap1 : σ)
    (hfail : env.ReadNativeImageHeader filename self.m_Registry self.heap
          = (some e, (reg1, heap1))
        ∨ (env.ReadNativeImageHeader filename self.m_Registry self.heap
              = (none, (reg1, heap1))
            ∧ (env.ValidateHeader [] heap1).1 = some e)) :
    ((LoadImage env filename).run self).1 = Except.error (LoadImage.rethrown e)
      ∧ (∀ excIRIS, e = CxxException.IRIS excIRIS →
          LoadImage.rethrown e = CxxException.IRIS excIRIS)
      ∧ (∀ what, e = CxxException.Std what →
          LoadImage.rethrown e = CxxException.IRIS
            ⟨"Error: exception occured during image IO. Exception: %s".toList, [what]⟩)
      ∧ (((LoadImage env filename).run self).2.calls
            = self.calls ++ [Step.ReadNativeImageHeader]
          ∨ ((LoadImage env filename).run self).2.calls
            = self.calls ++ [Step.ReadNativeImageHeader, Step.ValidateHeader])
      ∧ (∀ step ∈ ((LoadImage env filename).run self).2.calls.drop self.calls.length,
          step ≠ Step.UnloadCurrentImage ∧ step ≠ Step.ReadNativeImageData
            ∧ step ≠ Step.UpdateApplicationWithImage)
      ∧ (∀ (α : Type) (image : σ → α),
          (∀ reg heap, image (env.ReadNativeImageHeader filename reg heap).2.2 = image heap) →
          (∀ warnings heap, image (env.ValidateHeader warnings heap).2.2 = image heap) →
          image ((LoadImage env filename).run self).2.heap = image self.heap) := by
  have hr1 : ∀ excIRIS, e = CxxException.IRIS excIRIS →
      LoadImage.rethrown e = CxxException.IRIS excIRIS := by
    intro excIRIS he
    rw [he]
    rfl
  have hr2 : ∀ what, e = CxxException.Std what →
      LoadImage.rethrown e = CxxException.IRIS
        ⟨"Error: exception occured during image IO. Exception: %s".toList, [what]⟩ := by
    intro what he
    rw [he]
    rfl
  rcases hfail with h | ⟨h1, h2⟩
  · rw [LoadImage_read_fails env self filename e reg1 heap1 h]
    refine ⟨rfl, hr1, hr2, Or.inl rfl, ?_, ?_⟩
    · intro step hstep
      simp only [List.drop_left, List.mem_singleton] at hstep
      subst hstep
      exact ⟨by decide, by decide, by decide⟩
    · intro α image hread _
      have := hread self.m_Registry self.heap
      rw [h] at this
      exact this
  · rw [LoadImage_validate_fails env self filename e reg1 heap1 (env.ValidateHeader [] heap1).2.2
      (env.ValidateHeader [] heap1).2.1 h1 (by rw [← h2])]
    refine ⟨rfl, hr1, hr2, Or.inr rfl, ?_, ?_⟩
    · intro step hstep
      simp only [List.drop_left, List.mem_cons, List.mem_singleton, List.not_mem_nil,
        or_false] at hstep
      rcases hstep with hs | hs <;> subst hs <;> exact ⟨by decide, by decide, by decide⟩
    · intro α image hread hvalidate
      have h3 := hread self.m_Registry self.heap
      rw [h1] at h3
      have h4 := hvalidate [] heap1
      exact h4.trans h3

/-- C21 at the file `missing.nii`, whose header cannot be read, and at the file
`bad.nii`, whose header is not valid, while the application shows `first.nii`: the
call throws an `IRISException`, the wrapped one and the one of the delegate, and the
application still shows `first.nii`.  The file `brain.nii` is loaded with all seven
calls and shown. -/
theorem LoadImage_header_failure_witness :
    (LoadImage Examples.services "missing.nii".toList).run (Examples.wizard Mode.LOAD)
        = (Except.error (CxxException.IRIS
              ⟨"Error: exception occured during image IO. Exception: %s".toList,
                ["file not found".toList]⟩),
            { Examples.wizard Mode.LOAD with
              m_Warnings := []
              calls := [Step.ReadNativeImageHeader] })
      ∧ ((LoadImage Examples.services "bad.nii".toList).run (Examples.wizard Mode.LOAD)).1
        = Except.error (CxxException.IRIS ⟨"wrong size".toList, []⟩)
      ∧ ((LoadImage Examples.services "bad.nii".toList).run
          (Examples.wizard Mode.LOAD)).2.calls
        = [Step.ReadNativeImageHeader, Step.ValidateHeader]
      ∧ ((LoadImage Examples.services "bad.nii".toList).run
          (Examples.wizard Mode.LOAD)).2.heap.current = some "first.nii".toList
      ∧ ((LoadImage Examples.services "brain.nii".toList).run (Examples.wizard Mode.LOAD)).1
        = Except.ok ()
      ∧ ((LoadImage Examples.services "brain.nii".toList).run
          (Examples.wizard Mode.LOAD)).2.heap.current = some "brain.nii".toList := by
  have h := LoadImage_header_failure Examples.services (Examples.wizard Mode.LOAD)
    "bad.nii".toList (CxxException.IRIS ⟨"wrong size".toList, []⟩) Registry.empty
    ⟨some "first.nii".toList, some "bad.nii".toList⟩ (Or.inr ⟨by decide, by decide⟩)
  refine ⟨rfl, h.1, by decide, ?_, rfl, by decide⟩
  exact h.2.2.2.2.2 (Option CxxString) Examples.Desk.current
    (fun reg heap => by simp only [Examples.services]; split <;> rfl)
    (fun warnings heap => by simp only [Examples.services]; split <;> rfl)

end ImageIOWizardModel

/-! ## The file filter of the wizard -/

theorem findFrom_of_not_mem (c : Char) (l : List Char) (i : Nat) (h : c ∉ l) :
    CxxString.findFrom l c i = npos := by
  induction l generalizing i with
  | nil => rfl
  | cons x xs ih =>
    have hx : ¬ x = c := fun hxc => h (hxc ▸ List.mem_cons_self _ _)
    simp only [CxxString.findFrom, hx, if_false]
    exact ih (i + 1) (fun hm => h (List.mem_cons_of_mem _ hm))

theorem findFrom_append (c : Char) (l1 l2 : List Char) (i : Nat) (h : c ∉ l1) :
    CxxString.findFrom (l1 ++ c :: l2) c i = i + l1.length := by
  induction l1 generalizing i with
  | nil => simp [CxxString.findFrom]
  | cons x xs ih =>
    have hx : ¬ x = c := fun hxc => h (hxc ▸ List.mem_cons_self _ _)
    have h1 := ih (i + 1) (fun hm => h (List.mem_cons_of_mem _ hm))
    rw [List.cons_append, CxxString.findFrom, if_neg hx, h1, List.length_cons]
    omega

theorem substr_of_drop (pattern ext tail : List Char) (pos n : Nat)
    (hdrop : pattern.drop pos = ext ++ tail)
    (hn : min n (pattern.length - pos) = ext.length) :
    CxxString.substr pattern pos n = ext := by
  rw [CxxString.substr, hn, hdrop, List.take_left]

namespace ImageIOWizardModel

theorem scan_joined (extEntry sep pattern : CxxString) (entry : CxxString → CxxString)
    (hlen : pattern.length < npos) :
    ∀ (rest : List CxxString) (ext : CxxString) (fuel pos : Nat) (acc : CxxString),
      (∀ x ∈ ext :: rest, x ≠ [] ∧ ',' ∉ x ∧ sprintf extEntry [x] = some (entry x)) →
      pattern.drop pos = joinWith [','] (ext :: rest) →
      pattern.length - pos < fuel →
      GetFilter.scan extEntry sep pattern fuel pos acc
        = Except.ok ((if pos ≠ 0 then acc ++ sep else acc)
            ++ joinWith sep ((ext :: rest).map entry)) := by
  intro rest
  induction rest with
  | nil =>
    intro ext fuel pos acc hx hdrop hfuel
    obtain ⟨hne, hcomma, hentry⟩ := hx ext (List.mem_cons_self _ _)
    have hdrop1 : pattern.drop pos = ext := hdrop
    have hdl : (pattern.drop pos).length = pattern.length - pos := List.length_drop _ _
    have hextlen : 0 < ext.length := List.length_pos.mpr hne
    have hpos : pos < pattern.length := by
      rw [hdrop1] at hdl
      omega
    obtain ⟨f, rfl⟩ : ∃ f, fuel = f + 1 := ⟨fuel - 1, by omega⟩
    obtain ⟨f2, rfl⟩ : ∃ f2, f = f2 + 1 := ⟨f - 1, by omega⟩
    have hfind : CxxString.find pattern ',' pos = npos := by
      rw [CxxString.find, hdrop1]
      exact findFrom_of_not_mem _ _ _ hcomma
    have hsub : CxxString.substr pattern pos (npos - pos) = ext := by
      apply substr_of_drop pattern ext [] pos
      · rw [hdrop1, List.append_nil]
      · rw [hdrop1] at hdl
        omega
    rw [GetFilter.scan]
    simp only [hpos, if_true, hfind, hsub, hentry]
    rw [GetFilter.scan]
    have hnot : ¬ npos < pattern.length := by omega
    simp only [hnot, if_false]
    rfl
  | cons y ys ih =>
    intro ext fuel pos acc hx hdrop hfuel
    obtain ⟨hne, hcomma, hentry⟩ := hx ext (List.mem_cons_self _ _)
    have hdrop1 : pattern.drop pos = ext ++ ',' :: joinWith [','] (y :: ys) := by
      rw [hdrop]
      simp [joinWith]
    have hdl : (pattern.drop pos).length = pattern.length - pos := List.length_drop _ _
    rw [hdrop1, List.length_append, List.length_cons] at hdl
    have hpos : pos < pattern.length := by omega
    obtain ⟨f, rfl⟩ : ∃ f, fuel = f + 1 := ⟨fuel - 1, by omega⟩
    have hfind : CxxString.find pattern ',' pos = pos + ext.length := by
      rw [CxxString.find, hdrop1]
      exact findFrom_append _ _ _ _ hcomma
    have hsub : CxxString.substr pattern pos (pos + ext.length - pos) = ext := by
      apply substr_of_drop pattern ext _ pos _ hdrop1
      omega
    have hnpos : ¬ pos + ext.length = npos := by omega
    have hdrop2 : pattern.drop (pos + ext.length + 1) = joinWith [','] (y :: ys) := by
      have h1 : pattern.drop (pos + ext.length + 1)
          = (pattern.drop pos).drop (ext.length + 1) := by
        rw [List.drop_drop]
        congr 1
      rw [h1, hdrop1, List.drop_append_eq_append_drop]
      simp
    rw [GetFilter.scan]
    simp only [hpos, if_true, hfind, hsub, hentry, hnpos, if_false]
    rw [ih y f (pos + ext.length + 1) _ (fun x hxm => hx x (List.mem_cons_of_mem _ hxm)) hdrop2
      (by omega)]
    have hp1 : pos + ext.length + 1 ≠ 0 := by omega
    simp only [hp1, ne_eq, not_false_eq_true, if_true, List.map_cons, joinWith,
      List.append_assoc]

end ImageIOWizardModel

theorem findFrom_ge (c : Char) (l : List Char) (i : Nat) :
    CxxString.findFrom l c i = npos ∨ i ≤ CxxString.findFrom l c i := by
  induction l generalizing i with
  | nil => exact Or.inl rfl
  | cons x xs ih =>
    rw [CxxString.findFrom]
    split
    · exact Or.inr (Nat.le_refl _)
    · rcases ih (i + 1) with h | h
      · exact Or.inl h
      · exact Or.inr (by omega)

theorem joinWith_append (sep : CxxString) (A B : List CxxString) (hA : A ≠ []) (hB : B ≠ []) :
    joinWith sep (A ++ B) = joinWith sep A ++ sep ++ joinWith sep B := by
  induction A with
  | nil => exact absurd rfl hA
  | cons x xs ih =>
    cases xs with
    | nil =>
      cases B with
      | nil => exact absurd rfl hB
      | cons y ys => rfl
    | cons z zs =>
      have h := ih (List.cons_ne_nil _ _)
      simp only [List.cons_append, joinWith, List.append_assoc] at h ⊢
      exact congrArg (fun t => x ++ (sep ++ t)) h

theorem joinWith_ne_nil (sep : CxxString) (L : List CxxString) (hL : L ≠ [])
    (hne : ∀ x ∈ L, x ≠ []) : joinWith sep L ≠ [] := by
  cases L with
  | nil => exact absurd rfl hL
  | cons x xs =>
    have hx := hne x (List.mem_cons_self _ _)
    cases xs with
    | nil => exact hx
    | cons y ys =>
      simp only [joinWith, List.append_assoc]
      intro h
      exact hx (List.append_eq_nil.mp h).1

theorem joinWith_flatMap (sep : CxxString) (exts : Nat → List CxxString)
    (entry : CxxString → CxxString) (hs : List Nat) (hne : ∀ i ∈ hs, exts i ≠ []) :
    joinWith sep (hs.map (fun i => joinWith sep ((exts i).map entry)))
      = joinWith sep ((hs.flatMap exts).map entry) := by
  induction hs with
  | nil => rfl
  | cons i rest ih =>
    have hi := hne i (List.mem_cons_self _ _)
    have ih1 := ih (fun j hj => hne j (List.mem_cons_of_mem _ hj))
    cases rest with
    | nil => simp [joinWith]
    | cons j rest2 =>
      have hA : (exts i).map entry ≠ [] := by simpa using hi
      have hB : (((j :: rest2).flatMap exts).map entry) ≠ [] := by
        have hj := hne j (List.mem_cons_of_mem _ (List.mem_cons_self _ _))
        simp only [List.flatMap_cons, List.map_append, ne_eq, List.append_eq_nil,
          List.map_eq_nil_iff, not_and]
        intro h
        exact absurd h hj
      rw [List.flatMap_cons, List.map_append, joinWith_append sep _ _ hA hB, ← ih1]
      simp only [List.map_cons, joinWith]

namespace ImageIOWizardModel

variable {σ : Type}

theorem scan_fuel (extEntry sep pattern : CxxString) (hlen : pattern.length < npos) :
    ∀ (fuel pos : Nat) (acc : CxxString), pattern.length - pos < fuel →
      GetFilter.scan extEntry sep pattern fuel pos acc
        ≠ Except.error GetFilterError.OutOfFuel := by
  intro fuel
  induction fuel with
  | zero => intro pos acc h; omega
  | succ f ih =>
    intro pos acc h
    rw [GetFilter.scan]
    split
    · rename_i hpos
      dsimp only
      split
      · exact fun h => by cases h
      · have hge := findFrom_ge ',' (pattern.drop pos) pos
        apply ih
        rw [CxxString.find]
        split
        · omega
        · rcases hge with hge | hge
          · rename_i hn
            exact absurd hge hn
          · omega
    · exact fun h => by cases h

theorem joinWith_snoc (sep : CxxString) (L : List CxxString) (x : CxxString)
    (hne : ∀ y ∈ L, y ≠ []) :
    (if (joinWith sep L).length ≠ 0 then joinWith sep L ++ sep else joinWith sep L) ++ x
      = joinWith sep (L ++ [x]) := by
  cases L with
  | nil => rfl
  | cons y ys =>
    have h1 : joinWith sep (y :: ys) ≠ [] := joinWith_ne_nil sep _ (List.cons_ne_nil _ _) hne
    have h2 : (joinWith sep (y :: ys)).length ≠ 0 := fun h => h1 (List.length_eq_zero.mp h)
    rw [if_pos h2, joinWith_append sep _ _ (List.cons_ne_nil _ _) (List.cons_ne_nil _ _)]
    rfl

theorem row_handled (env : Services σ) (self : ImageIOWizardModel σ)
    (lineEntry extEntry extSeparator rowSeparator : CxxString)
    (exts : Nat → List CxxString) (entry : CxxString → CxxString) (row : Nat → CxxString)
    (i : Nat) (done : List Nat) (ossMain : CxxString)
    (hcan : CanHandleFileFormat env self i = true)
    (hexts : exts i ≠ [])
    (hext : ∀ ext ∈ exts i, ext ≠ [] ∧ ',' ∉ ext ∧ sprintf extEntry [ext] = some (entry ext))
    (hpat : (env.GetFileFormatDescriptor i).pattern = joinWith [','] (exts i))
    (hlen : (env.GetFileFormatDescriptor i).pattern.length < npos)
    (hrow : sprintf lineEntry [(env.GetFileFormatDescriptor i).name,
        joinWith extSeparator ((exts i).map entry)] = some (row i))
    (hdone : ∀ j ∈ done, joinWith extSeparator ((exts j).map entry) ≠ []) :
    GetFilter.row env self lineEntry extEntry extSeparator rowSeparator i
        (ossMain, joinWith extSeparator
          (done.map (fun j => joinWith extSeparator ((exts j).map entry))))
      = Except.ok (ossMain ++ row i ++ rowSeparator,
          joinWith extSeparator
            ((done ++ [i]).map (fun j => joinWith extSeparator ((exts j).map entry)))) := by
  obtain ⟨ext, rest, he⟩ : ∃ ext rest, exts i = ext :: rest := by
    cases h : exts i with
    | nil => exact absurd h hexts
    | cons a b => exact ⟨a, b, rfl⟩
  have hscan := scan_joined extEntry extSeparator (env.GetFileFormatDescriptor i).pattern entry
    hlen rest ext ((env.GetFileFormatDescriptor i).pattern.length + 1) 0 []
    (fun x hx => hext x (he ▸ hx)) (by rw [List.drop_zero, hpat, he]) (by omega)
  simp only [ne_eq, not_true_eq_false, if_false, List.nil_append] at hscan
  rw [← he] at hscan
  have hall := joinWith_snoc extSeparator
    (done.map (fun j => joinWith extSeparator ((exts j).map entry)))
    (joinWith extSeparator ((exts i).map entry))
    (by
      intro y hy
      obtain ⟨j, hj, rfl⟩ := List.mem_map.mp hy
      exact hdone j hj)
  simp only [GetFilter.row, hcan, if_true, hscan, hrow, hall, List.map_append, List.map_cons,
    List.map_nil]

theorem rows_joined (env : Services σ) (self : ImageIOWizardModel σ)
    (lineEntry extEntry extSeparator rowSeparator : CxxString)
    (exts : Nat → List CxxString) (entry : CxxString → CxxString) (row : Nat → CxxString) :
    ∀ (l done : List Nat) (ossMain : CxxString),
      (∀ i ∈ l, CanHandleFileFormat env self i = true →
        exts i ≠ []
          ∧ (∀ ext ∈ exts i, ext ≠ [] ∧ ',' ∉ ext
              ∧ sprintf extEntry [ext] = some (entry ext) ∧ entry ext ≠ [])
          ∧ (env.GetFileFormatDescriptor i).pattern = joinWith [','] (exts i)
          ∧ (env.GetFileFormatDescriptor i).pattern.length < npos
          ∧ sprintf lineEntry [(env.GetFileFormatDescriptor i).name,
              joinWith extSeparator ((exts i).map entry)] = some (row i)) →
      (∀ j ∈ done, joinWith extSeparator ((exts j).map entry) ≠ []) →
      GetFilter.rows env self lineEntry extEntry extSeparator rowSeparator l
          (ossMain, joinWith extSeparator
            (done.map (fun j => joinWith extSeparator ((exts j).map entry))))
        = Except.ok
            (ossMain ++ (l.filter (fun i => CanHandleFileFormat env self i)).flatMap
                (fun i => row i ++ rowSeparator),
              joinWith extSeparator
                ((done ++ l.filter (fun i => CanHandleFileFormat env self i)).map
                  (fun j => joinWith extSeparator ((exts j).map entry)))) := by
  intro l
  induction l with
  | nil =>
    intro done ossMain _ _
    simp [GetFilter.rows]
  | cons i rest ih =>
    intro done ossMain hC hdone
    have hrest : ∀ k ∈ rest, CanHandleFileFormat env self k = true → _ :=
      fun k hk => hC k (List.mem_cons_of_mem _ hk)
    rw [GetFilter.rows]
    cases hcan : CanHandleFileFormat env self i with
    | true =>
      obtain ⟨hexts, hext, hpat, hlen, hrow⟩ := hC i (List.mem_cons_self _ _) hcan
      have hline : joinWith extSeparator ((exts i).map entry) ≠ [] := by
        apply joinWith_ne_nil
        · simpa using hexts
        · intro y hy
          obtain ⟨x, hx, rfl⟩ := List.mem_map.mp hy
          exact (hext x hx).2.2.2
      rw [row_handled env self lineEntry extEntry extSeparator rowSeparator exts entry row i
        done ossMain hcan hexts (fun x hx => ⟨(hext x hx).1, (hext x hx).2.1, (hext x hx).2.2.1⟩)
        hpat hlen hrow hdone]
      have hf : (i :: rest).filter (fun i => CanHandleFileFormat env self i)
          = i :: rest.filter (fun i => CanHandleFileFormat env self i) :=
        List.filter_cons_of_pos hcan
      have hdone2 : ∀ j ∈ done ++ [i], joinWith extSeparator ((exts j).map entry) ≠ [] := by
        intro j hj
        rcases List.mem_append.mp hj with h | h
        · exact hdone j h
        · rw [List.mem_singleton.mp h]
          exact hline
      simp only []
      rw [ih (done ++ [i]) _ hrest hdone2, hf, List.flatMap_cons]
      simp only [List.append_assoc, List.singleton_append]
    | false =>
      have hrow : GetFilter.row env self lineEntry extEntry extSeparator rowSeparator i
          (ossMain, joinWith extSeparator
            (done.map (fun j => joinWith extSeparator ((exts j).map entry))))
          = Except.ok (ossMain, joinWith extSeparator
            (done.map (fun j => joinWith extSeparator ((exts j).map entry)))) := by
        simp [GetFilter.row, hcan]
      have hf : (i :: rest).filter (fun i => CanHandleFileFormat env self i)
          = rest.filter (fun i => CanHandleFileFormat env self i) :=
        List.filter_cons_of_neg (by rw [hcan]; decide)
      rw [hrow]
      simp only []
      rw [ih done ossMain hrest hdone, hf]

theorem rows_fuel (env : Services σ) (self : ImageIOWizardModel σ)
    (lineEntry extEntry extSeparator rowSeparator : CxxString) :
    ∀ (l : List Nat) (oss : CxxString × CxxString),
      (∀ i ∈ l, (env.GetFileFormatDescriptor i).pattern.length < npos) →
      GetFilter.rows env self lineEntry extEntry extSeparator rowSeparator l oss
        ≠ Except.error GetFilterError.OutOfFuel := by
  intro l
  induction l with
  | nil => intro oss _ h; cases h
  | cons i rest ih =>
    intro oss hlen
    have hrow : GetFilter.row env self lineEntry extEntry extSeparator rowSeparator i oss
        ≠ Except.error GetFilterError.OutOfFuel := by
      unfold GetFilter.row
      dsimp only
      split
      · have hs := scan_fuel extEntry extSeparator (env.GetFileFormatDescriptor i).pattern
          (hlen i (List.mem_cons_self _ _))
          ((env.GetFileFormatDescriptor i).pattern.length + 1) 0 [] (by omega)
        split
        · rename_i e he
          intro h
          cases h
          exact hs he
        · split
          · exact fun h => by cases h
          · exact fun h => by cases h
      · exact fun h => by cases h
    rw [GetFilter.rows]
    split
    · rename_i e he
      intro h
      apply hrow
      rw [he]
      exact h
    · exact ih _ (fun k hk => hlen k (List.mem_cons_of_mem _ hk))

theorem GetFilter_fuel (env : Services σ) (self : ImageIOWizardModel σ)
    (lineEntry extEntry extSeparator rowSeparator : CxxString)
    (hlen : ∀ i < env.FORMAT_COUNT, (env.GetFileFormatDescriptor i).pattern.length < npos) :
    GetFilter env self lineEntry extEntry extSeparator rowSeparator
      ≠ Except.error GetFilterError.OutOfFuel := by
  have hrows := rows_fuel env self lineEntry extEntry extSeparator rowSeparator
    (List.range env.FORMAT_COUNT) ([], []) (fun i hi => hlen i (List.mem_range.mp hi))
  unfold GetFilter
  split
  · rename_i e he
    intro h
    cases h
    exact hrows he
  · dsimp only
    split
    · exact fun h => by cases h
    · split
      · exact fun h => by cases h
      · exact fun h => by cases h

theorem GetFilter_overflow (env : Services σ) (self : ImageIOWizardModel σ)
    (lineEntry extSeparator rowSeparator ext : CxxString)
    (hcount : env.FORMAT_COUNT = 1)
    (hcan : CanHandleFileFormat env self 0 = true)
    (hpat : (env.GetFileFormatDescriptor 0).pattern = ext)
    (hcomma : ',' ∉ ext) (hlen : 1022 ≤ ext.length) :
    GetFilter env self lineEntry "*.%s".toList extSeparator rowSeparator
      = Except.error GetFilterError.UndefinedBehaviour := by
  have hfind : CxxString.find ext ',' 0 = npos := by
    rw [CxxString.find, List.drop_zero]
    exact findFrom_of_not_mem _ _ _ hcomma
  have hsub : 1022 ≤ (CxxString.substr ext 0 (npos - 0)).length := by
    have hn : 1022 ≤ npos := by decide
    rw [CxxString.substr, List.drop_zero, Nat.sub_zero, Nat.sub_zero, List.length_take]
    omega
  have hfmt : sprintf "*.%s".toList [CxxString.substr ext 0 (npos - 0)] = none := by
    have h1 : format "*.%s".toList [CxxString.substr ext 0 (npos - 0)]
        = some ('*' :: '.' :: (CxxString.substr ext 0 (npos - 0) ++ [])) := by
      simp [format]
    have h2 : ¬ ('*' :: '.' :: (CxxString.substr ext 0 (npos - 0) ++ [])).length < 1024 := by
      simp only [List.length_cons, List.append_nil]
      omega
    rw [sprintf, h1]
    simp only [h2, if_false]
  have hpos : 0 < ext.length := by omega
  have hscan : GetFilter.scan "*.%s".toList extSeparator ext (ext.length + 1) 0 []
      = Except.error GetFilterError.UndefinedBehaviour := by
    rw [GetFilter.scan]
    simp only [hpos, if_true, hfind, hfmt]
  have hrow : GetFilter.row env self lineEntry "*.%s".toList extSeparator rowSeparator 0
      ([], []) = Except.error GetFilterError.UndefinedBehaviour := by
    unfold GetFilter.row
    simp only [hcan, if_true, hpat, hscan]
  unfold GetFilter
  have hrange : List.range env.FORMAT_COUNT = [0] := by rw [hcount]; rfl
  rw [hrange, GetFilter.rows, hrow]

/-- C23, a set of descriptors that refutes it: one format whose pattern is a single
extension of `1100` characters, without a comma.  With the row format `%s (%s)` and
the extension format `*.%s` the first `sprintf` writes beyond `char buffer[1024]`, and
`GetFilter` has no defined result. -/
theorem GetFilter_counterexample :
    Examples.longExtension.FORMAT_COUNT = 1
      ∧ (Examples.longExtension.GetFileFormatDescriptor 0).pattern
          = List.replicate 1100 'x'
      ∧ (',' ∉ (Examples.longExtension.GetFileFormatDescriptor 0).pattern)
      ∧ GetFilter Examples.longExtension (Examples.wizard Mode.LOAD) "%s (%s)".toList
          "*.%s".toList " ".toList ";;".toList
        = Except.error GetFilterError.UndefinedBehaviour := by
  have hcomma : ',' ∉ List.replicate 1100 'x' :=
    fun h => absurd (List.eq_of_mem_replicate h) (by decide)
  exact ⟨rfl, rfl, hcomma,
    GetFilter_overflow Examples.longExtension (Examples.wizard Mode.LOAD) _ _ _
      (List.replicate 1100 'x') rfl rfl rfl hcomma
      (by rw [List.length_replicate]; decide)⟩

/-- C23, amended: let the pattern of every format handled in the current mode be the
list `exts i` of its extensions joined by commas, a list that is not empty, of
extensions that are not empty and hold no comma, and let every `sprintf` of the call
have a defined result that fits into the buffer of `1024` characters: `entry ext` for an
extension (not empty), `row i` for the row of a format, `allRow` for the row of all
image files and `allFiles` for the row of all files.  Then `GetFilter` returns, in
the order of the formats, the row of each format handled in the current mode, made
from its name and its extensions joined by `extSeparator` and followed by
`rowSeparator`, then the row `All 3D Image Files` with the extensions of all these
formats joined by `extSeparator`, followed by `rowSeparator`, then the row `All Files`
with `*`.  The formats handled are all formats in `LOAD` mode and the formats that can
be written in `SAVE` mode.  For patterns of any shape the loop over a pattern comes to
its end. -/
theorem GetFilter_rows (env : Services σ) (self : ImageIOWizardModel σ)
    (lineEntry extEntry extSeparator rowSeparator : CxxString)
    (exts : Nat → List CxxString) (entry : CxxString → CxxString) (row : Nat → CxxString)
    (allRow allFiles : CxxString)
    (hformats : ∀ i < env.FORMAT_COUNT, CanHandleFileFormat env self i = true →
      exts i ≠ []
        ∧ (∀ ext ∈ exts i, ext ≠ [] ∧ ',' ∉ ext
            ∧ sprintf extEntry [ext] = some (entry ext) ∧ entry ext ≠ [])
        ∧ (env.GetFileFormatDescriptor i).pattern = joinWith [','] (exts i)
        ∧ (env.GetFileFormatDescriptor i).pattern.length < npos
        ∧ sprintf lineEntry [(env.GetFileFormatDescriptor i).name,
            joinWith extSeparator ((exts i).map entry)] = some (row i))
    (hall : sprintf lineEntry ["All 3D Image Files".toList,
        joinWith extSeparator
          ((((List.range env.FORMAT_COUNT).filter
              (fun i => CanHandleFileFormat env self i)).flatMap exts).map entry)]
      = some allRow)
    (hfiles : sprintf lineEntry ["All Files".toList, "*".toList] = some allFiles) :
    GetFilter env self lineEntry extEntry extSeparator rowSeparator
        = Except.ok
            (((List.range env.FORMAT_COUNT).filter
                (fun i => CanHandleFileFormat env self i)).flatMap
                (fun i => row i ++ rowSeparator)
              ++ allRow ++ rowSeparator ++ allFiles)
      ∧ (self.m_Mode = Mode.LOAD →
          (List.range env.FORMAT_COUNT).filter (fun i => CanHandleFileFormat env self i)
            = List.range env.FORMAT_COUNT)
      ∧ (self.m_Mode = Mode.SAVE →
          (List.range env.FORMAT_COUNT).filter (fun i => CanHandleFileFormat env self i)
            = (List.range env.FORMAT_COUNT).filter
                (fun i => (env.GetFileFormatDescriptor i).can_write))
      ∧ (∀ lineEntry2 extEntry2 extSeparator2 rowSeparator2 : CxxString,
          (∀ i < env.FORMAT_COUNT,
            (env.GetFileFormatDescriptor i).pattern.length < npos) →
          GetFilter env self lineEntry2 extEntry2 extSeparator2 rowSeparator2
            ≠ Except.error GetFilterError.OutOfFuel) := by
  refine ⟨?_, ?_, ?_, fun l2 e2 s2 r2 h => GetFilter_fuel env self l2 e2 s2 r2 h⟩
  · have hrows := rows_joined env self lineEntry extEntry extSeparator rowSeparator exts entry
      row (List.range env.FORMAT_COUNT) [] []
      (fun i hi hcan => hformats i (List.mem_range.mp hi) hcan)
      (fun j hj => absurd hj (List.not_mem_nil j))
    have hne : ∀ i ∈ (List.range env.FORMAT_COUNT).filter
        (fun i => CanHandleFileFormat env self i), exts i ≠ [] := by
      intro i hi
      obtain ⟨h1, h2⟩ := List.mem_filter.mp hi
      exact (hformats i (List.mem_range.mp h1) h2).1
    rw [List.map_nil, List.nil_append, List.nil_append,
      joinWith_flatMap extSeparator exts entry _ hne] at hrows
    have hnil : joinWith extSeparator [] = [] := rfl
    rw [hnil] at hrows
    unfold GetFilter
    rw [hrows]
    simp only [hall, hfiles, List.append_assoc]
  · intro hmode
    apply List.filter_eq_self.mpr
    intro i _
    simp [CanHandleFileFormat, hmode]
  · intro hmode
    apply List.filter_congr
    intro i _
    simp [CanHandleFileFormat, hmode]

/-- C23, amended, at the formats `NiFTI` (extensions `nii`, `nii.gz`, can be written)
and `GE Version 4` (extension `ge4`, cannot be written) with the row format `%s (%s)`,
the extension format `*.%s` and the separators of a file dialog: in `LOAD` mode both
formats have a row, in `SAVE` mode only the first. -/
theorem GetFilter_rows_witness :
    GetFilter Examples.services (Examples.wizard Mode.LOAD) "%s (%s)".toList "*.%s".toList
        " ".toList ";;".toList
      = Except.ok ("NiFTI (*.nii *.nii.gz);;GE Version 4 (*.ge4);;".toList
          ++ "All 3D Image Files (*.nii *.nii.gz *.ge4);;All Files (*)".toList)
      ∧ GetFilter Examples.services (Examples.wizard Mode.SAVE) "%s (%s)".toList
          "*.%s".toList " ".toList ";;".toList
        = Except.ok ("NiFTI (*.nii *.nii.gz);;".toList
            ++ "All 3D Image Files (*.nii *.nii.gz);;All Files (*)".toList) := by
  have h1 := (GetFilter_rows Examples.services (Examples.wizard Mode.LOAD) "%s (%s)".toList
    "*.%s".toList " ".toList ";;".toList Examples.extensions Examples.starEntry
    Examples.formatRow
    "All 3D Image Files (*.nii *.nii.gz *.ge4)".toList "All Files (*)".toList
    (by
      intro i hi _
      have hi2 : i = 0 ∨ i = 1 :=
        Nat.le_one_iff_eq_zero_or_eq_one.mp (Nat.lt_succ_iff.mp hi)
      rcases hi2 with rfl | rfl
      · exact ⟨by decide, by decide, by decide, by decide, by decide⟩
      · exact ⟨by decide, by decide, by decide, by decide, by decide⟩)
    (by decide) (by decide)).1
  have h2 := (GetFilter_rows Examples.services (Examples.wizard Mode.SAVE) "%s (%s)".toList
    "*.%s".toList " ".toList ";;".toList Examples.extensions Examples.starEntry
    Examples.formatRow
    "All 3D Image Files (*.nii *.nii.gz)".toList "All Files (*)".toList
    (by
      intro i hi hcan
      have hi2 : i = 0 ∨ i = 1 :=
        Nat.le_one_iff_eq_zero_or_eq_one.mp (Nat.lt_succ_iff.mp hi)
      rcases hi2 with rfl | rfl
      · exact ⟨by decide, by decide, by decide, by decide, by decide⟩
      · exact absurd hcan (by decide))
    (by decide) (by decide)).1
  exact ⟨h1.trans (by rfl), h2.trans (by rfl)⟩

end ImageIOWizardModel

/-! ## The frame of `paintGL` -/

namespace SameScene

theorem scene_refl (s : GenericSliceRenderer) : SameScene s s :=
  ⟨rfl, rfl, fun _ => rfl, rfl, rfl⟩

theorem scene_trans {s t u : GenericSliceRenderer} (h1 : SameScene s t) (h2 : SameScene t u) :
    SameScene s u :=
  ⟨h2.model.trans h1.model, h2.flag.trans h1.flag,
    fun k => (h2.texture k).trans (h1.texture k), h2.tiled.trans h1.tiled,
    h2.global.trans h1.global⟩

theorem of_draws {s t : GenericSliceRenderer} {ps : List Primitive} (h : Draws s t ps) :
    SameScene s t :=
  ⟨h.model, h.flag, h.texture, h.tiled, h.global⟩

theorem scene_updateGL (f : GLContext → GLContext) (t : GenericSliceRenderer) :
    SameScene t ((Render.updateGL f).run t).2 :=
  ⟨rfl, rfl, fun _ => rfl, rfl, rfl⟩

theorem noFailure {s t : GenericSliceRenderer} (h : SameScene s t) (hs : NoFailure s) :
    NoFailure t := by
  obtain ⟨h1, h2, h3⟩ := hs
  refine ⟨?_, ?_, ?_⟩
  · rw [h.tiled]; exact h1
  · rw [h.global]; exact h2
  · rw [h.model]
    intro hl
    have := h3 hl
    simp only [hasTexture] at this ⊢
    rw [h.texture]
    exact this

theorem texturePrims_scene {s t : GenericSliceRenderer} (h : SameScene s t)
    (layer : ImageWrapperBase) (b : Bool) : texturePrims t layer b = texturePrims s layer b := by
  simp [texturePrims, hasTexture, h.texture, h.flag, h.model]

theorem cellPrims_scene {s t : GenericSliceRenderer} (h : SameScene s t)
    (nrows ncols irow icol : Int) :
    cellPrims t nrows ncols irow icol = cellPrims s nrows ncols irow icol := by
  have h1 : singleTilePrims t = singleTilePrims s := by
    funext it
    simp [singleTilePrims, h.texturePrims_scene]
  have h2 : stickyPrims t = stickyPrims s := by
    funext it
    simp [stickyPrims, h.texturePrims_scene]
  have h3 : segmentationPrims t = segmentationPrims s := by
    simp [segmentationPrims, h.model]
  have h4 : GenericSliceRenderer.GetLayerForNthTile t irow icol
      = GenericSliceRenderer.GetLayerForNthTile s irow icol := by
    simp [GenericSliceRenderer.GetLayerForNthTile, h.model]
  simp only [cellPrims, imageLayerPrims, h1, h2, h3, h4, h.model, h.flag, h.tiled,
    h.texturePrims_scene]

end SameScene

namespace GenericSliceRenderer

theorem DrawImageLayers_thumbnail (t : GenericSliceRenderer) (nrows ncols irow icol : Int)
    (hflag : t.m_ThumbnailDrawing = true) :
    ((DrawImageLayers nrows ncols irow icol).run t).1 = Except.ok true
      ∧ Draws t ((DrawImageLayers nrows ncols irow icol).run t).2
          (texturePrims t t.m_Model.imageData.main false) := by
  simp only [DrawImageLayers, hflag, Render.run_bind, Render.run_read, Render.andThen_ok,
    if_true]
  rw [Render.andThen_of_ok (DrawTextureForLayer_ok _ _ _)]
  exact ⟨rfl, DrawTextureForLayer_draws _ _ _⟩

theorem drawCell_of_layers (s : GenericSliceRenderer) (nrows ncols irow icol : Int)
    (ps : List Primitive)
    (hok : ((DrawImageLayers nrows ncols irow icol).run s).1 = Except.ok true)
    (hd : Draws s ((DrawImageLayers nrows ncols irow icol).run s).2 ps)
    (hno : NoFailure s) :
    ((paintGL.drawCell nrows ncols irow icol).run s).1 = Except.ok ()
      ∧ ∃ T : GenericSliceRenderer,
          Draws s T (ps ++ segmentationPrims s
            ++ (if s.m_Model.overallVisibility then
                  s.m_TiledOverlays.map (fun d => Primitive.Delegate d.id)
                else []))
            ∧ ((paintGL.drawCell nrows ncols irow icol).run s).2 = (glPopMatrix.run T).2 := by
  obtain ⟨hthrow, _, hseg⟩ := hno
  have hseg1 : ((DrawImageLayers nrows ncols irow icol).run s).2.m_Model.imageData.segmentationLoaded
      = true → hasTexture ((DrawImageLayers nrows ncols irow icol).run s).2
        ((DrawImageLayers nrows ncols irow icol).run s).2.m_Model.imageData.segmentation
          = true := by
    rw [hd.model, hd.hasTexture_eq]
    exact hseg
  have hd2 := Draws.draws_trans hd (DrawSegmentationTexture_draws _ hseg1)
  have hok2 := DrawSegmentationTexture_ok _ hseg1
  have hprims : segmentationPrims ((DrawImageLayers nrows ncols irow icol).run s).2
      = segmentationPrims s := by
    simp only [segmentationPrims, hd.model]
  rw [hprims] at hd2
  simp only [paintGL.drawCell, Render.run_bind, Render.run_read, Render.andThen_ok]
  rw [Render.andThen_of_ok hok]
  simp only [if_true, Render.run_bind]
  rw [Render.andThen_of_ok hok2]
  cases hv : s.m_Model.overallVisibility with
  | false =>
    simp only [Bool.false_eq_true, if_false, Render.run_pure, Render.andThen_ok,
      List.append_nil]
    exact ⟨rfl, _, hd2, rfl⟩
  | true =>
    simp only [if_true, Render.run_bind]
    have htiled : (DrawSegmentationTexture.run
        ((DrawImageLayers nrows ncols irow icol).run s).2).2.m_TiledOverlays
          = s.m_TiledOverlays := hd2.tiled
    have hok3 := DrawTiledOverlays_ok _ (by rw [htiled]; exact hthrow)
    have hd3 := DrawTiledOverlays_draws (DrawSegmentationTexture.run
        ((DrawImageLayers nrows ncols irow icol).run s).2).2 (by rw [htiled]; exact hthrow)
    rw [htiled] at hd3
    rw [Render.andThen_of_ok hok3]
    exact ⟨rfl, _, Draws.draws_trans hd2 hd3, rfl⟩

/-- The second part of the loop body of `paintGL` ends normally in a state in which
nothing fails, keeps the scene and draws `cellPrims` under the viewport and the
model-view matrix of the state it starts in. -/
theorem drawCell_frame (t : GenericSliceRenderer) (nrows ncols irow icol : Int)
    (hno : NoFailure t) :
    ((paintGL.drawCell nrows ncols irow icol).run t).1 = Except.ok ()
      ∧ SameScene t ((paintGL.drawCell nrows ncols irow icol).run t).2
      ∧ ((paintGL.drawCell nrows ncols irow icol).run t).2.gl.frame
        = t.gl.frame ++ (cellPrims t nrows ncols irow icol).map
            (fun p => ⟨p, t.gl.viewport, t.gl.modelview⟩) := by
  have hfin : ∀ ps : List Primitive,
      ((DrawImageLayers nrows ncols irow icol).run t).1 = Except.ok true →
      Draws t ((DrawImageLayers nrows ncols irow icol).run t).2 ps →
      imageLayerPrims t nrows ncols irow icol = some ps →
      ((paintGL.drawCell nrows ncols irow icol).run t).1 = Except.ok ()
        ∧ SameScene t ((paintGL.drawCell nrows ncols irow icol).run t).2
        ∧ ((paintGL.drawCell nrows ncols irow icol).run t).2.gl.frame
          = t.gl.frame ++ (cellPrims t nrows ncols irow icol).map
              (fun p => ⟨p, t.gl.viewport, t.gl.modelview⟩) := by
    intro ps hok hd hprims
    obtain ⟨h1, T, hT, h2⟩ := drawCell_of_layers t nrows ncols irow icol ps hok hd hno
    refine ⟨h1, ?_, ?_⟩
    · rw [h2]
      exact (SameScene.of_draws hT).scene_trans (SameScene.scene_updateGL _ T)
    · rw [h2, glPopMatrix_frame, hT.gl]
      simp only [cellPrims, hprims]
  cases hflag : t.m_ThumbnailDrawing with
  | true =>
    obtain ⟨hok, hd⟩ := DrawImageLayers_thumbnail t nrows ncols irow icol hflag
    exact hfin _ hok hd (by simp [imageLayerPrims, hflag])
  | false =>
    by_cases hsingle : nrows = 1 ∧ ncols = 1
    · have hp : imageLayerPrims t nrows ncols irow icol
          = some (t.m_Model.imageData.layers.flatMap (singleTilePrims t)) := by
        simp [imageLayerPrims, hflag, hsingle]
      obtain ⟨h1, h2⟩ := hsingle
      subst h1 h2
      exact hfin _ (DrawImageLayers_single_ok t irow icol hflag)
        (DrawImageLayers_single_draws t irow icol hflag) hp
    · cases hget : GetLayerForNthTile t irow icol with
      | none =>
        have hrun := DrawImageLayers_tiled_none t nrows ncols irow icol hflag hsingle hget
        have hp : cellPrims t nrows ncols irow icol = [] := by
          simp [cellPrims, imageLayerPrims, hflag, hsingle, hget]
        simp only [paintGL.drawCell, Render.run_bind, Render.run_read, Render.andThen_ok, hrun,
          hp, List.map_nil, List.append_nil, Bool.false_eq_true, if_false, Render.run_pure]
        exact ⟨rfl, SameScene.scene_updateGL _ t, glPopMatrix_frame t⟩
      | some layer =>
        exact hfin _ (DrawImageLayers_tiled_ok t nrows ncols irow icol layer hflag hsingle hget)
          (DrawImageLayers_tiled_draws t nrows ncols irow icol layer hflag hsingle hget)
          (by simp [imageLayerPrims, hflag, hsingle, hget])

end GenericSliceRenderer

namespace Render

theorem forEach_frame {γ : Type} (I : GenericSliceRenderer → Prop) (F : γ → List GLEvent)
    (body : γ → Render Unit)
    (hbody : ∀ a t, I t → ((body a).run t).1 = Except.ok () ∧ I ((body a).run t).2
      ∧ ((body a).run t).2.gl.frame = t.gl.frame ++ F a) :
    ∀ (l : List γ) (t : GenericSliceRenderer), I t →
      ((forEach l body).run t).1 = Except.ok () ∧ I ((forEach l body).run t).2
        ∧ ((forEach l body).run t).2.gl.frame = t.gl.frame ++ l.flatMap F := by
  intro l
  induction l with
  | nil =>
    intro t ht
    exact ⟨rfl, ht, by simp [run_forEach_nil]⟩
  | cons a rest ih =>
    intro t ht
    obtain ⟨h1, h2, h3⟩ := hbody a t ht
    obtain ⟨h4, h5, h6⟩ := ih _ h2
    rw [run_forEach_cons, andThen_of_ok h1]
    refine ⟨h4, h5, ?_⟩
    rw [h6, h3, List.flatMap_cons, List.append_assoc]

end Render

theorem tiles_flatMap {δ : Type} (nrows ncols : Int) (G : Int × Int → List δ) :
    (tiles nrows ncols).flatMap G
      = ((List.range nrows.toNat).map Int.ofNat).flatMap (fun irow =>
          ((List.range ncols.toNat).map Int.ofNat).flatMap (fun icol => G (irow, icol))) := by
  unfold tiles
  induction (List.range nrows.toNat).map Int.ofNat with
  | nil => rfl
  | cons r rest ih =>
    rw [List.flatMap_cons, List.flatMap_cons, List.flatMap_append, ih]
    congr 1
    induction (List.range ncols.toNat).map Int.ofNat with
    | nil => rfl
    | cons c rest2 ih2 =>
      rw [List.map_cons, List.flatMap_cons, List.flatMap_cons, ih2]

namespace GenericSliceRenderer

theorem cell_frame (s t : GenericSliceRenderer) (nrows ncols cell_w cell_h irow icol : Int)
    (hno : NoFailure s) (hsc : SameScene s t) :
    ((paintGL.cell nrows ncols cell_w cell_h irow icol).run t).1 = Except.ok ()
      ∧ SameScene s ((paintGL.cell nrows ncols cell_w cell_h irow icol).run t).2
      ∧ ((paintGL.cell nrows ncols cell_w cell_h irow icol).run t).2.gl.frame
        = t.gl.frame ++ (cellPrims s nrows ncols irow icol).map
            (fun p => ⟨p, cellViewport nrows cell_w cell_h irow icol,
              viewTransform s.m_Model cell_w cell_h⟩) := by
  simp only [paintGL.cell, Render.run_bind, setupCell_run, Render.andThen_ok]
  generalize hT : ({ t with gl := { t.gl with
      matrixMode := MatrixMode.GL_MODELVIEW
      modelview := viewTransform t.m_Model cell_w cell_h
      modelviewStack := Affine.identity :: t.gl.modelviewStack
      projection := Affine.ortho2D 0 (cell_w : ℚ) 0 (cell_h : ℚ)
      viewport := cellViewport nrows cell_w cell_h irow icol } } : GenericSliceRenderer) = T
  have hsT : SameScene s T := by
    rw [← hT]
    exact ⟨hsc.model, hsc.flag, hsc.texture, hsc.tiled, hsc.global⟩
  obtain ⟨h1, h2, h3⟩ := drawCell_frame T nrows ncols irow icol (hsT.noFailure hno)
  refine ⟨h1, hsT.scene_trans h2, ?_⟩
  rw [h3, hsT.cellPrims_scene]
  rw [← hT]
  simp only [hsc.model]

/-- The two loops of `paintGL` over the tiles: they end normally, keep the scene and
draw, tile after tile, `cellPrims` under the viewport and the matrix of the tile. -/
theorem cells_frame (s t : GenericSliceRenderer) (nrows ncols cell_w cell_h : Int)
    (hno : NoFailure s) (hsc : SameScene s t) :
    ((Render.forRange nrows (fun irow => Render.forRange ncols (fun icol =>
        paintGL.cell nrows ncols cell_w cell_h irow icol))).run t).1 = Except.ok ()
      ∧ SameScene s ((Render.forRange nrows (fun irow => Render.forRange ncols (fun icol =>
          paintGL.cell nrows ncols cell_w cell_h irow icol))).run t).2
      ∧ ((Render.forRange nrows (fun irow => Render.forRange ncols (fun icol =>
          paintGL.cell nrows ncols cell_w cell_h irow icol))).run t).2.gl.frame
        = t.gl.frame ++ (tiles nrows ncols).flatMap (fun rc =>
            (cellPrims s nrows ncols rc.1 rc.2).map
              (fun p => ⟨p, cellViewport nrows cell_w cell_h rc.1 rc.2,
                viewTransform s.m_Model cell_w cell_h⟩)) := by
  rw [tiles_flatMap]
  exact Render.forEach_frame (SameScene s) _ _
    (fun irow t1 h1 =>
      Render.forEach_frame (SameScene s) _ _
        (fun icol t2 h2 => cell_frame s t2 nrows ncols cell_w cell_h irow icol hno h2)
        _ t1 h1)
    _ t hsc

end GenericSliceRenderer

namespace GenericSliceRenderer

theorem DrawThumbnail_gl (s : GenericSliceRenderer)
    (hvis : s.m_Model.zoomThumbnail.visible = true)
    (hthrow : ∀ d ∈ s.m_TiledOverlays, d.throws = false)
    (hmode : s.gl.matrixMode = MatrixMode.GL_MODELVIEW) :
    (DrawThumbnail.run s).2.m_GlobalOverlays = s.m_GlobalOverlays
      ∧ (DrawThumbnail.run s).2.gl.viewport = s.gl.viewport
      ∧ (DrawThumbnail.run s).2.gl.modelview = s.gl.modelview
      ∧ (DrawThumbnail.run s).2.gl.frame = s.gl.frame
          ++ (thumbnailPrims s).map (fun p => ⟨p, s.gl.viewport,
              (thumbnailTransform s.m_Model).mul
                (Affine.scale s.m_Model.sliceSpacing.1 s.m_Model.sliceSpacing.2)⟩)
          ++ [⟨viewBox s.m_Model, s.gl.viewport,
              (thumbnailTransform s.m_Model).mul
                (Affine.translate s.m_Model.viewPosition.1 s.m_Model.viewPosition.2)⟩] := by
  simp only [DrawThumbnail, hvis, Bool.not_true, Bool.false_eq_true, if_false,
    Render.run_bind, Render.run_read, Render.andThen_ok, Render.run_update,
    glTranslated, glScaled, glScalef, glPushMatrix_run, glLoadIdentity_run, glMultMatrix_run]
  rw [Render.run_eq_of_ok (DrawMainTexture_ok _), Render.andThen_ok, Render.run_bind]
  generalize hT0 : Render.exec
    (glMultMatrix (Affine.scale s.m_Model.sliceSpacing.1 s.m_Model.sliceSpacing.2)) _ = T0
  have hT0gl : T0 = { s with
      m_ThumbnailDrawing := true
      gl := { s.gl with
        modelview := (thumbnailTransform s.m_Model).mul
          (Affine.scale s.m_Model.sliceSpacing.1 s.m_Model.sliceSpacing.2)
        modelviewStack := thumbnailTransform s.m_Model :: s.gl.modelview
          :: s.gl.modelviewStack } } := by
    rw [← hT0]
    simp only [Render.exec, glMultMatrix, glPushMatrix, glLoadIdentity, Render.run_updateGL,
      hmode, thumbnailTransform, Affine.identity_mul]
  have hmain : Draws T0 (Render.exec DrawMainTexture T0)
      (if s.m_Model.imageData.mainLoaded && hasTexture s s.m_Model.imageData.main then
        [Primitive.Texture s.m_Model.imageData.main.id s.m_Model.zoomThumbnail.normalColor]
       else []) := by
    have h := DrawMainTexture_thumbnail_draws T0 (by rw [hT0gl])
    have e : (if T0.m_Model.imageData.mainLoaded then
          texturePrims T0 T0.m_Model.imageData.main false else [])
        = (if s.m_Model.imageData.mainLoaded && hasTexture s s.m_Model.imageData.main then
            [Primitive.Texture s.m_Model.imageData.main.id
              s.m_Model.zoomThumbnail.normalColor]
           else []) := by
      rw [hT0gl]
      simp only [texturePrims, hasTexture, if_true]
      cases s.m_Model.imageData.mainLoaded <;> simp
    rw [e] at h
    exact h
  have htiled : (Render.exec DrawMainTexture T0).m_TiledOverlays = s.m_TiledOverlays := by
    rw [hmain.tiled, hT0gl]
  have hover := DrawTiledOverlays_draws (Render.exec DrawMainTexture T0)
    (by rw [htiled]; exact hthrow)
  rw [htiled] at hover
  have hok : (DrawTiledOverlays.run (Render.exec DrawMainTexture T0)).1 = Except.ok () :=
    DrawTiledOverlays_ok _ (by rw [htiled]; exact hthrow)
  have hgl := (Draws.draws_trans hmain hover).gl
  have hglobal := (Draws.draws_trans hmain hover).global
  rw [Render.run_eq_of_ok hok, Render.andThen_ok, lineLoop_run]
  rw [Render.run_bind, glPopMatrix_run, Render.andThen_ok, Render.run_bind, glMultMatrix_run,
    Render.andThen_ok, lineLoop_run]
  simp only [Render.run_bind, glPopMatrix_run, Render.andThen_ok, Render.run_update]
  change (Render.exec DrawTiledOverlays (Render.exec DrawMainTexture T0)).gl = _ at hgl
  change (Render.exec DrawTiledOverlays (Render.exec DrawMainTexture T0)).m_GlobalOverlays
    = _ at hglobal
  generalize Render.exec DrawTiledOverlays (Render.exec DrawMainTexture T0) = T2
    at hgl hglobal ⊢
  clear hmain hover hok htiled hT0
  subst hT0gl
  obtain ⟨m2, f2, t2, to2, go2, gl2⟩ := T2
  simp only at hgl hglobal
  subst hgl
  subst hglobal
  simp only [Render.exec, glPopMatrix, glMultMatrix, Render.run_updateGL, hmode, thumbnailPrims,
    viewBox, List.map_append, List.append_assoc, List.map_cons, List.map_nil]
  exact ⟨trivial, trivial, trivial, trivial⟩

end GenericSliceRenderer

namespace GenericSliceRenderer

/-- The frame of a paint with the slice initialized and nothing failing: `paintGL` ends
normally and puts on the screen the cleared background, then for every tile of the grid,
in the order of the two loops, what the loop body draws for the tile, under the
viewport and the model-view matrix that the body sets, then the thumbnail and the
global overlays under the viewport of the window. -/
theorem paintGL_frame (s : GenericSliceRenderer)
    (hinit : s.m_Model.sliceInitialized = true) (hno : NoFailure s) :
    (paintGL.run s).1 = Except.ok ()
      ∧ (paintGL.run s).2.gl.frame
        = s.gl.frame
          ++ [⟨Primitive.Clear s.m_Model.background2D.normalColor, s.gl.viewport,
              s.gl.modelview⟩]
          ++ (tiles (toInt32 s.m_Model.layout.1) (toInt32 s.m_Model.layout.2)).flatMap
              (fun rc =>
                (cellPrims s (toInt32 s.m_Model.layout.1) (toInt32 s.m_Model.layout.2)
                    rc.1 rc.2).map
                  (fun p => ⟨p, cellViewport (toInt32 s.m_Model.layout.1) s.m_Model.size.1
                      s.m_Model.size.2 rc.1 rc.2,
                    viewTransform s.m_Model s.m_Model.size.1 s.m_Model.size.2⟩))
          ++ windowEvents s := by
  refine ⟨?_, ?_⟩
  · obtain ⟨⟨a, ha⟩, _⟩ := paintGL_total s hno
    exact ha
  simp only [paintGL, Render.run_bind, Render.run_read, Render.andThen_ok, hinit, if_true,
    glPushAttrib, glDisable, glPopAttrib, glFlush, Render.run_pure, glClearColor, glClear,
    Render.run_updateGL, Render.run_emit]
  generalize hS0 : ({ s with gl := { s.gl with
      clearColor := s.m_Model.background2D.normalColor
      frame := s.gl.frame ++ [⟨Primitive.Clear s.m_Model.background2D.normalColor,
        s.gl.viewport, s.gl.modelview⟩] } } : GenericSliceRenderer) = S0
  have hsc0 : SameScene s S0 := by
    rw [← hS0]
    exact ⟨rfl, rfl, fun _ => rfl, rfl, rfl⟩
  obtain ⟨h1, h2, h3⟩ := cells_frame s S0 (toInt32 s.m_Model.layout.1)
    (toInt32 s.m_Model.layout.2) s.m_Model.size.1 s.m_Model.size.2 hno hsc0
  rw [Render.andThen_of_ok h1]
  have hS0f : S0.gl.frame = s.gl.frame ++ [⟨Primitive.Clear s.m_Model.background2D.normalColor,
        s.gl.viewport, s.gl.modelview⟩] := by rw [← hS0]
  rw [hS0f] at h3
  generalize ((Render.forRange (toInt32 s.m_Model.layout.1) (fun irow =>
    Render.forRange (toInt32 s.m_Model.layout.2) (fun icol =>
      paintGL.cell (toInt32 s.m_Model.layout.1) (toInt32 s.m_Model.layout.2)
        s.m_Model.size.1 s.m_Model.size.2 irow icol))).run S0).2 = T at h2 h3 ⊢
  simp only [Render.run_bind, glViewport, glMatrixMode, glPushMatrix, glLoadIdentity,
    gluOrtho2D, glMultMatrix, Render.run_updateGL, Render.andThen_ok]
  generalize hW : ({ T with gl := { T.gl with
      matrixMode := MatrixMode.GL_MODELVIEW
      modelview := Affine.identity
      modelviewStack := T.gl.modelview :: T.gl.modelviewStack
      projection := Affine.identity.mul
        (Affine.ortho2D 0 (s.m_Model.viewportSize.1 : ℚ) 0 (s.m_Model.viewportSize.2 : ℚ))
      projectionStack := T.gl.projection :: T.gl.projectionStack
      viewport := ⟨0, 0, toInt32 s.m_Model.viewportSize.1,
        toInt32 s.m_Model.viewportSize.2⟩ } } : GenericSliceRenderer) = W
  have hscW : SameScene s W := by
    rw [← hW]
    exact ⟨h2.model, h2.flag, h2.texture, h2.tiled, h2.global⟩
  have hWvp : W.gl.viewport = ⟨0, 0, toInt32 s.m_Model.viewportSize.1,
      toInt32 s.m_Model.viewportSize.2⟩ := by rw [← hW]
  have hWmv : W.gl.modelview = Affine.identity := by rw [← hW]
  have hWmode : W.gl.matrixMode = MatrixMode.GL_MODELVIEW := by rw [← hW]
  have hWf : W.gl.frame = T.gl.frame := by rw [← hW]
  have hnoW := hscW.noFailure hno
  have hrest : ∀ (U : GenericSliceRenderer) (k : Unit → Render Unit),
      (∀ a t, ((k a).run t).2.gl.frame = t.gl.frame) →
      (∀ d ∈ U.m_GlobalOverlays, d.throws = false) →
      ((DrawGlobalOverlays >>= k).run U).2.gl.frame
        = U.gl.frame ++ U.m_GlobalOverlays.map
            (fun d => ⟨Primitive.Delegate d.id, U.gl.viewport, U.gl.modelview⟩) := by
    intro U k hk hU
    have hd : Draws U (DrawGlobalOverlays.run U).2
        (U.m_GlobalOverlays.map (fun d => Primitive.Delegate d.id)) := by
      simp only [DrawGlobalOverlays, Render.run_bind, Render.run_read, Render.andThen_ok]
      exact forEach_delegates_draws _ U hU
    rw [Render.run_bind, Render.andThen_of_ok (DrawGlobalOverlays_ok U hU), hk, hd.gl]
    simp only [List.map_map, Function.comp_def]
  have hk : ∀ (f g : GLContext → GLContext), (∀ c, (f c).frame = c.frame) →
      (∀ c, (g c).frame = c.frame) → ∀ (t : GenericSliceRenderer),
      ((Render.updateGL f >>= fun _ => glPopMatrix >>= fun _ => Render.updateGL g >>= fun _ =>
          glPopMatrix >>= fun _ => (pure () : Render Unit) >>= fun _ =>
            (pure () : Render Unit)).run t).2.gl.frame = t.gl.frame := by
    intro f g hf hg t
    simp only [Render.run_bind, Render.run_updateGL, Render.andThen_ok, Render.run_pure,
      glPopMatrix_run, exec_glPopMatrix_frame, hf, hg]
  have hprims : thumbnailPrims W = thumbnailPrims s := by
    simp only [thumbnailPrims, hasTexture, hscW.texture, hscW.model, hscW.tiled]
  cases hon : s.m_Model.thumbnailOn with
  | false =>
    simp only [Bool.false_eq_true, if_false]
    rw [Render.run_bind, Render.run_pure, Render.andThen_ok]
    refine (hrest W _ ?_ hnoW.2.1).trans ?_
    · intro a t
      refine hk _ _ ?_ ?_ t <;> intro c <;> rfl
    rw [hWf, h3, hWvp, hWmv, hscW.global]
    simp only [windowEvents, hon, Bool.false_eq_true, false_and, if_false, List.nil_append]
  | true =>
    simp only [if_true]
    cases hvis : s.m_Model.zoomThumbnail.visible with
    | false =>
      rw [Render.run_bind, DrawThumbnail_hidden W (by rw [hscW.model]; exact hvis),
        Render.andThen_ok]
      refine (hrest W _ ?_ hnoW.2.1).trans ?_
      · intro a t
        refine hk _ _ ?_ ?_ t <;> intro c <;> rfl
      rw [hWf, h3, hWvp, hWmv, hscW.global]
      simp only [windowEvents, hon, hvis, Bool.false_eq_true, and_false, if_false,
        List.nil_append]
    | true =>
      have hvW : W.m_Model.zoomThumbnail.visible = true := by rw [hscW.model]; exact hvis
      obtain ⟨hg1, hg2, hg3, hg4⟩ := DrawThumbnail_gl W hvW hnoW.1 hWmode
      have hok := ((DrawThumbnail_ends W hvW).2 hnoW.1).1
      rw [Render.run_bind, Render.andThen_of_ok hok]
      refine (hrest _ _ ?_ (by rw [hg1]; exact hnoW.2.1)).trans ?_
      · intro a t
        refine hk _ _ ?_ ?_ t <;> intro c <;> rfl
      rw [hg1, hg2, hg3, hg4, hWf, h3, hWvp, hWmv, hscW.global, hprims, hscW.model]
      simp only [windowEvents, hon, hvis, and_self, if_true, List.append_assoc]

end GenericSliceRenderer

/-! ## The tiles of `paintGL` -/

theorem mem_tiles (nrows ncols r c : Int) :
    (r, c) ∈ tiles nrows ncols ↔ (0 ≤ r ∧ r < nrows ∧ 0 ≤ c ∧ c < ncols) := by
  simp only [tiles, List.mem_flatMap, List.mem_map, List.mem_range, Prod.mk.injEq]
  constructor
  · rintro ⟨_, ⟨i, hi, rfl⟩, _, ⟨j, hj, rfl⟩, h1, h2⟩
    subst h1 h2
    refine ⟨Int.ofNat_nonneg i, ?_, Int.ofNat_nonneg j, ?_⟩
    · have : ((i : Nat) : Int) < nrows := by omega
      exact this
    · have : ((j : Nat) : Int) < ncols := by omega
      exact this
  · rintro ⟨h1, h2, h3, h4⟩
    refine ⟨r, ⟨r.toNat, by omega, ?_⟩, c, ⟨c.toNat, by omega, ?_⟩, rfl, rfl⟩
    · exact Int.toNat_of_nonneg h1
    · exact Int.toNat_of_nonneg h3

theorem flatMap_congr_mem {γ δ : Type} (l : List γ) (f g : γ → List δ)
    (h : ∀ a ∈ l, f a = g a) : l.flatMap f = l.flatMap g := by
  induction l with
  | nil => rfl
  | cons a rest ih =>
    rw [List.flatMap_cons, List.flatMap_cons, h a (List.mem_cons_self _ _),
      ih (fun b hb => h b (List.mem_cons_of_mem _ hb))]

theorem toInt32_lt (z : Int) : toInt32 z < 2147483648 := by
  unfold toInt32
  split <;> omega

namespace GenericSliceRenderer

theorem cellViewport_fits (nrows ncols cell_w cell_h irow icol : Int)
    (hrow0 : 0 ≤ irow) (hrow : irow < nrows) (hcol0 : 0 ≤ icol) (hcol : icol < ncols)
    (hw0 : 0 ≤ cell_w) (hh0 : 0 ≤ cell_h)
    (hw1 : cell_w < 2147483648) (hh1 : cell_h < 2147483648)
    (hrows : nrows < 2147483648) (hcols : ncols < 2147483648)
    (hw : (ncols - 1) * cell_w < 2147483648) (hh : (nrows - 1) * cell_h < 2147483648) :
    cellViewport nrows cell_w cell_h irow icol
      = ⟨icol * cell_w, (nrows - 1 - irow) * cell_h, cell_w, cell_h⟩ := by
  have hx0 : 0 ≤ icol * cell_w := Int.mul_nonneg hcol0 hw0
  have hx1 : icol * cell_w ≤ (ncols - 1) * cell_w :=
    Int.mul_le_mul_of_nonneg_right (by omega) hw0
  have hy0 : 0 ≤ (nrows - 1 - irow) * cell_h := Int.mul_nonneg (by omega) hh0
  have hy1 : (nrows - 1 - irow) * cell_h ≤ (nrows - 1) * cell_h :=
    Int.mul_le_mul_of_nonneg_right (by omega) hh0
  have e1 : toUInt32 icol = icol := toUInt32_of_range hcol0 (by omega)
  have e2 : toInt32 (nrows - 1 - irow) = nrows - 1 - irow :=
    toInt32_of_range (by omega) (by omega)
  have e3 : toUInt32 (nrows - 1 - irow) = nrows - 1 - irow :=
    toUInt32_of_range (by omega) (by omega)
  unfold cellViewport
  rw [e1, e2, e3, toUInt32_of_range hx0 (by omega), toUInt32_of_range hy0 (by omega),
    toInt32_of_range hx0 (by omega), toInt32_of_range hy0 (by omega),
    toInt32_of_range hw0 hw1, toInt32_of_range hh0 hh1]

theorem viewTransform_apply (m : GenericSliceModel) (cell_w cell_h : Int) (x y : ℚ) :
    (viewTransform m cell_w cell_h).apply ⟨x, y⟩
      = ⟨(cell_w : ℚ) / 2 + m.viewZoom * (m.sliceSpacing.1 * x - m.viewPosition.1),
         (cell_h : ℚ) / 2 + m.viewZoom * (m.sliceSpacing.2 * y - m.viewPosition.2)⟩ := by
  simp only [viewTransform, Affine.mul, Affine.translate, Affine.scale, Affine.apply]
  congr 1 <;> ring

theorem viewTransform_eq (m : GenericSliceModel) (cell_w cell_h : Int) :
    viewTransform m cell_w cell_h
      = (((Affine.translate ((cell_w : ℚ) / 2) ((cell_h : ℚ) / 2)).mul
            (Affine.scale m.viewZoom m.viewZoom)).mul
          (Affine.translate (-m.viewPosition.1) (-m.viewPosition.2))).mul
        (Affine.scale m.sliceSpacing.1 m.sliceSpacing.2) := by
  simp only [viewTransform]
  congr 4 <;> ring

end GenericSliceRenderer

/-! ## The viewport and the view transform of the tiles in a paint -/

namespace GenericSliceRenderer

theorem noFailure_threeInFour : NoFailure Examples.threeInFour :=
  ⟨fun d hd => absurd hd (List.not_mem_nil d), fun d hd => absurd hd (List.not_mem_nil d),
    fun h => absurd h (by decide)⟩

theorem noFailure_wideTiles : NoFailure Examples.wideTiles :=
  ⟨fun d hd => absurd hd (List.not_mem_nil d), fun d hd => absurd hd (List.not_mem_nil d),
    fun h => absurd h (by decide)⟩

/-- C8, a state that refutes it: a grid of one row and three columns of cells
`1200000000` pixels wide and `100` pixels high.  `paintGL` ends normally and draws the
layer of the tile `(0, 2)` under a viewport whose origin is `(-1894967296, 0)`, and
not `(2 * 1200000000, 0)`: the product is taken in `unsigned int` and passed as a
`GLint`. -/
theorem paintGL_viewport_counterexample :
    toInt32 Examples.wideTiles.m_Model.layout.1 = 1
      ∧ toInt32 Examples.wideTiles.m_Model.layout.2 = 3
      ∧ Examples.wideTiles.m_Model.size = (1200000000, 100)
      ∧ (paintGL.run Examples.wideTiles).1 = Except.ok ()
      ∧ (paintGL.run Examples.wideTiles).2.gl.frame.map (fun e => (e.prim, e.viewport))
        = [(Primitive.Clear ⟨0, 0, 0⟩, ⟨0, 0, 0, 0⟩),
           (Primitive.Texture 1 (Vector3d.fill 1), ⟨0, 0, 1200000000, 100⟩),
           (Primitive.Texture 2 (Vector3d.fill 1), ⟨1200000000, 0, 1200000000, 100⟩),
           (Primitive.Texture 3 (Vector3d.fill 1), ⟨-1894967296, 0, 1200000000, 100⟩)]
      ∧ (2 : Int) * 1200000000 ≠ -1894967296 := by
  refine ⟨by decide, by decide, rfl, (paintGL_frame _ rfl noFailure_wideTiles).1, ?_,
    by decide⟩
  rw [(paintGL_frame _ rfl noFailure_wideTiles).2]
  rfl

/-- C8, amended: for every grid `(rows, cols)` and every cell size `(w, h)` whose tiles
have their origin and their size below `2^31` (`w`, `h`, `(cols - 1) * w` and
`(rows - 1) * h`), in a state with the slice initialized and in which nothing fails,
`paintGL` ends normally and what it puts on the screen is the cleared background,
then, for the tiles `(row, col)` with `0 ≤ row < rows` and `0 ≤ col < cols` in the
order of the loops, everything drawn for the tile under the viewport of origin
`(col * w, (rows - 1 - row) * h)` and size `(w, h)`, then the thumbnail and the global
overlays.  The first part of the loop body sets that viewport for each such tile, and
the vertical origin is largest in row `0`. -/
theorem paintGL_tile_viewport (self : GenericSliceRenderer) (rows cols w h : Int)
    (hrows : toInt32 self.m_Model.layout.1 = rows)
    (hcols : toInt32 self.m_Model.layout.2 = cols)
    (hsize : self.m_Model.size = (w, h))
    (hinit : self.m_Model.sliceInitialized = true) (hno : NoFailure self)
    (hw0 : 0 ≤ w) (hh0 : 0 ≤ h) (hw1 : w < 2147483648) (hh1 : h < 2147483648)
    (hw : (cols - 1) * w < 2147483648) (hh : (rows - 1) * h < 2147483648) :
    (paintGL.run self).1 = Except.ok ()
      ∧ (paintGL.run self).2.gl.frame
        = self.gl.frame
          ++ [⟨Primitive.Clear self.m_Model.background2D.normalColor, self.gl.viewport,
              self.gl.modelview⟩]
          ++ (tiles rows cols).flatMap (fun rc =>
              (cellPrims self rows cols rc.1 rc.2).map
                (fun p => ⟨p, ⟨rc.2 * w, (rows - 1 - rc.1) * h, w, h⟩,
                  viewTransform self.m_Model w h⟩))
          ++ windowEvents self
      ∧ (∀ row col : Int,
          (row, col) ∈ tiles rows cols ↔ (0 ≤ row ∧ row < rows ∧ 0 ≤ col ∧ col < cols))
      ∧ (∀ row col : Int, 0 ≤ row → row < rows → 0 ≤ col → col < cols →
          (∀ t : GenericSliceRenderer,
            ((paintGL.setupCell rows w h row col).run t).2.gl.viewport
              = ⟨col * w, (rows - 1 - row) * h, w, h⟩)
          ∧ (rows - 1 - row) * h ≤ (rows - 1 - 0) * h) := by
  have hfit : ∀ row col : Int, 0 ≤ row → row < rows → 0 ≤ col → col < cols →
      cellViewport rows w h row col = ⟨col * w, (rows - 1 - row) * h, w, h⟩ :=
    fun row col h1 h2 h3 h4 => cellViewport_fits rows cols w h row col h1 h2 h3 h4 hw0 hh0
      hw1 hh1 (by rw [← hrows]; exact toInt32_lt _) (by rw [← hcols]; exact toInt32_lt _)
      hw hh
  obtain ⟨hok, hframe⟩ := paintGL_frame self hinit hno
  rw [hrows, hcols, hsize] at hframe
  refine ⟨hok, ?_, mem_tiles rows cols, ?_⟩
  · rw [hframe]
    congr 2
    refine flatMap_congr_mem _ _ _ (fun rc hrc => ?_)
    obtain ⟨h1, h2, h3, h4⟩ := (mem_tiles rows cols rc.1 rc.2).mp hrc
    simp only [hfit rc.1 rc.2 h1 h2 h3 h4]
  · intro row col h1 h2 h3 h4
    refine ⟨fun t => ?_, Int.mul_le_mul_of_nonneg_right (by omega) hh0⟩
    rw [setupCell_run]
    exact hfit row col h1 h2 h3 h4

/-- C8 in a grid of two rows and two columns of cells of `200` by `100` pixels, with
three layers that are not sticky: the tiles of the top row are drawn under the
viewports of origin `(0, 100)` and `(200, 100)`, the tile `(1, 0)` under the viewport of
origin `(0, 0)`, and the tile `(1, 1)` has no layer. -/
theorem paintGL_tile_viewport_witness :
    (paintGL.run Examples.threeInFour).1 = Except.ok ()
      ∧ (paintGL.run Examples.threeInFour).2.gl.frame.map
          (fun e => (e.prim, e.viewport))
        = [(Primitive.Clear ⟨0, 0, 0⟩, ⟨0, 0, 0, 0⟩),
           (Primitive.Texture 1 (Vector3d.fill 1), ⟨0, 100, 200, 100⟩),
           (Primitive.Texture 2 (Vector3d.fill 1), ⟨200, 100, 200, 100⟩),
           (Primitive.Texture 3 (Vector3d.fill 1), ⟨0, 0, 200, 100⟩)] := by
  have h := paintGL_tile_viewport Examples.threeInFour 2 2 200 100
    (by decide) (by decide) rfl rfl noFailure_threeInFour (by decide) (by decide)
    (by decide) (by decide) (by decide) (by decide)
  refine ⟨h.1, ?_⟩
  rw [h.2.1]
  rfl

/-- C9: for every view state (zoom, view position, spacing) and every cell size
`(w, h)`, in a state with the slice initialized and in which nothing fails, `paintGL`
ends normally and draws everything of every tile of the grid under one and the same
model-view matrix, which is
`translate(w/2, h/2) . scale(zoom) . translate(-pan) . scale(spacing)` and sends the
voxel `(x, y)` to `(w/2 + zoom * (sx * x - pan_x), h/2 + zoom * (sy * y - pan_y))`
(over exact rationals); the first part of the loop body builds that matrix for every
`(row, col)`, from every state with the same model. -/
theorem paintGL_tile_modelview (self : GenericSliceRenderer) (w h : Int)
    (hsize : self.m_Model.size = (w, h))
    (hinit : self.m_Model.sliceInitialized = true) (hno : NoFailure self) :
    (paintGL.run self).1 = Except.ok ()
      ∧ (paintGL.run self).2.gl.frame
        = self.gl.frame
          ++ [⟨Primitive.Clear self.m_Model.background2D.normalColor, self.gl.viewport,
              self.gl.modelview⟩]
          ++ (tiles (toInt32 self.m_Model.layout.1) (toInt32 self.m_Model.layout.2)).flatMap
              (fun rc =>
                (cellPrims self (toInt32 self.m_Model.layout.1)
                    (toInt32 self.m_Model.layout.2) rc.1 rc.2).map
                  (fun p => ⟨p, cellViewport (toInt32 self.m_Model.layout.1) w h rc.1 rc.2,
                    (((Affine.translate ((w : ℚ) / 2) ((h : ℚ) / 2)).mul
                        (Affine.scale self.m_Model.viewZoom self.m_Model.viewZoom)).mul
                      (Affine.translate (-self.m_Model.viewPosition.1)
                        (-self.m_Model.viewPosition.2))).mul
                    (Affine.scale self.m_Model.sliceSpacing.1
                      self.m_Model.sliceSpacing.2)⟩))
          ++ windowEvents self
      ∧ (∀ x y : ℚ,
          ((((Affine.translate ((w : ℚ) / 2) ((h : ℚ) / 2)).mul
                (Affine.scale self.m_Model.viewZoom self.m_Model.viewZoom)).mul
              (Affine.translate (-self.m_Model.viewPosition.1)
                (-self.m_Model.viewPosition.2))).mul
            (Affine.scale self.m_Model.sliceSpacing.1 self.m_Model.sliceSpacing.2)).apply
              ⟨x, y⟩
            = ⟨(w : ℚ) / 2 + self.m_Model.viewZoom
                  * (self.m_Model.sliceSpacing.1 * x - self.m_Model.viewPosition.1),
               (h : ℚ) / 2 + self.m_Model.viewZoom
                  * (self.m_Model.sliceSpacing.2 * y - self.m_Model.viewPosition.2)⟩)
      ∧ (∀ (t : GenericSliceRenderer) (nrows row col : Int), t.m_Model = self.m_Model →
          ((paintGL.setupCell nrows w h row col).run t).2.gl.modelview
            = (((Affine.translate ((w : ℚ) / 2) ((h : ℚ) / 2)).mul
                  (Affine.scale self.m_Model.viewZoom self.m_Model.viewZoom)).mul
                (Affine.translate (-self.m_Model.viewPosition.1)
                  (-self.m_Model.viewPosition.2))).mul
              (Affine.scale self.m_Model.sliceSpacing.1 self.m_Model.sliceSpacing.2)) := by
  obtain ⟨hok, hframe⟩ := paintGL_frame self hinit hno
  rw [hsize] at hframe
  refine ⟨hok, ?_, ?_, ?_⟩
  · rw [hframe, viewTransform_eq]
  · intro x y
    rw [← viewTransform_eq, viewTransform_apply]
  · intro t nrows row col ht
    rw [setupCell_run, ← viewTransform_eq, ht]

/-- C9 in a grid of two rows and two columns of cells of `200` by `100` pixels, with
zoom `2`, view position `(30, 20)` and unit spacing: everything in the three tiles
that have a layer is drawn under one matrix, which sends the voxel `(10, 10)` to
`(60, 30)`. -/
theorem paintGL_tile_modelview_witness :
    (paintGL.run Examples.threeInFour).1 = Except.ok ()
      ∧ (∃ M : Affine,
          (paintGL.run Examples.threeInFour).2.gl.frame.map
              (fun e => (e.prim, e.modelview))
            = [(Primitive.Clear ⟨0, 0, 0⟩, Affine.identity),
               (Primitive.Texture 1 (Vector3d.fill 1), M),
               (Primitive.Texture 2 (Vector3d.fill 1), M),
               (Primitive.Texture 3 (Vector3d.fill 1), M)]
          ∧ M.apply ⟨10, 10⟩ = ⟨60, 30⟩) := by
  have h := paintGL_tile_modelview Examples.threeInFour 200 100
    rfl rfl noFailure_threeInFour
  refine ⟨h.1,
    (((Affine.translate (((200 : Int) : ℚ) / 2) (((100 : Int) : ℚ) / 2)).mul
        (Affine.scale Examples.threeInFour.m_Model.viewZoom
          Examples.threeInFour.m_Model.viewZoom)).mul
      (Affine.translate (-Examples.threeInFour.m_Model.viewPosition.1)
        (-Examples.threeInFour.m_Model.viewPosition.2))).mul
    (Affine.scale Examples.threeInFour.m_Model.sliceSpacing.1
      Examples.threeInFour.m_Model.sliceSpacing.2), ?_, ?_⟩
  · rw [h.2.1]
    rfl
  · rw [h.2.2.1 10 10]
    simp [Examples.threeInFour, Examples.thumbnailOff, Examples.renderer, Examples.model]
    norm_num

end GenericSliceRenderer

/-! ## The segmentation in the tiles of a paint -/

namespace GenericSliceRenderer

/-- C17: `paintGL` on a grid of one row and two columns with the layers main image,
segmentation (label role, sticky, drawable, opacity `1` of its own) and an overlay
that is not sticky, the segmentation loaded and the global segmentation opacity
`3 / 10`.  The paint ends normally, and in each of the two tiles the texture of the
segmentation is drawn twice: by the loop over the sticky layers with the opacity `1`
of the layer, then last with the global opacity `3 / 10`.  With the same layers in a
single tile, the loop over the layers leaves the layer of label role out and the
segmentation is drawn once, last, with the global opacity. -/
theorem paintGL_segmentation_twice :
    Examples.stickyLabelTiles.m_Model.layout = (1, 2)
      ∧ Examples.stickyLabelTiles.m_Model.imageData.layers
          = [⟨LayerRole.MAIN_ROLE, Examples.mainLayer⟩,
             ⟨LayerRole.LABEL_ROLE, Examples.stickyLabel⟩,
             ⟨LayerRole.OVERLAY_ROLE, Examples.overlayA⟩]
      ∧ Examples.stickyLabelTiles.m_Model.imageData.segmentation = Examples.stickyLabel
      ∧ Examples.stickyLabelTiles.m_Model.imageData.segmentationLoaded = true
      ∧ Examples.stickyLabelTiles.m_Model.segmentationAlpha = 3 / 10
      ∧ (Examples.mainLayer.id = 1 ∧ Examples.overlayA.id = 2 ∧ Examples.stickyLabel.id = 7)
      ∧ (Examples.stickyLabel.sticky = true ∧ Examples.stickyLabel.drawable = true
          ∧ Examples.stickyLabel.alpha = 1)
      ∧ (paintGL.run Examples.stickyLabelTiles).1 = Except.ok ()
      ∧ (paintGL.run Examples.stickyLabelTiles).2.gl.frame.map
          (fun e => (e.prim, e.viewport))
        = [(Primitive.Clear ⟨0, 0, 0⟩, ⟨0, 0, 0, 0⟩),
           (Primitive.Texture 1 (Vector3d.fill 1), ⟨0, 0, 200, 100⟩),
           (Primitive.TextureTransparent 7 1, ⟨0, 0, 200, 100⟩),
           (Primitive.TextureTransparent 7 (3 / 10), ⟨0, 0, 200, 100⟩),
           (Primitive.Texture 2 (Vector3d.fill 1), ⟨200, 0, 200, 100⟩),
           (Primitive.TextureTransparent 7 1, ⟨200, 0, 200, 100⟩),
           (Primitive.TextureTransparent 7 (3 / 10), ⟨200, 0, 200, 100⟩)]
      ∧ Examples.stickyLabelSingle.m_Model.layout = (1, 1)
      ∧ Examples.stickyLabelSingle.m_Model.imageData
          = Examples.stickyLabelTiles.m_Model.imageData
      ∧ Examples.stickyLabelSingle.m_Model.segmentationAlpha = 3 / 10
      ∧ (paintGL.run Examples.stickyLabelSingle).1 = Except.ok ()
      ∧ (paintGL.run Examples.stickyLabelSingle).2.gl.frame.map
          (fun e => (e.prim, e.viewport))
        = [(Primitive.Clear ⟨0, 0, 0⟩, ⟨0, 0, 0, 0⟩),
           (Primitive.Texture 1 (Vector3d.fill 1), ⟨0, 0, 200, 100⟩),
           (Primitive.TextureTransparent 2 1, ⟨0, 0, 200, 100⟩),
           (Primitive.TextureTransparent 7 (3 / 10), ⟨0, 0, 200, 100⟩)] := by
  have hno2 : NoFailure Examples.stickyLabelTiles :=
    ⟨fun d hd => absurd hd (List.not_mem_nil d), fun d hd => absurd hd (List.not_mem_nil d),
      fun _ => rfl⟩
  have hno1 : NoFailure Examples.stickyLabelSingle :=
    ⟨fun d hd => absurd hd (List.not_mem_nil d), fun d hd => absurd hd (List.not_mem_nil d),
      fun _ => rfl⟩
  refine ⟨rfl, rfl, rfl, rfl, rfl, ⟨rfl, rfl, rfl⟩, ⟨rfl, rfl, rfl⟩,
    (paintGL_frame _ rfl hno2).1, ?_, rfl, rfl, rfl, (paintGL_frame _ rfl hno1).1, ?_⟩
  · rw [(paintGL_frame _ rfl hno2).2]
    rfl
  · rw [(paintGL_frame _ rfl hno1).2]
    rfl

end GenericSliceRenderer
